import Mathlib

/-!
# ngx_wasm_module: pairs codec and timer loop

A shallow embedding of `src/common/proxy_wasm/ngx_proxy_wasm_util.c`.

Conventions of the embedding:

* bytes are natural numbers; a buffer that the code fills sequentially is the
  list of the bytes written, in order;
* `size_t` / `ngx_uint_t` quantities are natural numbers; every store into a
  `uint32_t` object is taken modulo `2 ^ 32`;
* a `uint32_t` is laid out in host byte order, which is little-endian on the
  hosts the proxy-wasm ABI targets;
* nginx allocation routines (`ngx_array_init`, `ngx_array_push`,
  `ngx_pnalloc`, `ngx_calloc`) are external: their success is read from an
  oracle.
-/

namespace NgxWasm

/-! ## nginx data types -/

/-- `NGX_PROXY_WASM_PTR_SIZE`. -/
def NGX_PROXY_WASM_PTR_SIZE : Nat := 4

/-- `NGX_OK`. -/
def NGX_OK : Int := 0

/-- `NGX_ERROR`. -/
def NGX_ERROR : Int := -1

/-- `ngx_str_t`: `data` is the memory readable at the `data` pointer, of which
the first `len` bytes are the string. -/
structure ngx_str_t where
  len : Nat
  data : List Nat
deriving DecidableEq, Repr

/-- `ngx_table_elt_t`. -/
structure ngx_table_elt_t where
  hash : Nat
  key : ngx_str_t
  value : ngx_str_t
  lowcase_key : Option (List Nat)
deriving DecidableEq, Repr

/-- `ngx_list_t`: `part` holds the `nelts` elements of the first part
(`list->part`), `next` the chain of parts reached through `part->next`.
`ngx_list_push` allocates a further part only to store an element in it, so
each part of the chain holds at least one element: it is recorded as its
first element and the remaining ones. -/
structure ngx_list_t where
  part : List ngx_table_elt_t
  next : List (ngx_table_elt_t × List ngx_table_elt_t)
deriving DecidableEq, Repr

/-- The elements of a chain of parts, in order. -/
def ngx_list_chain_elts : List (ngx_table_elt_t × List ngx_table_elt_t) → List ngx_table_elt_t
  | [] => []
  | p :: ps => (p.1 :: p.2) ++ ngx_list_chain_elts ps

/-- The elements met by the list iteration idiom
`for (i = 0; ; i++) { if (i >= part->nelts) { if (part->next == NULL) break;
part = part->next; elt = part->elts; i = 0; } ... elt[i] ... }`:
those of the first part, then those of each further part, in order. -/
def ngx_list_elts (list : ngx_list_t) : List ngx_table_elt_t :=
  list.part ++ ngx_list_chain_elts list.next

/-- The store `*((uint32_t *) buf) = v`: the four bytes written. -/
def ngx_u32_store (v : Nat) : List Nat :=
  [v % 2 ^ 32 % 256, v % 2 ^ 32 / 256 % 256, v % 2 ^ 32 / 65536 % 256,
    v % 2 ^ 32 / 16777216 % 256]

/-- The load `*((uint32_t *) buf)` from the four bytes at `buf`. -/
def ngx_u32_load (b : List Nat) : Nat :=
  (b.getD 0 0 + 256 * b.getD 1 0 + 65536 * b.getD 2 0 + 16777216 * b.getD 3 0) % 2 ^ 32

/-! ## ngx_proxy_wasm_pairs_count -/

/-- The loop of `ngx_proxy_wasm_pairs_count` over the elements still to
visit, `c` being the running count. -/
def pairs_count_loop : List ngx_table_elt_t → Nat → Nat
  | [], c => c
  | e :: es, c =>
    if e.hash = 0 then pairs_count_loop es c
    else pairs_count_loop es (c + 1)

/-- `ngx_proxy_wasm_pairs_count`. -/
def ngx_proxy_wasm_pairs_count (list : ngx_list_t) : Nat :=
  pairs_count_loop (ngx_list_elts list) 0

/-! ## ngx_proxy_wasm_pairs_size -/

/-- The first loop of `ngx_proxy_wasm_pairs_size` (over `list`), on the
elements still to visit; the state is `(size, n)`. -/
def pairs_size_list_loop (max : Nat) : List ngx_table_elt_t → Nat → Nat → Nat × Nat
  | [], size, n => (size, n)
  | e :: es, size, n =>
    if e.hash = 0 then pairs_size_list_loop max es size n
    else
      let size1 := size + NGX_PROXY_WASM_PTR_SIZE * 2
      let size2 := size1 + (e.key.len + 1)
      let size3 := size2 + (e.value.len + 1)
      if max ≠ 0 ∧ n + 1 ≥ max then (size3, n + 1)
      else pairs_size_list_loop max es size3 (n + 1)

/-- The second loop of `ngx_proxy_wasm_pairs_size` (over `extras`); the state
is `(size, n)`. On `break` the increment `n++` of the `for` is not run. -/
def pairs_size_extras_loop (max : Nat) : List ngx_table_elt_t → Nat → Nat → Nat × Nat
  | [], size, n => (size, n)
  | e :: es, size, n =>
    let size1 := size + NGX_PROXY_WASM_PTR_SIZE * 2
    let size2 := size1 + (e.key.len + 1)
    let size3 := size2 + (e.value.len + 1)
    if max ≠ 0 ∧ n ≥ max then (size3, n)
    else pairs_size_extras_loop max es size3 (n + 1)

/-- `ngx_proxy_wasm_pairs_size`; `extras` is `none` for a NULL pointer. -/
def ngx_proxy_wasm_pairs_size (list : ngx_list_t) (extras : Option (List ngx_table_elt_t))
    (max : Nat) : Nat :=
  let st := pairs_size_list_loop max (ngx_list_elts list) NGX_PROXY_WASM_PTR_SIZE 0
  match extras with
  | none => st.1
  | some ex => (pairs_size_extras_loop max ex st.1 st.2).1

/-! ## ngx_proxy_wasm_pairs_marshal -/

/-- The length-table loop of `ngx_proxy_wasm_pairs_marshal` over `extras`:
`for (i = 0; i < extras->nelts && n < count; i++, n++)`. The state is the
bytes written so far and `n`. -/
def marshal_lens_extras_loop (count : Nat) : List ngx_table_elt_t → List Nat → Nat →
    List Nat × Nat
  | [], buf, n => (buf, n)
  | e :: es, buf, n =>
    if n < count then
      marshal_lens_extras_loop count es
        (buf ++ ngx_u32_store e.key.len ++ ngx_u32_store e.value.len) (n + 1)
    else (buf, n)

/-- The length-table loop of `ngx_proxy_wasm_pairs_marshal` over `list`:
`for (i = 0; n < count; i++)`, skipping the elements with `hash == 0`. -/
def marshal_lens_list_loop (count : Nat) : List ngx_table_elt_t → List Nat → Nat →
    List Nat × Nat
  | [], buf, n => (buf, n)
  | e :: es, buf, n =>
    if n < count then
      if e.hash = 0 then marshal_lens_list_loop count es buf n
      else
        marshal_lens_list_loop count es
          (buf ++ ngx_u32_store e.key.len ++ ngx_u32_store e.value.len) (n + 1)
    else (buf, n)

/-- The bytes `ngx_cpymem(buf, s.data, s.len)` followed by `*buf++ = 0` write. -/
def ngx_cpymem_nul (s : ngx_str_t) : List Nat :=
  s.data.take s.len ++ [0]

/-- The payload loop of `ngx_proxy_wasm_pairs_marshal` over `extras`. -/
def marshal_data_extras_loop (count : Nat) : List ngx_table_elt_t → List Nat → Nat →
    List Nat × Nat
  | [], buf, n => (buf, n)
  | e :: es, buf, n =>
    if n < count then
      marshal_data_extras_loop count es
        (buf ++ ngx_cpymem_nul e.key ++ ngx_cpymem_nul e.value) (n + 1)
    else (buf, n)

/-- The payload loop of `ngx_proxy_wasm_pairs_marshal` over `list`. -/
def marshal_data_list_loop (count : Nat) : List ngx_table_elt_t → List Nat → Nat →
    List Nat × Nat
  | [], buf, n => (buf, n)
  | e :: es, buf, n =>
    if n < count then
      if e.hash = 0 then marshal_data_list_loop count es buf n
      else
        marshal_data_list_loop count es
          (buf ++ ngx_cpymem_nul e.key ++ ngx_cpymem_nul e.value) (n + 1)
    else (buf, n)

/-- What a call of `ngx_proxy_wasm_pairs_marshal` leaves behind: the bytes
written from `buf[0]` on, the object `truncated` points to (`none` for a NULL
pointer), the header value `count`, and the value of `n` at each of the two
`ngx_wasm_assert(n == count)`. -/
structure marshal_result where
  buf : List Nat
  truncated : Option Nat
  count : Nat
  n_lens : Nat
  n_data : Nat
deriving DecidableEq, Repr

/-- The header value computed at the top of `ngx_proxy_wasm_pairs_marshal`,
before the cap: `count` is a `uint32_t`. -/
def marshal_count (list : ngx_list_t) (extras : Option (List ngx_table_elt_t)) : Nat :=
  let count := ngx_proxy_wasm_pairs_count list % 2 ^ 32
  match extras with
  | none => count
  | some ex => (count + ex.length) % 2 ^ 32

/-- `ngx_proxy_wasm_pairs_marshal`. `truncated` is `none` for a NULL pointer
and `some v` for a pointer to an object holding `v`. -/
def ngx_proxy_wasm_pairs_marshal (list : ngx_list_t) (extras : Option (List ngx_table_elt_t))
    (max : Nat) (truncated : Option Nat) : marshal_result :=
  let count0 := marshal_count list extras
  let capped := decide (max ≠ 0 ∧ count0 > max)
  let count := if capped then max % 2 ^ 32 else count0
  let truncated1 := if capped then truncated.map (fun _ => count) else truncated
  let buf0 := ngx_u32_store count
  let st1 :=
    match extras with
    | none => (buf0, 0)
    | some ex => marshal_lens_extras_loop count ex buf0 0
  let st2 := marshal_lens_list_loop count (ngx_list_elts list) st1.1 st1.2
  let st3 :=
    match extras with
    | none => (st2.1, 0)
    | some ex => marshal_data_extras_loop count ex st2.1 0
  let st4 := marshal_data_list_loop count (ngx_list_elts list) st3.1 st3.2
  { buf := st4.1, truncated := truncated1, count := count, n_lens := st2.2, n_data := st4.2 }

/-! ## ngx_proxy_wasm_pairs_unmarshal -/

/-- `ngx_proxy_wasm_marshalled_map_t`: `data` is the memory readable at the
`data` pointer, `len` the length the map declares. -/
structure ngx_proxy_wasm_marshalled_map_t where
  data : List Nat
  len : Nat
deriving DecidableEq, Repr

/-- `ngx_pool_t`, seen through its allocations: `pool k` tells whether the
`k`-th allocation request made during the call succeeds. -/
abbrev ngx_pool_t := Nat → Bool

/-- Reading `n` bytes at offset `off` of the memory `data`; `none` when the
read leaves the readable memory. -/
def ngx_mem_read (data : List Nat) (off n : Nat) : Option (List Nat) :=
  if off + n ≤ data.length then some ((data.drop off).take n) else none

/-- The state of `ngx_proxy_wasm_pairs_unmarshal` at the end of one of its
loops: whether the loop ran to its end (`false`: it left through
`goto failed`), the elements of `dst`, the offset `buf - map->data`, and the
number of allocation requests made so far. -/
structure unmarshal_state where
  ok : Bool
  dst : List ngx_table_elt_t
  off : Nat
  nalloc : Nat
deriving DecidableEq, Repr

/-- The first loop of `ngx_proxy_wasm_pairs_unmarshal`,
`for (i = 0; i < count; i++)`, by recursion on `count - i`: pushes one
element and reads its two lengths. `none` when a read leaves the readable
memory. -/
def unmarshal_lens_loop (pool : ngx_pool_t) (data : List Nat) :
    Nat → List ngx_table_elt_t → Nat → Nat → Option unmarshal_state
  | 0, dst, off, a => some { ok := true, dst := dst, off := off, nalloc := a }
  | k + 1, dst, off, a =>
    if pool a then
      match ngx_mem_read data off NGX_PROXY_WASM_PTR_SIZE with
      | none => none
      | some kb =>
        match ngx_mem_read data (off + NGX_PROXY_WASM_PTR_SIZE) NGX_PROXY_WASM_PTR_SIZE with
        | none => none
        | some vb =>
          unmarshal_lens_loop pool data k
            (dst ++ [{ hash := 0, lowcase_key := none,
                       key := { len := ngx_u32_load kb, data := [] },
                       value := { len := ngx_u32_load vb, data := [] } }])
            (off + NGX_PROXY_WASM_PTR_SIZE + NGX_PROXY_WASM_PTR_SIZE) (a + 1)
    else some { ok := false, dst := dst, off := off, nalloc := a + 1 }

/-- The second loop of `ngx_proxy_wasm_pairs_unmarshal`,
`for (i = 0; i < dst->nelts; i++)`, on the elements still to fill (`todo`)
and those already filled (`done`): allocates and copies `len + 1` bytes for
the key, then for the value. -/
def unmarshal_data_loop (pool : ngx_pool_t) (data : List Nat) :
    List ngx_table_elt_t → List ngx_table_elt_t → Nat → Nat → Option unmarshal_state
  | [], done, off, a => some { ok := true, dst := done, off := off, nalloc := a }
  | e :: todo, done, off, a =>
    if pool a then
      match ngx_mem_read data off (e.key.len + 1) with
      | none => none
      | some kd =>
        if pool (a + 1) then
          match ngx_mem_read data (off + (e.key.len + 1)) (e.value.len + 1) with
          | none => none
          | some vd =>
            unmarshal_data_loop pool data todo
              (done ++ [{ e with key := { len := e.key.len, data := kd },
                                 value := { len := e.value.len, data := vd } }])
              (off + (e.key.len + 1) + (e.value.len + 1)) (a + 2)
        else some { ok := false, dst := done ++ e :: todo, off := off + (e.key.len + 1),
                    nalloc := a + 2 }
    else some { ok := false, dst := done ++ e :: todo, off := off, nalloc := a + 1 }

/-- What a call of `ngx_proxy_wasm_pairs_unmarshal` leaves behind: the return
code, the elements of `dst` (none once the array is destroyed) and the number
of bytes of `map->data` read, which are those at the offsets below `nread`. -/
structure unmarshal_result where
  rc : Int
  dst : List ngx_table_elt_t
  nread : Nat
deriving DecidableEq, Repr

/-- `ngx_proxy_wasm_pairs_unmarshal`; `none` when a read leaves the readable
memory. -/
def ngx_proxy_wasm_pairs_unmarshal (pool : ngx_pool_t)
    (map : ngx_proxy_wasm_marshalled_map_t) : Option unmarshal_result :=
  let hdr : Option (Nat × Nat) :=
    if map.len ≠ 0 then
      (ngx_mem_read map.data 0 NGX_PROXY_WASM_PTR_SIZE).map
        (fun b => (ngx_u32_load b, NGX_PROXY_WASM_PTR_SIZE))
    else some (0, 0)
  match hdr with
  | none => none
  | some (count, off) =>
    if pool 0 then
      match unmarshal_lens_loop pool map.data count [] off 1 with
      | none => none
      | some s1 =>
        if s1.ok then
          match unmarshal_data_loop pool map.data s1.dst [] s1.off s1.nalloc with
          | none => none
          | some s2 =>
            if s2.ok then some { rc := NGX_OK, dst := s2.dst, nread := s2.off }
            else some { rc := NGX_ERROR, dst := [], nread := s2.off }
        else some { rc := NGX_ERROR, dst := [], nread := s1.off }
    else some { rc := NGX_ERROR, dst := [], nread := off }

/-! ## ngx_proxy_wasm_filter_tick_handler -/

/-- The fields of `ngx_proxy_wasm_filter_t` the tick handler reads;
`root_ictx` is `none` for a NULL pointer. -/
structure ngx_proxy_wasm_filter_t where
  proxy_on_timer_ready : Bool
  root_ictx : Option Nat
  tick_period : Nat
deriving DecidableEq, Repr

/-- `ngx_event_handler_pt`, the handler of an event: the tick handler, or
another function given by its address. -/
inductive ngx_event_handler_pt where
  | ngx_proxy_wasm_filter_tick_handler
  | other (addr : Nat)
deriving DecidableEq, Repr

/-- `ngx_event_t`: its `handler`, the address `data` of the object it is
for (the filter context, for the events of the tick handler) and the `log` it
carries. -/
structure ngx_event_t where
  handler : ngx_event_handler_pt
  data : Nat
  log : Nat
deriving DecidableEq, Repr

/-- What the tick handler does not own, over a state `W` of the rest of the
process: the flag `ngx_exiting`, the filter `fctx->filter`, the external
`ngx_proxy_wasm_resume(ictx, filter, fctx, NGX_PROXY_WASM_STEP_ON_TIMER, NULL)`
with its return code and its effect on `W`, and whether `ngx_calloc`
succeeds. -/
structure tick_env (W : Type) where
  ngx_exiting : W → Bool
  filter : W → ngx_proxy_wasm_filter_t
  ngx_proxy_wasm_resume : Nat → W → Int × W
  ngx_calloc : W → Bool

/-- The state the tick handler acts on: the rest of the process, the timer
handle `fctx->ev` (`none` for NULL), the calls of `ngx_add_timer` made so far
(event and period), the value `fctx->ev` had at each call of
`ngx_proxy_wasm_resume`, and the messages logged. -/
structure tick_state (W : Type) where
  world : W
  ev : Option ngx_event_t
  timers : List (ngx_event_t × Nat)
  resumed : List (Option ngx_event_t)
  logged : List String

/-- `ngx_proxy_wasm_filter_tick_handler(ev)`, with `fctx = ev->data`: the
state is the one of this filter context. -/
def ngx_proxy_wasm_filter_tick_handler {W : Type} (env : tick_env W) (ev : ngx_event_t)
    (s : tick_state W) : tick_state W :=
  let s1 := { s with ev := none }
  if env.ngx_exiting s1.world || !(env.filter s1.world).proxy_on_timer_ready then s1
  else
    match (env.filter s1.world).root_ictx with
    | none => { s1 with logged := s1.logged ++ ["tick_handler: no root instance"] }
    | some ictx =>
      let r := env.ngx_proxy_wasm_resume ictx s1.world
      let s2 := { s1 with world := r.2, resumed := s1.resumed ++ [s1.ev] }
      if r.1 ≠ NGX_OK then s2
      else if !env.ngx_exiting s2.world then
        if env.ngx_calloc s2.world then
          let ev1 : ngx_event_t :=
            { handler := ngx_event_handler_pt.ngx_proxy_wasm_filter_tick_handler,
              data := ev.data, log := ev.log }
          { s2 with ev := some ev1,
                    timers := s2.timers ++ [(ev1, (env.filter s2.world).tick_period)] }
        else { s2 with ev := none, logged := s2.logged ++ ["tick_handler: no memory"] }
      else s2

/-! ## The wire format, after the specification -/

/-- The length table of the wire format, `{ keylen:u32, valuelen:u32 }` for
each pair. -/
def wire_lens : List ngx_table_elt_t → List Nat
  | [] => []
  | e :: es => ngx_u32_store e.key.len ++ ngx_u32_store e.value.len ++ wire_lens es

/-- The payload section of the wire format,
`{ key-bytes, 0x00, value-bytes, 0x00 }` for each pair. -/
def wire_payloads : List ngx_table_elt_t → List Nat
  | [] => []
  | e :: es =>
    e.key.data.take e.key.len ++ [0] ++ (e.value.data.take e.value.len ++ [0])
      ++ wire_payloads es

/-- The wire format with header `n` for the pairs `ps`:
`count:u32, { keylen:u32, valuelen:u32 } × count,
{ key-bytes, 0x00, value-bytes, 0x00 } × count`. -/
def wire_format (n : Nat) (ps : List ngx_table_elt_t) : List Nat :=
  ngx_u32_store n ++ wire_lens ps ++ wire_payloads ps

/-- The pairs of `list` that are not tombstones (`hash != 0`), in list order. -/
def pairs_live (list : ngx_list_t) : List ngx_table_elt_t :=
  (ngx_list_elts list).filter (fun e => decide (e.hash ≠ 0))

/-- The precedence sequence: the pairs of `extras` in order, then the pairs
of `list` that are not tombstones, in list order. -/
def pairs_precedence (list : ngx_list_t) (extras : Option (List ngx_table_elt_t)) :
    List ngx_table_elt_t :=
  extras.getD [] ++ pairs_live list

/-- The bytes one pair takes on the wire: `8 + keylen + 1 + valuelen + 1`. -/
def pair_wire_size (e : ngx_table_elt_t) : Nat :=
  8 + e.key.len + 1 + e.value.len + 1

/-- The sum of `pair_wire_size` over the pairs `ps`. -/
def pairs_wire_size : List ngx_table_elt_t → Nat
  | [] => 0
  | e :: es => pair_wire_size e + pairs_wire_size es

/-- The `data` pointer of the string is valid for `len` bytes. -/
def ngx_str_valid (s : ngx_str_t) : Prop := s.len ≤ s.data.length

instance (s : ngx_str_t) : Decidable (ngx_str_valid s) := by
  unfold ngx_str_valid; infer_instance

/-- Both strings of every pair of `ps` are valid. -/
def pairs_valid (ps : List ngx_table_elt_t) : Prop :=
  ∀ e ∈ ps, ngx_str_valid e.key ∧ ngx_str_valid e.value

instance (ps : List ngx_table_elt_t) : Decidable (pairs_valid ps) := by
  unfold pairs_valid; infer_instance

/-- The lengths of every pair of `ps` fit the `u32` fields of the wire
format. -/
def pairs_lens_fit (ps : List ngx_table_elt_t) : Prop :=
  ∀ e ∈ ps, e.key.len < 2 ^ 32 ∧ e.value.len < 2 ^ 32

instance (ps : List ngx_table_elt_t) : Decidable (pairs_lens_fit ps) := by
  unfold pairs_lens_fit; infer_instance

/-- The element the first loop of `ngx_proxy_wasm_pairs_unmarshal` pushes for
a pair written on the wire as `e`: lengths as stored in the `u32` fields,
no data yet. -/
def unmarshal_hdr (e : ngx_table_elt_t) : ngx_table_elt_t :=
  { hash := 0, lowcase_key := none,
    key := { len := e.key.len % 2 ^ 32, data := [] },
    value := { len := e.value.len % 2 ^ 32, data := [] } }

/-- The element `ngx_proxy_wasm_pairs_unmarshal` builds from a pair `e` that
was written on the wire: `len + 1` bytes are copied for the key and for the
value, the last one being the terminator. -/
def unmarshal_elt (e : ngx_table_elt_t) : ngx_table_elt_t :=
  { hash := 0, lowcase_key := none,
    key := { len := e.key.len, data := e.key.data.take e.key.len ++ [0] },
    value := { len := e.value.len, data := e.value.data.take e.value.len ++ [0] } }

/-- The content of a pair: the length and the bytes of its key and of its
value. -/
def pair_content (e : ngx_table_elt_t) : (Nat × List Nat) × (Nat × List Nat) :=
  ((e.key.len, e.key.data.take e.key.len), (e.value.len, e.value.data.take e.value.len))

/-- The chain of parts with the tombstones (`hash == 0`) removed; a part left
without element is unlinked. -/
def ngx_list_chain_remove_tombstones :
    List (ngx_table_elt_t × List ngx_table_elt_t) → List (ngx_table_elt_t × List ngx_table_elt_t)
  | [] => []
  | p :: ps =>
    match (p.1 :: p.2).filter (fun e => decide (e.hash ≠ 0)) with
    | [] => ngx_list_chain_remove_tombstones ps
    | e :: es => (e, es) :: ngx_list_chain_remove_tombstones ps

/-- The list with every element whose `hash` is 0 removed. -/
def ngx_list_remove_tombstones (list : ngx_list_t) : ngx_list_t :=
  { part := list.part.filter (fun e => decide (e.hash ≠ 0)),
    next := ngx_list_chain_remove_tombstones list.next }

/-- A pool all of whose allocations succeed. -/
def ngx_pool_ok : ngx_pool_t := fun _ => true

/-- A pool whose first allocation fails. -/
def ngx_pool_exhausted : ngx_pool_t := fun _ => false

/-- A pair with the given key and value bytes, and a non-zero hash. -/
def ngx_pair (key value : List Nat) : ngx_table_elt_t :=
  { hash := 1, key := { len := key.length, data := key },
    value := { len := value.length, data := value }, lowcase_key := none }

/-- A list of two parts holding three header-like pairs, none a tombstone;
the second pair has an empty value. -/
def example_list : ngx_list_t :=
  { part := [ngx_pair [104, 111, 115, 116] [97, 46, 98], ngx_pair [120] []],
    next := [(ngx_pair [97, 98] [49, 50, 51], [])] }

/-- A list of ten pairs in one part, the pair `i` having key `[i]` and value
`[i, i]`. -/
def example_ten : ngx_list_t :=
  { part := (List.range 10).map (fun i => ngx_pair [i] [i, i]), next := [] }

/-- A list with a tombstone between two live pairs and a further part made of
a tombstone only. -/
def example_tombstones : ngx_list_t :=
  { part := [ngx_pair [1] [2], { ngx_pair [3] [4] with hash := 0 }, ngx_pair [5] [6]],
    next := [({ ngx_pair [7] [8] with hash := 0 }, [])] }

/-- An environment of the tick handler over a trivial rest of the process:
no shutdown, a filter with the timer callback and the root instance 0, and a
callback that fails. -/
def example_tick_env_failing : tick_env Unit :=
  { ngx_exiting := fun _ => false,
    filter := fun _ => { proxy_on_timer_ready := true, root_ictx := some 0, tick_period := 10 },
    ngx_proxy_wasm_resume := fun _ w => (NGX_ERROR, w),
    ngx_calloc := fun _ => true }

/-- An event of the tick handler for the filter context at address 0. -/
def example_event : ngx_event_t :=
  { handler := ngx_event_handler_pt.ngx_proxy_wasm_filter_tick_handler, data := 0, log := 0 }

/-- The state at a firing: the timer handle is the event that fires, no
`ngx_add_timer` call yet. -/
def example_tick_state : tick_state Unit :=
  { world := (), ev := some example_event, timers := [], resumed := [], logged := [] }

/-! ## ngx_wavm: data types -/

/-- `NGX_DECLINED`. -/
def NGX_DECLINED : Int := -5

/-- `NGX_ABORT`. -/
def NGX_ABORT : Int := -6

/-- `NGX_CONF_OK`, the NULL `char *`. -/
def NGX_CONF_OK : Int := 0

/-- `NGX_CONF_ERROR`, the `char *` of value `(void *) -1`. -/
def NGX_CONF_ERROR : Int := -1

/-- `NGX_WAVM_INIT`. -/
def NGX_WAVM_INIT : Nat := 1 <<< 0

/-- `NGX_WAVM_LOADED`. -/
def NGX_WAVM_LOADED : Nat := 1 <<< 1

/-- `NGX_WAVM_MODULE_ISWAT`. -/
def NGX_WAVM_MODULE_ISWAT : Nat := 1 <<< 0

/-- `NGX_WAVM_MODULE_LOADED`. -/
def NGX_WAVM_MODULE_LOADED : Nat := 1 <<< 1

/-- `NGX_WAVM_MODULE_READY`. -/
def NGX_WAVM_MODULE_READY : Nat := 1 <<< 2

/-- The complement `~x` of an `int` expression once converted to the 64-bit
`ngx_uint_t` it is combined with. -/
def ngx_uint_not (x : Nat) : Nat := (2 ^ 64 - 1) ^^^ x

/-- `ngx_strncmp(s1, s2, n)`, which is `strncmp`: the bytes are compared one
by one up to `n` of them, and the comparison stops at the first difference or
at a 0 byte. The lists are the memory readable at the two pointers; the byte
after the last readable one is taken to be 0. -/
def ngx_strncmp : List Nat → List Nat → Nat → Int
  | _, _, 0 => 0
  | s1, s2, n + 1 =>
    if s1.headD 0 ≠ s2.headD 0 then (s1.headD 0 : Int) - (s2.headD 0 : Int)
    else if s1.headD 0 = 0 then 0
    else ngx_strncmp s1.tail s2.tail n

/-- The bytes of the C string literal `"env"`. -/
def str_env : List Nat := [101, 110, 118]

/-- The bytes of the C string literal `".wat"`. -/
def str_wat : List Nat := [46, 119, 97, 116]

/-- The bytes of a string: the first `len` bytes at `data`. -/
def ngx_str_bytes (s : ngx_str_t) : List Nat := s.data.take s.len

/-- Equality of two strings as `ngx_str_eq` and the string trees test it:
same length and same bytes. -/
def ngx_str_same (a b : ngx_str_t) : Bool :=
  decide (a.len = b.len) && decide (ngx_str_bytes a = ngx_str_bytes b)

/-- `wasm_externkind_t`. -/
inductive wasm_externkind_t where
  | WASM_EXTERN_FUNC
  | WASM_EXTERN_GLOBAL
  | WASM_EXTERN_TABLE
  | WASM_EXTERN_MEMORY
deriving DecidableEq, Repr

/-- `wasm_name_t`, a byte vector: `size` bytes at `data`, which is the memory
readable at the pointer. -/
structure wasm_name_t where
  size : Nat
  data : List Nat
deriving DecidableEq, Repr

/-- `wasm_importtype_t`: module namespace, name and kind of an import. -/
structure wasm_importtype_t where
  module : wasm_name_t
  name : wasm_name_t
  kind : wasm_externkind_t
deriving DecidableEq, Repr

/-- `wasm_exporttype_t`: name and kind of an export. -/
structure wasm_exporttype_t where
  name : wasm_name_t
  kind : wasm_externkind_t
deriving DecidableEq, Repr

/-- `wasm_module_t`, seen through what `wasm_module_imports` and
`wasm_module_exports` report for it. -/
structure wasm_module_t where
  imports : List wasm_importtype_t
  exports : List wasm_exporttype_t
deriving DecidableEq, Repr

/-- `ngx_wavm_host_def_t`: the name of a host interface and the names of the
functions it defines. -/
structure ngx_wavm_host_def_t where
  name : List Nat
  funcs : List (List Nat)
deriving DecidableEq, Repr

/-- `ngx_wavm_hfunc_t`: a host function resolved for an import, with the
interface it was taken from and its name. -/
structure ngx_wavm_hfunc_t where
  host : List Nat
  name : List Nat
deriving DecidableEq, Repr

/-- Modelled from the spec: `ngx_wavm_host_hfunc_create(pool, host, name)`,
whose source is not available, resolves `name` against the functions of
`host`: a new host function when `host` defines the name and the allocation
(`ok`) succeeds, NULL otherwise. -/
def ngx_wavm_host_hfunc_create (ok : Bool) (host : ngx_wavm_host_def_t) (name : ngx_str_t) :
    Option ngx_wavm_hfunc_t :=
  if ok && decide (ngx_str_bytes name ∈ host.funcs) then
    some { host := host.name, name := ngx_str_bytes name }
  else none

/-- `ngx_wavm_linked_module_t`: `module` is the name of the module pointed
to, `hfuncs_imports` the elements of the array. -/
structure ngx_wavm_linked_module_t where
  module : ngx_str_t
  idx : Nat
  hfuncs_imports : List ngx_wavm_hfunc_t
deriving DecidableEq, Repr

/-- `ngx_wavm_func_t`. -/
structure ngx_wavm_func_t where
  name : ngx_str_t
  exports_idx : Nat
deriving DecidableEq, Repr

/-- `ngx_wavm_module_t`; `module` is `none` for a NULL `wasm_module_t *`,
`funcs_tree` holds the nodes of the tree and `lmodules` the elements of the
queue, head first. -/
structure ngx_wavm_module_t where
  state : Nat
  name : ngx_str_t
  path : ngx_str_t
  module : Option wasm_module_t
  imports : List wasm_importtype_t
  exports : List wasm_exporttype_t
  memory_idx : Int
  funcs_tree : List ngx_wavm_func_t
  lmodules : List ngx_wavm_linked_module_t
deriving DecidableEq, Repr

/-- `ngx_wavm_t`; `modules_tree` holds the modules of the tree in the order
of its traversal, `engine` and `store` are `none` for NULL. -/
structure ngx_wavm_t where
  state : Nat
  lmodules_max : Nat
  modules_tree : List ngx_wavm_module_t
  core_host : Option ngx_wavm_host_def_t
  engine : Option Nat
  store : Option Nat
deriving DecidableEq, Repr

/-- `ngx_wavm_initialized(vm)`. -/
def ngx_wavm_initialized (vm : ngx_wavm_t) : Nat := vm.state &&& NGX_WAVM_INIT

/-- `ngx_wavm_loaded(vm)`. -/
def ngx_wavm_loaded (vm : ngx_wavm_t) : Nat := vm.state &&& NGX_WAVM_LOADED

/-- `ngx_wavm_module_loaded(m)` for a non-NULL `m`. -/
def ngx_wavm_module_loaded (m : ngx_wavm_module_t) : Nat := m.state &&& NGX_WAVM_MODULE_LOADED

/-- `ngx_wavm_module_ready(m)` for a non-NULL `m`. -/
def ngx_wavm_module_ready (m : ngx_wavm_module_t) : Nat := m.state &&& NGX_WAVM_MODULE_READY

/-- `ngx_wavm_module_is_wat(m)`. -/
def ngx_wavm_module_is_wat (m : ngx_wavm_module_t) : Nat := m.state &&& NGX_WAVM_MODULE_ISWAT

/-- `ngx_wavm_ready(vm)` for a non-NULL `vm`. -/
def ngx_wavm_ready (vm : ngx_wavm_t) : Nat :=
  if ngx_wavm_initialized vm = 0 then 0 else 1

/-- Modelled from the spec: `ngx_wasm_sn_rbtree_lookup`, whose source is not
available, is the lookup by name in a name-keyed search structure: the node
whose string is `name`, or NULL. -/
def ngx_wasm_sn_rbtree_lookup {α : Type} (key : α → ngx_str_t) (tree : List α)
    (name : ngx_str_t) : Option α :=
  tree.find? (fun x => ngx_str_same (key x) name)

/-- Modelled from the spec: `ngx_wasm_sn_rbtree_insert`, whose source is not
available, adds a node to the name-keyed search structure. -/
def ngx_wasm_sn_rbtree_insert {α : Type} (tree : List α) (x : α) : List α :=
  tree ++ [x]

/-! ## ngx_wavm_create, ngx_wavm_module_lookup, ngx_wavm_module_add -/

/-- `ngx_wavm_create`: NULL (`none`) when one of its two allocations fails,
else the runtime with `lmodules_max = 0` and an empty tree. -/
def ngx_wavm_create (pool : ngx_pool_t) (core_host : Option ngx_wavm_host_def_t) :
    Option ngx_wavm_t :=
  if pool 0 then
    if pool 1 then
      some { state := 0, lmodules_max := 0, modules_tree := [], core_host := core_host,
             engine := none, store := none }
    else none
  else none

/-- `ngx_wavm_module_lookup`. -/
def ngx_wavm_module_lookup (vm : ngx_wavm_t) (name : ngx_str_t) : Option ngx_wavm_module_t :=
  ngx_wasm_sn_rbtree_lookup (fun m => m.name) vm.modules_tree name

/-- `ngx_wavm_module_add`; the result is the return code and the runtime.
`before` is the memory that precedes the allocation of `module->path.data`,
which `&module->path.data[module->path.len - 4]` points into when the path
has fewer than 4 bytes. The result is `none` when the process does not
survive the call: on the failure of the second or third allocation
`ngx_wavm_module_free` walks the queue `module->lmodules` which is not yet
initialised, and a read before the readable memory faults. -/
def ngx_wavm_module_add (pool : ngx_pool_t) (before : List Nat) (vm : ngx_wavm_t)
    (name path : ngx_str_t) : Option (Int × ngx_wavm_t) :=
  match ngx_wavm_module_lookup vm name with
  | some _ => some (NGX_DECLINED, vm)
  | none =>
    if pool 0 then
      if pool 1 then
        if pool 2 then
          let name_data := name.data.take name.len ++ [0]
          let path_data := path.data.take path.len ++ [0]
          if before.length + path.len < 4 then none
          else
            let last4 := (before ++ path_data).drop (before.length + path.len - 4)
            let state := if ngx_strncmp last4 str_wat 4 = 0 then 0 ||| NGX_WAVM_MODULE_ISWAT else 0
            let module : ngx_wavm_module_t :=
              { state := state, name := { len := name.len, data := name_data },
                path := { len := path.len, data := path_data }, module := none,
                imports := [], exports := [], memory_idx := -1, funcs_tree := [],
                lmodules := [] }
            some (NGX_OK,
              { vm with modules_tree := ngx_wasm_sn_rbtree_insert vm.modules_tree module })
        else none
      else none
    else some (NGX_ERROR, vm)

/-- `ngx_wasm_core_module_directive` with `name = value[1]` and
`path = value[2]`; the result is the return value and the runtime `wcf->vm`.
The optional fourth argument of the directive plays no part in the result. -/
def ngx_wasm_core_module_directive (pool : ngx_pool_t) (before : List Nat) (vm : ngx_wavm_t)
    (name path : ngx_str_t) : Option (Int × ngx_wavm_t) :=
  if name.len = 0 then some (NGX_CONF_ERROR, vm)
  else if path.len = 0 then some (NGX_CONF_ERROR, vm)
  else
    match ngx_wavm_module_add pool before vm name path with
    | none => none
    | some r => if r.1 ≠ NGX_OK then some (NGX_CONF_ERROR, r.2) else some (NGX_CONF_OK, r.2)

/-! ## ngx_wavm_module_load, ngx_wavm_init, ngx_wavm_shutdown -/

/-- The engine and the file system, which are external: the result of
`wasm_engine_new_with_config` and of `wasm_store_new(engine)` (`none` for
NULL), of `ngx_wasm_bytes_from_path` for a path, of `ngx_wrt_wat2wasm` and of
`ngx_wrt_module_new` for some bytes (`none` when the call does not return
`NGX_OK`). -/
structure ngx_wrt_t where
  wasm_engine_new_with_config : Option Nat
  wasm_store_new : Option Nat → Option Nat
  ngx_wasm_bytes_from_path : List Nat → Option (List Nat)
  ngx_wrt_wat2wasm : List Nat → Option (List Nat)
  ngx_wrt_module_new : List Nat → Option wasm_module_t

/-- `wasm_module_imports(module->module, &module->imports)`; nothing is
reported for a NULL module, which `ngx_wavm_module_load` never passes since
it sets `NGX_WAVM_MODULE_LOADED` together with `module->module`. -/
def wasm_module_imports (m : Option wasm_module_t) : List wasm_importtype_t :=
  match m with
  | none => []
  | some wm => wm.imports

/-- `wasm_module_exports(module->module, &module->exports)`. -/
def wasm_module_exports (m : Option wasm_module_t) : List wasm_exporttype_t :=
  match m with
  | none => []
  | some wm => wm.exports

/-- The loop of `ngx_wavm_module_load` over the imports; `false` when it
leaves through `goto failed`. -/
def ngx_wavm_module_load_imports : List wasm_importtype_t → Bool
  | [] => true
  | importtype :: rest =>
    if ngx_strncmp importtype.module.data str_env 3 ≠ 0 then
      ngx_wavm_module_load_imports rest
    else if importtype.kind ≠ wasm_externkind_t.WASM_EXTERN_FUNC then false
    else ngx_wavm_module_load_imports rest

/-- The loop of `ngx_wavm_module_load` over the exports, at index `i` and
after `a` allocations, on the exports still to visit; the `Bool` is `false`
when the loop leaves through `goto error`. -/
def ngx_wavm_module_load_exports (pool : ngx_pool_t) :
    List wasm_exporttype_t → Nat → Nat → ngx_wavm_module_t → Bool × ngx_wavm_module_t
  | [], _, _, module => (true, module)
  | exporttype :: rest, i, a, module =>
    match exporttype.kind with
    | wasm_externkind_t.WASM_EXTERN_FUNC =>
      if pool a then
        ngx_wavm_module_load_exports pool rest (i + 1) (a + 1)
          { module with
            funcs_tree := ngx_wasm_sn_rbtree_insert module.funcs_tree
              { name := { len := exporttype.name.size, data := exporttype.name.data },
                exports_idx := i } }
      else (false, module)
    | wasm_externkind_t.WASM_EXTERN_MEMORY =>
      ngx_wavm_module_load_exports pool rest (i + 1) a { module with memory_idx := i }
    | _ => ngx_wavm_module_load_exports pool rest (i + 1) a module

/-- The part of `ngx_wavm_module_load` before the label `loaded`: the module
with its compiled representation, or the return code the function leaves
with. -/
def ngx_wavm_module_load_from_path (wrt : ngx_wrt_t) (vm : ngx_wavm_t)
    (module : ngx_wavm_module_t) : Except Int ngx_wavm_module_t :=
  if ngx_wavm_module_loaded module ≠ 0 then Except.ok module
  else if ngx_wavm_ready vm = 0 then Except.error NGX_ABORT
  else if module.path.len = 0 then Except.error NGX_ABORT
  else
    match wrt.ngx_wasm_bytes_from_path module.path.data with
    | none => Except.error NGX_ERROR
    | some file_bytes =>
      match (if ngx_wavm_module_is_wat module ≠ 0 then wrt.ngx_wrt_wat2wasm file_bytes
             else some file_bytes) with
      | none => Except.error NGX_ERROR
      | some bytes =>
        match wrt.ngx_wrt_module_new bytes with
        | none => Except.error NGX_ERROR
        | some wm =>
          Except.ok { module with module := some wm,
                                  state := module.state ||| NGX_WAVM_MODULE_LOADED }

/-- `ngx_wavm_module_load`; the result is the return code and the module. -/
def ngx_wavm_module_load (wrt : ngx_wrt_t) (pool : ngx_pool_t) (vm : ngx_wavm_t)
    (module : ngx_wavm_module_t) : Int × ngx_wavm_module_t :=
  match ngx_wavm_module_load_from_path wrt vm module with
  | Except.error rc => (rc, module)
  | Except.ok m1 =>
    let m2 := { m1 with imports := wasm_module_imports m1.module,
                        exports := wasm_module_exports m1.module }
    if ngx_wavm_module_load_imports m2.imports then
      let r := ngx_wavm_module_load_exports pool m2.exports 0 0 { m2 with funcs_tree := [] }
      if r.1 then (NGX_OK, { r.2 with state := r.2.state ||| NGX_WAVM_MODULE_READY })
      else (NGX_ERROR, r.2)
    else (NGX_ERROR, m2)

/-- `ngx_wavm_module_func_lookup` for a non-NULL module. -/
def ngx_wavm_module_func_lookup (module : ngx_wavm_module_t) (name : ngx_str_t) :
    Option ngx_wavm_func_t :=
  if ngx_wavm_module_ready module = 0 then none
  else ngx_wasm_sn_rbtree_lookup (fun f => f.name) module.funcs_tree name

/-- The loop of `ngx_wavm_destroy_helper` over the tree: the first module is
taken out and freed until the tree is empty. -/
def ngx_wavm_destroy_modules : List ngx_wavm_module_t → List ngx_wavm_module_t
  | [] => []
  | _ :: rest => ngx_wavm_destroy_modules rest

/-- `ngx_wavm_destroy_helper(vm, free)`: the state of the runtime when the
function returns, before its memory is released when `free` is set. -/
def ngx_wavm_destroy_helper (vm : ngx_wavm_t) : ngx_wavm_t :=
  let vm1 := { vm with modules_tree := ngx_wavm_destroy_modules vm.modules_tree }
  let vm2 := { vm1 with state := vm1.state &&& ngx_uint_not (1 <<< NGX_WAVM_LOADED) }
  let vm3 := { vm2 with store := none }
  let vm4 := { vm3 with engine := none }
  { vm4 with state := vm4.state &&& ngx_uint_not (1 <<< NGX_WAVM_INIT) }

/-- `ngx_wavm_shutdown`. -/
def ngx_wavm_shutdown (vm : ngx_wavm_t) : ngx_wavm_t :=
  ngx_wavm_destroy_helper vm

/-- The loop of `ngx_wavm_init` over the modules of the tree, the module at
position `k` being loaded with the allocations `pools k`; the `Bool` is
`false` when the loop leaves through `goto failed`, and the list holds the
modules as the loop leaves them. -/
def ngx_wavm_init_load (wrt : ngx_wrt_t) (pools : Nat → ngx_pool_t) (vm : ngx_wavm_t) :
    List ngx_wavm_module_t → Nat → Bool × List ngx_wavm_module_t
  | [], _ => (true, [])
  | module :: rest, k =>
    let r := ngx_wavm_module_load wrt (pools k) vm module
    if r.1 ≠ NGX_OK then (false, r.2 :: rest)
    else
      let rs := ngx_wavm_init_load wrt pools vm rest (k + 1)
      (rs.1, r.2 :: rs.2)

/-- The part of `ngx_wavm_init` before the label `load`: the runtime once
initialised, or the runtime as it is when the function leaves through
`goto error`. -/
def ngx_wavm_init_engine (wrt : ngx_wrt_t) (vm : ngx_wavm_t) : Except ngx_wavm_t ngx_wavm_t :=
  if ngx_wavm_initialized vm ≠ 0 then Except.ok vm
  else
    match wrt.wasm_engine_new_with_config with
    | none => Except.error { vm with engine := none }
    | some engine =>
      match wrt.wasm_store_new (some engine) with
      | none => Except.error { vm with engine := some engine, store := none }
      | some store =>
        Except.ok { vm with engine := some engine, store := some store,
                            state := vm.state ||| NGX_WAVM_INIT }

/-- `ngx_wavm_init`; the result is the return code and the runtime. -/
def ngx_wavm_init (wrt : ngx_wrt_t) (pools : Nat → ngx_pool_t) (vm : ngx_wavm_t) :
    Int × ngx_wavm_t :=
  match ngx_wavm_init_engine wrt vm with
  | Except.error vm1 => (NGX_ERROR, ngx_wavm_shutdown vm1)
  | Except.ok vm1 =>
    if vm1.modules_tree.isEmpty then
      (NGX_OK, { vm1 with state := vm1.state ||| NGX_WAVM_LOADED })
    else
      let r := ngx_wavm_init_load wrt pools vm1 vm1.modules_tree 0
      if r.1 then
        (NGX_OK, { vm1 with modules_tree := r.2, state := vm1.state ||| NGX_WAVM_LOADED })
      else (NGX_ERROR, ngx_wavm_shutdown { vm1 with modules_tree := r.2 })

/-! ## ngx_wavm_module_link -/

/-- Whether the loop of `ngx_wavm_module_link` goes on to resolve an import:
it does unless `ngx_strncmp(importmodule->data, "env", 3) != 0`. -/
def ngx_wavm_import_selected (importtype : wasm_importtype_t) : Bool :=
  decide (ngx_strncmp importtype.module.data str_env 3 = 0)

/-- The resolution of one import name in `ngx_wavm_module_link`, the
allocations made being numbered from `a`: `host` is tried first, then
`vm->core_host` when the result is NULL and a core host is set. The result
is the host function (`none` for NULL) and the number of the next
allocation. -/
def ngx_wavm_module_link_resolve (pool : ngx_pool_t) (core_host : Option ngx_wavm_host_def_t)
    (host : ngx_wavm_host_def_t) (s : ngx_str_t) (a : Nat) : Option ngx_wavm_hfunc_t × Nat :=
  match ngx_wavm_host_hfunc_create (pool a) host s with
  | some hfunc => (some hfunc, a + 1)
  | none =>
    match core_host with
    | some core => (ngx_wavm_host_hfunc_create (pool (a + 1)) core s, a + 2)
    | none => (none, a + 1)

/-- The loop of `ngx_wavm_module_link` over the imports still to visit,
`hfuncs` being the elements pushed so far and `a` the number of the next
allocation; `none` when the loop leaves through `goto error`. -/
def ngx_wavm_module_link_imports (pool : ngx_pool_t) (core_host : Option ngx_wavm_host_def_t)
    (host : ngx_wavm_host_def_t) :
    List wasm_importtype_t → List ngx_wavm_hfunc_t → Nat → Option (List ngx_wavm_hfunc_t)
  | [], hfuncs, _ => some hfuncs
  | importtype :: rest, hfuncs, a =>
    if ngx_strncmp importtype.module.data str_env 3 ≠ 0 then
      ngx_wavm_module_link_imports pool core_host host rest hfuncs a
    else
      let s : ngx_str_t := { len := importtype.name.size, data := importtype.name.data }
      let r := ngx_wavm_module_link_resolve pool core_host host s a
      match r.1 with
      | none => none
      | some hfunc =>
        if pool r.2 then
          ngx_wavm_module_link_imports pool core_host host rest (hfuncs ++ [hfunc]) (r.2 + 1)
        else none

/-- What a call of `ngx_wavm_module_link` leaves behind: the linked module
returned (`none` for NULL), the runtime `module->vm` and the module. -/
structure link_result where
  ret : Option ngx_wavm_linked_module_t
  vm : ngx_wavm_t
  module : ngx_wavm_module_t
deriving DecidableEq, Repr

/-- `ngx_wavm_module_link(module, host)` with `vm = module->vm`; `host` is
`none` for NULL. The result is `none` when the process does not survive the
call: the label `error` formats `&host->name`, which it reaches with a NULL
`host` when one of the first two allocations fails. -/
def ngx_wavm_module_link (pool : ngx_pool_t) (vm : ngx_wavm_t) (module : ngx_wavm_module_t)
    (host : Option ngx_wavm_host_def_t) : Option link_result :=
  if ngx_wavm_module_loaded module = 0 then some { ret := none, vm := vm, module := module }
  else if pool 0 && pool 1 then
    let hfuncs : Option (List ngx_wavm_hfunc_t) :=
      match host with
      | none => some []
      | some h => ngx_wavm_module_link_imports pool vm.core_host h module.imports [] 2
    match hfuncs with
    | none => some { ret := none, vm := vm, module := module }
    | some hf =>
      let lmodule : ngx_wavm_linked_module_t :=
        { module := module.name, idx := vm.lmodules_max, hfuncs_imports := hf }
      some { ret := some lmodule,
             vm := { vm with lmodules_max := vm.lmodules_max + 1 },
             module := { module with lmodules := module.lmodules ++ [lmodule] } }
  else
    match host with
    | none => none
    | some _ => some { ret := none, vm := vm, module := module }

/-- A sequence of calls of `ngx_wavm_module_link` on one runtime, each with
its allocations, module and host: the values returned, in order, and the
runtime after the last call; the sequence ends at a call the process does
not survive. -/
def ngx_wavm_module_link_seq :
    List (ngx_pool_t × ngx_wavm_module_t × Option ngx_wavm_host_def_t) → ngx_wavm_t →
    List (Option ngx_wavm_linked_module_t) × ngx_wavm_t
  | [], vm => ([], vm)
  | call :: rest, vm =>
    match ngx_wavm_module_link call.1 vm call.2.1 call.2.2 with
    | none => ([], vm)
    | some r =>
      let rs := ngx_wavm_module_link_seq rest r.vm
      (r.ret :: rs.1, rs.2)

/-! ## ngx_wavm_ctx_init, ngx_wavm_instance_create -/

/-- `ngx_wavm_hfunc_tctx_t`: the host function and the address of the
instance of a trampoline context. -/
structure ngx_wavm_hfunc_tctx_t where
  hfunc : ngx_wavm_hfunc_t
  instance_addr : Nat
deriving DecidableEq, Repr

/-- `ngx_wavm_instance_t`: `addr` is the address of the object, `ctx` the
address of its context, `module` the name of its module, `wasm_instance`
the handle of the engine (the field `instance`) and `memory` the index of the memory export from which
`instance->memory` is taken, when there is one. -/
structure ngx_wavm_instance_t where
  addr : Nat
  ctx : Nat
  module : ngx_str_t
  tctxs : List ngx_wavm_hfunc_tctx_t
  wasm_instance : Nat
  memory : Option Int
deriving DecidableEq, Repr

/-- `ngx_wavm_ctx_t`: `addr` is the address of the object, `store` and
`instances` are `none` for NULL, and `instances` holds the slots of the
table that was allocated, each `none` for NULL. -/
structure ngx_wavm_ctx_t where
  addr : Nat
  store : Option Nat
  instances : Option (List (Option ngx_wavm_instance_t))
deriving DecidableEq, Repr

/-- `ngx_wavm_ctx_init`; the result is the return code and the context. -/
def ngx_wavm_ctx_init (wrt : ngx_wrt_t) (pool : ngx_pool_t) (vm : ngx_wavm_t)
    (ctx : ngx_wavm_ctx_t) : Int × ngx_wavm_ctx_t :=
  if ngx_wavm_ready vm = 0 then (NGX_ERROR, ctx)
  else
    match wrt.wasm_store_new vm.engine with
    | none => (NGX_ERROR, { ctx with store := none })
    | some store =>
      if pool 0 then
        (NGX_OK, { ctx with store := some store,
                            instances := some (List.replicate vm.lmodules_max none) })
      else (NGX_ERROR, { ctx with store := some store, instances := none })

/-- What is external to `ngx_wavm_instance_create`: the address
`ngx_palloc` returns for the instance (`none` for NULL), whether the
allocations of the log and of the trampoline contexts succeed, the
engine instance `ngx_wrt_instance_new` yields (`none` when it does not return
`NGX_OK`), and the value `ngx_wavm_instance_destroy` finds in the field
`instance->instance` when it is called from the label `error` (`none` for
NULL): the memory `ngx_palloc` returns is not cleared and the function
stores nothing in this field, so that the value is what the memory held, or
what a failed `ngx_wrt_instance_new` left there. -/
structure instance_env where
  palloc_instance : Option Nat
  pcalloc_log : Bool
  palloc_tctxs : Bool
  ngx_wrt_instance_new : Option Nat
  instance_at_error : Option Nat

/-- What a call of `ngx_wavm_instance_create` leaves behind: the instance
returned (`none` for NULL), the context, and whether `ngx_wrt_instance_new`
was called. -/
structure instance_result where
  ret : Option ngx_wavm_instance_t
  ctx : ngx_wavm_ctx_t
  instantiated : Bool
deriving DecidableEq, Repr

/-- `ngx_wavm_instance_destroy(instance)` as the label `error` of
`ngx_wavm_instance_create` calls it on the instance under construction,
`field` being the value it reads in `instance->instance`. With NULL there it
releases the trampoline contexts, the log and the instance. With another
value it passes that value to `wasm_instance_delete` and deletes the vector
`instance->exports`, which is not initialised at that point: the process
does not survive the call (`none`). -/
def ngx_wavm_instance_destroy_at_error (field : Option Nat) : Option Unit :=
  match field with
  | none => some ()
  | some _ => none

/-- `ngx_wavm_instance_create(lmodule, ctx)` with `module = lmodule->module`.
The result is `none` when `ctx->instances[lmodule->idx]` is not a slot of the
table, and when the process does not survive the release of the instance
under construction at the label `error`; that release changes nothing in the
context. -/
def ngx_wavm_instance_create (env : instance_env) (lmodule : ngx_wavm_linked_module_t)
    (module : ngx_wavm_module_t) (ctx : ngx_wavm_ctx_t) : Option instance_result :=
  match ctx.instances with
  | none => none
  | some slots =>
    match slots[lmodule.idx]? with
    | none => none
    | some (some inst) => some { ret := some inst, ctx := ctx, instantiated := false }
    | some none =>
      match env.palloc_instance with
      | none => some { ret := none, ctx := ctx, instantiated := false }
      | some addr =>
        if !env.pcalloc_log then
          (ngx_wavm_instance_destroy_at_error env.instance_at_error).map
            (fun _ => { ret := none, ctx := ctx, instantiated := false })
        else if lmodule.hfuncs_imports.length ≠ 0 && !env.palloc_tctxs then
          (ngx_wavm_instance_destroy_at_error env.instance_at_error).map
            (fun _ => { ret := none, ctx := ctx, instantiated := false })
        else
          match env.ngx_wrt_instance_new with
          | none =>
            (ngx_wavm_instance_destroy_at_error env.instance_at_error).map
              (fun _ => { ret := none, ctx := ctx, instantiated := true })
          | some handle =>
            let inst : ngx_wavm_instance_t :=
              { addr := addr, ctx := ctx.addr, module := module.name,
                tctxs := lmodule.hfuncs_imports.map
                  (fun hfunc => { hfunc := hfunc, instance_addr := addr }),
                wasm_instance := handle,
                memory := if module.memory_idx ≥ 0 then some module.memory_idx else none }
            some { ret := some inst,
                   ctx := { ctx with instances := some (slots.set lmodule.idx (some inst)) },
                   instantiated := true }

/-- Every instance held in a slot of the context points back to it:
`instance->ctx == ctx`, as `ngx_wavm_instance_create` sets it. -/
def ngx_wavm_ctx_owns (ctx : ngx_wavm_ctx_t) : Bool :=
  match ctx.instances with
  | none => true
  | some slots =>
    slots.all (fun slot =>
      match slot with
      | none => true
      | some inst => decide (inst.ctx = ctx.addr))

/-- An environment of the tick handler at shutdown: `ngx_exiting` is set. -/
def example_tick_env_exiting : tick_env Unit :=
  { ngx_exiting := fun _ => true,
    filter := fun _ => { proxy_on_timer_ready := true, root_ictx := some 0, tick_period := 10 },
    ngx_proxy_wasm_resume := fun _ w => (NGX_OK, w),
    ngx_calloc := fun _ => true }

/-- A string with the given bytes, followed by its terminator. -/
def ngx_string (bytes : List Nat) : ngx_str_t :=
  { len := bytes.length, data := bytes ++ [0] }

/-- A name with the given bytes. -/
def wasm_name (bytes : List Nat) : wasm_name_t :=
  { size := bytes.length, data := bytes }

/-- A loaded and ready module named `m` that imports the function `env.f`
and exports a memory. -/
def example_module : ngx_wavm_module_t :=
  { state := NGX_WAVM_MODULE_LOADED ||| NGX_WAVM_MODULE_READY,
    name := ngx_string [109], path := ngx_string [109, 46, 119, 97, 115, 109],
    module := some { imports := [{ module := wasm_name str_env, name := wasm_name [102],
                                   kind := wasm_externkind_t.WASM_EXTERN_FUNC }],
                     exports := [{ name := wasm_name [109, 101, 109],
                                   kind := wasm_externkind_t.WASM_EXTERN_MEMORY }] },
    imports := [{ module := wasm_name str_env, name := wasm_name [102],
                  kind := wasm_externkind_t.WASM_EXTERN_FUNC }],
    exports := [{ name := wasm_name [109, 101, 109],
                  kind := wasm_externkind_t.WASM_EXTERN_MEMORY }],
    memory_idx := 0, funcs_tree := [], lmodules := [] }

/-- A host interface named `h` that defines the function `f`. -/
def example_host : ngx_wavm_host_def_t := { name := [104], funcs := [[102]] }

/-- The linked module of index 0 that binds `env.f` of `example_module` to
`example_host`. -/
def example_lmodule : ngx_wavm_linked_module_t :=
  { module := ngx_string [109], idx := 0, hfuncs_imports := [{ host := [104], name := [102] }] }

/-- A context at address 1 with one empty slot. -/
def example_ctx : ngx_wavm_ctx_t := { addr := 1, store := some 0, instances := some [none] }

/-- A context at address 2 with one empty slot. -/
def example_ctx2 : ngx_wavm_ctx_t := { addr := 2, store := some 0, instances := some [none] }

/-- An environment in which the creation of an instance succeeds, the
instance being allocated at `addr`. -/
def example_instance_env (addr : Nat) : instance_env :=
  { palloc_instance := some addr, pcalloc_log := true, palloc_tctxs := true,
    ngx_wrt_instance_new := some 7, instance_at_error := none }

/-- The instance of `example_lmodule` created at `addr` in the context at
`ctx`. -/
def example_instance (addr ctx : Nat) : ngx_wavm_instance_t :=
  { addr := addr, ctx := ctx, module := ngx_string [109],
    tctxs := [{ hfunc := { host := [104], name := [102] }, instance_addr := addr }],
    wasm_instance := 7, memory := some 0 }

/-- What the creation of `example_instance addr ctx.addr` in the empty slot
of a context of one slot leaves behind. -/
def example_instance_result (addr : Nat) (ctx : ngx_wavm_ctx_t) : instance_result :=
  { ret := some (example_instance addr ctx.addr),
    ctx := { ctx with instances := some [some (example_instance addr ctx.addr)] },
    instantiated := true }

/-- The bytes of a name: the first `size` bytes at `data`. -/
def wasm_name_bytes (n : wasm_name_t) : List Nat := n.data.take n.size

/-- The host function `hfunc` is a resolution of the import `importtype` by
`host` or, failing that, by the core host of `vm`: it bears the name of
the import and comes from an interface that defines this name. -/
def ngx_wavm_hfunc_resolves (vm : ngx_wavm_t) (host : ngx_wavm_host_def_t)
    (importtype : wasm_importtype_t) (hfunc : ngx_wavm_hfunc_t) : Prop :=
  hfunc.name = wasm_name_bytes importtype.name ∧
    ((hfunc.host = host.name ∧ hfunc.name ∈ host.funcs) ∨
      ∃ core, vm.core_host = some core ∧ hfunc.host = core.name ∧ hfunc.name ∈ core.funcs)

/-- An initialised runtime without module, linked module or core host. -/
def example_vm : ngx_wavm_t :=
  { state := NGX_WAVM_INIT, lmodules_max := 0, modules_tree := [], core_host := none,
    engine := some 0, store := some 0 }

/-- A host interface named `g` that defines no function. -/
def example_host_empty : ngx_wavm_host_def_t := { name := [103], funcs := [] }

/-- The runtime `ngx_wavm_create` returns when its allocations succeed and no
core host is given. -/
def example_vm_created : ngx_wavm_t :=
  { state := 0, lmodules_max := 0, modules_tree := [], core_host := none,
    engine := none, store := none }

/-- Three calls of `ngx_wavm_module_link` on `example_module`: with a host
that defines the import, with a host that does not, and with a NULL host. -/
def example_link_calls : List (ngx_pool_t × ngx_wavm_module_t × Option ngx_wavm_host_def_t) :=
  [(ngx_pool_ok, example_module, some example_host),
   (ngx_pool_ok, example_module, some example_host_empty),
   (ngx_pool_ok, example_module, none)]

/-- A sequence of calls of `ngx_wavm_module_add` on one runtime, each with
its allocations, the memory before its path, its name and its path: the
runtime after the last call; the sequence ends at a call the process does not
survive. -/
def ngx_wavm_module_add_seq :
    List (ngx_pool_t × List Nat × ngx_str_t × ngx_str_t) → ngx_wavm_t → ngx_wavm_t
  | [], vm => vm
  | call :: rest, vm =>
    match ngx_wavm_module_add call.1 call.2.1 vm call.2.2.1 call.2.2.2 with
    | none => vm
    | some r => ngx_wavm_module_add_seq rest r.2

/-- The module `ngx_wavm_module_add` builds for a name and a path, `state`
being what the test of the `.wat` suffix leaves. -/
def ngx_wavm_module_added (state : Nat) (name path : ngx_str_t) : ngx_wavm_module_t :=
  { state := state, name := { len := name.len, data := name.data.take name.len ++ [0] },
    path := { len := path.len, data := path.data.take path.len ++ [0] }, module := none,
    imports := [], exports := [], memory_idx := -1, funcs_tree := [], lmodules := [] }

/-- Some import of the list is in the namespace `env` and is not of function
kind. -/
def wasm_imports_env_non_func (imports : List wasm_importtype_t) : Prop :=
  ∃ i ∈ imports, wasm_name_bytes i.module = str_env ∧
    i.kind ≠ wasm_externkind_t.WASM_EXTERN_FUNC

instance (imports : List wasm_importtype_t) : Decidable (wasm_imports_env_non_func imports) := by
  unfold wasm_imports_env_non_func; infer_instance

/-- A compiled module that imports the global `env.g`. -/
def example_wasm_env_global : wasm_module_t :=
  { imports := [{ module := wasm_name str_env, name := wasm_name [103],
                  kind := wasm_externkind_t.WASM_EXTERN_GLOBAL }],
    exports := [{ name := wasm_name [102], kind := wasm_externkind_t.WASM_EXTERN_FUNC }] }

/-- An engine that compiles every file to `wm`. -/
def example_wrt (wm : wasm_module_t) : ngx_wrt_t :=
  { wasm_engine_new_with_config := some 1,
    wasm_store_new := fun _ => some 2,
    ngx_wasm_bytes_from_path := fun _ => some [0, 97, 115, 109],
    ngx_wrt_wat2wasm := fun b => some b,
    ngx_wrt_module_new := fun _ => some wm }

/-- A compiled module that imports the global `envoy.g` and exports the
function `f`. -/
def example_wasm_envoy_global : wasm_module_t :=
  { imports := [{ module := wasm_name [101, 110, 118, 111, 121], name := wasm_name [103],
                  kind := wasm_externkind_t.WASM_EXTERN_GLOBAL }],
    exports := [{ name := wasm_name [102], kind := wasm_externkind_t.WASM_EXTERN_FUNC }] }

/-- The same compiled module without its import. -/
def example_wasm_no_import : wasm_module_t :=
  { imports := [],
    exports := [{ name := wasm_name [102], kind := wasm_externkind_t.WASM_EXTERN_FUNC }] }

/-- The module `m` of path `m.wasm` as `ngx_wavm_module_add` leaves it. -/
def example_module_added : ngx_wavm_module_t :=
  ngx_wavm_module_added 0 (ngx_string [109]) (ngx_string [109, 46, 119, 97, 115, 109])

/-- A loaded module with the given imports and no export. -/
def example_module_importing (imports : List wasm_importtype_t) : ngx_wavm_module_t :=
  { state := NGX_WAVM_MODULE_LOADED ||| NGX_WAVM_MODULE_READY,
    name := ngx_string [109], path := ngx_string [109, 46, 119, 97, 115, 109],
    module := some { imports := imports, exports := [] },
    imports := imports, exports := [], memory_idx := -1, funcs_tree := [], lmodules := [] }

/-- An engine and a file system with which the engine and the store are
created but no file can be read. -/
def example_wrt_no_file : ngx_wrt_t :=
  { wasm_engine_new_with_config := some 1,
    wasm_store_new := fun _ => some 2,
    ngx_wasm_bytes_from_path := fun _ => none,
    ngx_wrt_wat2wasm := fun b => some b,
    ngx_wrt_module_new := fun _ => none }

/-- A runtime as `ngx_wavm_create` returns it, to which the module `m` was
added. -/
def example_vm_one_module : ngx_wavm_t :=
  { example_vm_created with modules_tree := [example_module_added] }

/-- A list of two short pairs in one part, none a tombstone. -/
def example_short_list : ngx_list_t :=
  { part := [ngx_pair [1] [2], ngx_pair [3] [4]], next := [] }

/-- Two extra pairs with keys and values of 8 bytes. -/
def example_long_extras : List ngx_table_elt_t :=
  [ngx_pair [5, 5, 5, 5, 5, 5, 5, 5] [6, 6, 6, 6, 6, 6, 6, 6],
   ngx_pair [7, 7, 7, 7, 7, 7, 7, 7] [8, 8, 8, 8, 8, 8, 8, 8]]

/-- The position of the last export of memory kind in a list of exports,
`none` when the list holds no such export. -/
def wasm_exports_last_memory : List wasm_exporttype_t → Option Nat
  | [] => none
  | e :: rest =>
    match wasm_exports_last_memory rest with
    | some j => some (j + 1)
    | none => if e.kind = wasm_externkind_t.WASM_EXTERN_MEMORY then some 0 else none

/-- A compiled module that exports, in this order, the function `f`, a
memory, the function `g` and a second memory. -/
def example_wasm_two_memories : wasm_module_t :=
  { imports := [],
    exports := [{ name := wasm_name [102], kind := wasm_externkind_t.WASM_EXTERN_FUNC },
                { name := wasm_name [109], kind := wasm_externkind_t.WASM_EXTERN_MEMORY },
                { name := wasm_name [103], kind := wasm_externkind_t.WASM_EXTERN_FUNC },
                { name := wasm_name [110], kind := wasm_externkind_t.WASM_EXTERN_MEMORY }] }

/-- The condition under which a firing arms a timer, after the
specification: shutdown is not in progress before the callback, the filter
implements the timer callback, a root instance exists, the callback returns
`NGX_OK`, shutdown is not in progress after it and the allocation of the
event succeeds. -/
def tick_rearms {W : Type} (env : tick_env W) (s : tick_state W) : Prop :=
  env.ngx_exiting s.world = false ∧ (env.filter s.world).proxy_on_timer_ready = true ∧
    ∃ ictx, (env.filter s.world).root_ictx = some ictx ∧
      (env.ngx_proxy_wasm_resume ictx s.world).1 = NGX_OK ∧
      env.ngx_exiting (env.ngx_proxy_wasm_resume ictx s.world).2 = false ∧
      env.ngx_calloc (env.ngx_proxy_wasm_resume ictx s.world).2 = true

/-- An environment of the tick handler in which the callback succeeds and
sets the period of the filter to the number of its calls so far: no
shutdown, a filter with the timer callback and the root instance 0. -/
def example_tick_env_ok : tick_env Nat :=
  { ngx_exiting := fun _ => false,
    filter := fun w => { proxy_on_timer_ready := true, root_ictx := some 0, tick_period := w },
    ngx_proxy_wasm_resume := fun _ w => (NGX_OK, w + 1),
    ngx_calloc := fun _ => true }

/-- The binding the specification prescribes for an import name: a host
function of the given interface when it defines the name, else one of the
core interface when there is one and it defines the name, else none. -/
def link_binding_spec (core_host : Option ngx_wavm_host_def_t) (host : ngx_wavm_host_def_t)
    (name : List Nat) : Option ngx_wavm_hfunc_t :=
  if name ∈ host.funcs then some { host := host.name, name := name }
  else
    match core_host with
    | some core => if name ∈ core.funcs then some { host := core.name, name := name } else none
    | none => none

/-- The bindings the specification prescribes for a list of imports, in
order; `none` when one of them has no binding. -/
def link_bindings_spec (core_host : Option ngx_wavm_host_def_t) (host : ngx_wavm_host_def_t) :
    List wasm_importtype_t → Option (List ngx_wavm_hfunc_t)
  | [] => some []
  | i :: rest =>
    match link_binding_spec core_host host (wasm_name_bytes i.name) with
    | none => none
    | some hfunc => (link_bindings_spec core_host host rest).map (fun l => hfunc :: l)

/-- An initialised runtime whose core host interface `c` defines the
functions `f` and `g`. -/
def example_vm_core : ngx_wavm_t :=
  { example_vm with core_host := some { name := [99], funcs := [[102], [103]] } }

/-- The function imports `env.f` and `env.g`. -/
def example_imports_f_g : List wasm_importtype_t :=
  [{ module := wasm_name str_env, name := wasm_name [102],
     kind := wasm_externkind_t.WASM_EXTERN_FUNC },
   { module := wasm_name str_env, name := wasm_name [103],
     kind := wasm_externkind_t.WASM_EXTERN_FUNC }]

/-! ## ngx_wasm_core_shm_generic_directive -/

/-- `ngx_wasm_shm_type_e`. -/
inductive ngx_wasm_shm_type_e where
  | NGX_WASM_SHM_TYPE_KV
  | NGX_WASM_SHM_TYPE_QUEUE
deriving DecidableEq, Repr

/-- `ngx_wasm_shm_t`, with the fields the directive sets. -/
structure ngx_wasm_shm_t where
  type : ngx_wasm_shm_type_e
  name : ngx_str_t
deriving DecidableEq, Repr

/-- `ngx_shm_zone_t`, as the directive leaves the zone that
`ngx_shared_memory_add` returned at the address `addr`: its `init` is
`ngx_wasm_shm_init_zone`, its `data` the shm and its `noreuse` is set. -/
structure ngx_shm_zone_t where
  addr : Nat
  data : ngx_wasm_shm_t
  noreuse : Nat
deriving DecidableEq, Repr

/-- `ngx_wasm_shm_mapping_t`; `zone` is `none` for NULL. -/
structure ngx_wasm_shm_mapping_t where
  name : ngx_str_t
  zone : Option ngx_shm_zone_t
deriving DecidableEq, Repr

/-- Modelled from the spec: the macro `ngx_str_eq(s1, s1_len, s2, s2_len)`,
whose source is not available, tests that the two strings have the same
length and the same bytes. -/
def ngx_str_eq (a b : ngx_str_t) : Bool := ngx_str_same a b

/-- The value as `ssize_t` of a 64-bit unsigned result. -/
def ngx_ssize_of (x : Nat) : Int :=
  if x % 2 ^ 64 < 2 ^ 63 then ((x % 2 ^ 64 : Nat) : Int) else ((x % 2 ^ 64 : Nat) : Int) - 2 ^ 64

/-- The value of an `ssize_t` once converted to the 64-bit unsigned type. -/
def ngx_size_of (i : Int) : Nat := (i % 2 ^ 64).toNat

/-- `ngx_wasm_core_shm_generic_directive` with `name = value[1]`; `size` is
what `ngx_parse_size(&value[2])` returns, which is `NGX_ERROR` when the text
is not a size, `pool` tells whether the allocation of the shm and the push
on the array succeed, and `ngx_shared_memory_add` is the external function,
whose result is the address of the zone (`none` for NULL). The result is the
return value and the elements of `wcf->shms`. -/
def ngx_wasm_core_shm_generic_directive (ngx_pagesize : Nat) (pool : ngx_pool_t)
    (ngx_shared_memory_add : ngx_str_t → Int → Option Nat)
    (shms : List ngx_wasm_shm_mapping_t) (name : ngx_str_t) (size : Int)
    ( type : ngx_wasm_shm_type_e) : Int × List ngx_wasm_shm_mapping_t :=
  let min_size : Int := ngx_ssize_of (3 * ngx_pagesize)
  if name.len = 0 then (NGX_CONF_ERROR, shms)
  else if size = NGX_ERROR then (NGX_CONF_ERROR, shms)
  else if size < min_size then (NGX_CONF_ERROR, shms)
  else if ngx_size_of size &&& ((ngx_pagesize + 2 ^ 64 - 1) % 2 ^ 64) ≠ 0 then
    (NGX_CONF_ERROR, shms)
  else if !pool 0 then (NGX_CONF_ERROR, shms)
  else
    let shm : ngx_wasm_shm_t := { type := type, name := name }
    if shms.any (fun mapping => ngx_str_eq mapping.name name) then (NGX_CONF_ERROR, shms)
    else if !pool 1 then (NGX_CONF_ERROR, shms)
    else
      match ngx_shared_memory_add name size with
      | none => (NGX_CONF_ERROR, shms ++ [{ name := name, zone := none }])
      | some addr =>
        (NGX_CONF_OK,
          shms ++ [{ name := name, zone := some { addr := addr, data := shm, noreuse := 1 } }])

/-- One of the tests of the directive on its arguments fails: the name is
empty, the size does not parse, is below 3 pages or is rejected by the test
of alignment, or a shm of the same name is in the list. -/
def shm_directive_invalid (ngx_pagesize : Nat) (shms : List ngx_wasm_shm_mapping_t)
    (name : ngx_str_t) (size : Int) : Prop :=
  name.len = 0 ∨ size = NGX_ERROR ∨ size < ngx_ssize_of (3 * ngx_pagesize) ∨
    ngx_size_of size &&& ((ngx_pagesize + 2 ^ 64 - 1) % 2 ^ 64) ≠ 0 ∨
    ∃ mapping ∈ shms, ngx_str_eq mapping.name name = true

instance (ngx_pagesize : Nat) (shms : List ngx_wasm_shm_mapping_t) (name : ngx_str_t)
    (size : Int) : Decidable (shm_directive_invalid ngx_pagesize shms name size) := by
  unfold shm_directive_invalid; infer_instance

/-! ## ngx_wavm_ctx_destroy, ngx_wavm_instance_call -/

/-- The loop of `ngx_wavm_ctx_destroy`, at the index `i` with `k` indices
still to visit: the instances it destroys, in order; `none` when
`ctx->instances[i]` is not a slot of the table. -/
def ngx_wavm_ctx_destroy_loop (slots : List (Option ngx_wavm_instance_t)) :
    Nat → Nat → Option (List ngx_wavm_instance_t)
  | _, 0 => some []
  | i, k + 1 =>
    match slots[i]? with
    | none => none
    | some slot =>
      match ngx_wavm_ctx_destroy_loop slots (i + 1) k with
      | none => none
      | some rest =>
        match slot with
        | some inst => some (inst :: rest)
        | none => some rest

/-- `ngx_wavm_ctx_destroy(ctx)` with `vm = ctx->vm`: the instances it
destroys, for `i` from 0 to `vm->lmodules_max - 1`, before it releases the
table and deletes the store; `none` when a read leaves the table. -/
def ngx_wavm_ctx_destroy (vm : ngx_wavm_t) (ctx : ngx_wavm_ctx_t) :
    Option (List ngx_wavm_instance_t) :=
  match ctx.instances with
  | none => some []
  | some slots => ngx_wavm_ctx_destroy_loop slots 0 vm.lmodules_max

/-- What is external to `ngx_wavm_instance_call`, over a state `W` of the
engine: the kinds of the externs of the vector `instance->exports`, which
`wasm_instance_exports` filled for the engine instance;
`ngx_wrt_func_call` on the export of index `idx` of the engine instance
`handle` with the arguments `args`, with its return code, what it stored in
the local `trap` through the pointer it is given (`none` when it stored
nothing, `some none` for NULL, `some (some t)` for the trap `t`) and its
effect on the engine; and the value `trap_uninit` that the local `trap`,
which is declared without initialiser, holds before the call (`none` for
NULL). -/
structure call_env (W : Type) where
  wasm_instance_exports : Nat → List wasm_externkind_t
  ngx_wrt_func_call : Nat → Nat → List Int → W → Int × Option (Option Nat) × W
  trap_uninit : Option Nat

/-- The state a call into an instance acts on: the engine, the context that
holds the instance, the calls dispatched to the engine so far (engine
instance, index of the export and arguments) and the addresses of the
instances on whose log an error was written. -/
structure call_state (W : Type) where
  engine : W
  ctx : ngx_wavm_ctx_t
  calls : List (Nat × Nat × List Int)
  logged : List Nat

/-- `ngx_wavm_instance_call(instance, func, args, nargs, rets, nrets)`; the
result is the return code and the state. It is `none` when
`instance->exports.data[func->exports_idx]` is outside the vector, when
that extern is not a function, for which `wasm_extern_as_func` yields the
NULL that is handed to the engine, and when the engine fails without storing
to `trap` while that local holds a value other than NULL, which
`ngx_wavm_log_error` then takes for a trap. -/
def ngx_wavm_instance_call {W : Type} (env : call_env W) (inst : ngx_wavm_instance_t)
    (func : ngx_wavm_func_t) (args : List Int) (s : call_state W) :
    Option (Int × call_state W) :=
  match (env.wasm_instance_exports inst.wasm_instance)[func.exports_idx]? with
  | none => none
  | some kind =>
    if kind ≠ wasm_externkind_t.WASM_EXTERN_FUNC then none
    else
      let r := env.ngx_wrt_func_call inst.wasm_instance func.exports_idx args s.engine
      let s1 := { s with engine := r.2.2,
                         calls := s.calls ++ [(inst.wasm_instance, func.exports_idx, args)] }
      if r.1 ≠ NGX_OK then
        match r.2.1, env.trap_uninit with
        | none, some _ => none
        | _, _ => some (r.1, { s1 with logged := s1.logged ++ [inst.addr] })
      else some (r.1, s1)

/-- The runtime `example_vm` after one successful link. -/
def example_vm_linked : ngx_wavm_t := { example_vm with lmodules_max := 1 }

/-- The runtime `example_vm` after two successful links. -/
def example_vm_linked2 : ngx_wavm_t := { example_vm with lmodules_max := 2 }

/-- The linked module of index 1 that binds `env.f` of `example_module` to
`example_host`. -/
def example_lmodule2 : ngx_wavm_linked_module_t :=
  { module := ngx_string [109], idx := 1, hfuncs_imports := [{ host := [104], name := [102] }] }

/-- The context at address 1 as `ngx_wavm_ctx_init` leaves it on
`example_vm_linked` with the engine `example_wrt`: one empty slot. -/
def example_ctx_linked : ngx_wavm_ctx_t := { addr := 1, store := some 2, instances := some [none] }

/-- An environment in which the creation of an instance reaches the label
`error` with an instance allocated at `addr`, because the allocation of its
log fails, the field `instance->instance` holding `field`. -/
def example_instance_env_failing (addr : Nat) (field : Option Nat) : instance_env :=
  { palloc_instance := some addr, pcalloc_log := false, palloc_tctxs := true,
    ngx_wrt_instance_new := some 7, instance_at_error := field }

/-- An engine over a state that counts its calls: every instance exports
two functions, a call into the engine instance 7 fails with the trap 5 and
every other call succeeds without a store to `trap`, which holds the value 3
before the call. -/
def example_call_env : call_env Nat :=
  { wasm_instance_exports := fun _ =>
      [wasm_externkind_t.WASM_EXTERN_FUNC, wasm_externkind_t.WASM_EXTERN_FUNC],
    ngx_wrt_func_call := fun handle _ _ w =>
      if handle = 7 then (NGX_ERROR, some (some 5), w + 1) else (NGX_OK, none, w + 1),
    trap_uninit := some 3 }

/-- A context with the instance `a` of engine instance 7 in its slot 0
and the instance `b` of engine instance 8 in its slot 1. -/
def example_ctx_two : ngx_wavm_ctx_t :=
  { addr := 1, store := some 0,
    instances := some [some { addr := 100, ctx := 1, module := ngx_string [97], tctxs := [],
                              wasm_instance := 7, memory := none },
                       some { addr := 200, ctx := 1, module := ngx_string [98], tctxs := [],
                              wasm_instance := 8, memory := none }] }

/-! ## Lemmas on the wire format -/

theorem ngx_u32_store_length (v : Nat) : (ngx_u32_store v).length = 4 := rfl

theorem ngx_u32_load_store (v : Nat) : ngx_u32_load (ngx_u32_store v) = v % 2 ^ 32 := by
  simp only [ngx_u32_load, ngx_u32_store, List.getD_cons_zero, List.getD_cons_succ]
  omega

theorem wire_lens_append (a b : List ngx_table_elt_t) :
    wire_lens (a ++ b) = wire_lens a ++ wire_lens b := by
  induction a with
  | nil => rfl
  | cons e es ih => simp [wire_lens, ih]

theorem wire_payloads_append (a b : List ngx_table_elt_t) :
    wire_payloads (a ++ b) = wire_payloads a ++ wire_payloads b := by
  induction a with
  | nil => rfl
  | cons e es ih => simp [wire_payloads, ih]

theorem wire_lens_length (ps : List ngx_table_elt_t) : (wire_lens ps).length = 8 * ps.length := by
  induction ps with
  | nil => rfl
  | cons e es ih => simp [wire_lens, ih, ngx_u32_store_length]; omega

theorem pairs_wire_size_append (a b : List ngx_table_elt_t) :
    pairs_wire_size (a ++ b) = pairs_wire_size a + pairs_wire_size b := by
  induction a with
  | nil => simp [pairs_wire_size]
  | cons e es ih => simp [pairs_wire_size, ih]; omega

theorem pairs_valid_cons (e : ngx_table_elt_t) (es : List ngx_table_elt_t) :
    pairs_valid (e :: es) ↔
      (ngx_str_valid e.key ∧ ngx_str_valid e.value) ∧ pairs_valid es := by
  simp [pairs_valid]

theorem wire_total_length (ps : List ngx_table_elt_t) (h : pairs_valid ps) :
    (wire_lens ps).length + (wire_payloads ps).length = pairs_wire_size ps := by
  induction ps with
  | nil => rfl
  | cons e es ih =>
    rw [pairs_valid_cons] at h
    have h1 := ih h.2
    have hk := h.1.1
    have hv := h.1.2
    unfold ngx_str_valid at hk hv
    simp only [wire_lens, wire_payloads, pairs_wire_size, pair_wire_size, List.length_append,
      ngx_u32_store_length, List.length_take, List.length_cons, List.length_nil,
      Nat.min_eq_left hk, Nat.min_eq_left hv]
    omega

/-! ## Lemmas on the loops of the marshalling functions -/

theorem pairs_count_loop_eq (es : List ngx_table_elt_t) (c : Nat) :
    pairs_count_loop es c = c + (es.filter (fun e => decide (e.hash ≠ 0))).length := by
  induction es generalizing c with
  | nil => simp [pairs_count_loop]
  | cons e es ih =>
    by_cases h : e.hash = 0
    · simp [pairs_count_loop, h, ih]
    · simp [pairs_count_loop, h, ih]; omega

theorem ngx_proxy_wasm_pairs_count_eq (list : ngx_list_t) :
    ngx_proxy_wasm_pairs_count list = (pairs_live list).length := by
  simp [ngx_proxy_wasm_pairs_count, pairs_live, pairs_count_loop_eq]

theorem marshal_lens_extras_loop_eq (count : Nat) (ex : List ngx_table_elt_t) (buf : List Nat)
    (n : Nat) :
    marshal_lens_extras_loop count ex buf n =
      (buf ++ wire_lens (ex.take (count - n)), n + min (count - n) ex.length) := by
  induction ex generalizing buf n with
  | nil => simp [marshal_lens_extras_loop, wire_lens]
  | cons e es ih =>
    by_cases h : n < count
    · obtain ⟨k, hk⟩ : ∃ k, count - n = k + 1 := ⟨count - n - 1, by omega⟩
      have hk2 : count - (n + 1) = k := by omega
      simp only [marshal_lens_extras_loop, h, if_true, ih, hk, hk2, List.take_succ_cons,
        wire_lens, List.append_assoc, List.length_cons, Prod.mk.injEq, true_and]
      omega
    · have h0 : count - n = 0 := by omega
      simp [marshal_lens_extras_loop, h, h0, wire_lens]

theorem marshal_lens_list_loop_eq (count : Nat) (es : List ngx_table_elt_t) (buf : List Nat)
    (n : Nat) :
    marshal_lens_list_loop count es buf n =
      (buf ++ wire_lens ((es.filter (fun e => decide (e.hash ≠ 0))).take (count - n)),
        n + min (count - n) (es.filter (fun e => decide (e.hash ≠ 0))).length) := by
  induction es generalizing buf n with
  | nil => simp [marshal_lens_list_loop, wire_lens]
  | cons e es ih =>
    by_cases h : n < count
    · by_cases he : e.hash = 0
      · simp [marshal_lens_list_loop, h, he, ih]
      · obtain ⟨k, hk⟩ : ∃ k, count - n = k + 1 := ⟨count - n - 1, by omega⟩
        have hk2 : count - (n + 1) = k := by omega
        simp only [marshal_lens_list_loop, h, he, if_true, if_false, ih, hk, hk2, ne_eq,
          not_false_eq_true, decide_True, List.filter_cons_of_pos, List.take_succ_cons,
          wire_lens, List.append_assoc, List.length_cons, Prod.mk.injEq, true_and]
        omega
    · have h0 : count - n = 0 := by omega
      simp [marshal_lens_list_loop, h, h0, wire_lens]

theorem marshal_data_extras_loop_eq (count : Nat) (ex : List ngx_table_elt_t) (buf : List Nat)
    (n : Nat) :
    marshal_data_extras_loop count ex buf n =
      (buf ++ wire_payloads (ex.take (count - n)), n + min (count - n) ex.length) := by
  induction ex generalizing buf n with
  | nil => simp [marshal_data_extras_loop, wire_payloads]
  | cons e es ih =>
    by_cases h : n < count
    · obtain ⟨k, hk⟩ : ∃ k, count - n = k + 1 := ⟨count - n - 1, by omega⟩
      have hk2 : count - (n + 1) = k := by omega
      simp only [marshal_data_extras_loop, h, if_true, ih, hk, hk2, List.take_succ_cons,
        wire_payloads, ngx_cpymem_nul, List.append_assoc, List.length_cons, Prod.mk.injEq,
        true_and]
      omega
    · have h0 : count - n = 0 := by omega
      simp [marshal_data_extras_loop, h, h0, wire_payloads]

theorem marshal_data_list_loop_eq (count : Nat) (es : List ngx_table_elt_t) (buf : List Nat)
    (n : Nat) :
    marshal_data_list_loop count es buf n =
      (buf ++ wire_payloads ((es.filter (fun e => decide (e.hash ≠ 0))).take (count - n)),
        n + min (count - n) (es.filter (fun e => decide (e.hash ≠ 0))).length) := by
  induction es generalizing buf n with
  | nil => simp [marshal_data_list_loop, wire_payloads]
  | cons e es ih =>
    by_cases h : n < count
    · by_cases he : e.hash = 0
      · simp [marshal_data_list_loop, h, he, ih]
      · obtain ⟨k, hk⟩ : ∃ k, count - n = k + 1 := ⟨count - n - 1, by omega⟩
        have hk2 : count - (n + 1) = k := by omega
        simp only [marshal_data_list_loop, h, he, if_true, if_false, ih, hk, hk2, ne_eq,
          not_false_eq_true, decide_True, List.filter_cons_of_pos, List.take_succ_cons,
          wire_payloads, ngx_cpymem_nul, List.append_assoc, List.length_cons, Prod.mk.injEq,
          true_and]
        omega
    · have h0 : count - n = 0 := by omega
      simp [marshal_data_list_loop, h, h0, wire_payloads]

/-! ## The header count and the bytes written by the marshaller -/

theorem pairs_precedence_length (list : ngx_list_t) (extras : Option (List ngx_table_elt_t)) :
    (pairs_precedence list extras).length = (extras.getD []).length + (pairs_live list).length := by
  simp [pairs_precedence]

theorem marshal_count_lt (list : ngx_list_t) (extras : Option (List ngx_table_elt_t)) :
    marshal_count list extras < 2 ^ 32 := by
  cases extras with
  | none => simp only [marshal_count]; exact Nat.mod_lt _ (by norm_num)
  | some ex => simp only [marshal_count]; exact Nat.mod_lt _ (by norm_num)

theorem marshal_count_le (list : ngx_list_t) (extras : Option (List ngx_table_elt_t)) :
    marshal_count list extras ≤ (pairs_precedence list extras).length := by
  rw [pairs_precedence_length]
  cases extras with
  | none =>
    simp only [marshal_count, ngx_proxy_wasm_pairs_count_eq, Option.getD_none, List.length_nil]
    have := Nat.mod_le (pairs_live list).length (2 ^ 32)
    omega
  | some ex =>
    simp only [marshal_count, ngx_proxy_wasm_pairs_count_eq, Option.getD_some]
    have h1 := Nat.mod_le (pairs_live list).length (2 ^ 32)
    have h2 := Nat.mod_le ((pairs_live list).length % 2 ^ 32 + ex.length) (2 ^ 32)
    omega

theorem marshal_count_eq_of_lt (list : ngx_list_t) (extras : Option (List ngx_table_elt_t))
    (h : (pairs_precedence list extras).length < 2 ^ 32) :
    marshal_count list extras = (pairs_precedence list extras).length := by
  rw [pairs_precedence_length] at *
  cases extras with
  | none =>
    simp only [marshal_count, ngx_proxy_wasm_pairs_count_eq, Option.getD_none, List.length_nil]
      at *
    rw [Nat.mod_eq_of_lt (by omega)]
    omega
  | some ex =>
    simp only [marshal_count, ngx_proxy_wasm_pairs_count_eq, Option.getD_some] at *
    rw [Nat.mod_eq_of_lt (show (pairs_live list).length < 2 ^ 32 by omega),
      Nat.mod_eq_of_lt (by omega)]
    omega

theorem marshal_result_count (list : ngx_list_t) (extras : Option (List ngx_table_elt_t))
    (max : Nat) (truncated : Option Nat) :
    (ngx_proxy_wasm_pairs_marshal list extras max truncated).count =
      if max ≠ 0 ∧ marshal_count list extras > max then max else marshal_count list extras := by
  have hlt := marshal_count_lt list extras
  by_cases h : max ≠ 0 ∧ marshal_count list extras > max
  · have hm : max % 2 ^ 32 = max := Nat.mod_eq_of_lt (by omega)
    have hm2 : max < 4294967296 := by omega
    simp [ngx_proxy_wasm_pairs_marshal, h, hm2]
  · simp only [ngx_proxy_wasm_pairs_marshal, h, decide_False, if_false]
    simp

theorem marshal_result_count_le (list : ngx_list_t) (extras : Option (List ngx_table_elt_t))
    (max : Nat) (truncated : Option Nat) :
    (ngx_proxy_wasm_pairs_marshal list extras max truncated).count ≤
      (pairs_precedence list extras).length := by
  rw [marshal_result_count]
  have := marshal_count_le list extras
  split <;> omega

theorem marshal_buf_eq (list : ngx_list_t) (extras : Option (List ngx_table_elt_t))
    (max : Nat) (truncated : Option Nat) :
    (ngx_proxy_wasm_pairs_marshal list extras max truncated).buf =
      wire_format (ngx_proxy_wasm_pairs_marshal list extras max truncated).count
        ((pairs_precedence list extras).take
          (ngx_proxy_wasm_pairs_marshal list extras max truncated).count) := by
  cases extras with
  | none =>
    simp only [ngx_proxy_wasm_pairs_marshal, wire_format, marshal_lens_list_loop_eq,
      marshal_data_list_loop_eq, pairs_precedence, pairs_live, Option.getD_none,
      List.nil_append, Nat.sub_zero]
  | some ex =>
    simp only [ngx_proxy_wasm_pairs_marshal, wire_format, marshal_lens_list_loop_eq,
      marshal_data_list_loop_eq, marshal_lens_extras_loop_eq, marshal_data_extras_loop_eq,
      pairs_precedence, pairs_live, Option.getD_some, Nat.sub_zero, Nat.zero_add,
      List.take_append_eq_append_take, wire_lens_append, wire_payloads_append,
      List.append_assoc]
    have h : ∀ c : Nat, c - min c ex.length = c - ex.length := by intro c; omega
    simp only [h]

/-! ## Lemmas on the loops of the unmarshalling function -/

theorem ngx_mem_read_eq (data pre x post : List Nat) (off n : Nat)
    (hd : data = pre ++ (x ++ post)) (hoff : off = pre.length) (hn : n = x.length) :
    ngx_mem_read data off n = some x := by
  subst hd hoff hn
  simp [ngx_mem_read]

theorem unmarshal_lens_loop_wire (pool : ngx_pool_t) (hpool : ∀ k, pool k = true)
    (ps : List ngx_table_elt_t) :
    ∀ (data pre post : List Nat) (dst : List ngx_table_elt_t) (off a : Nat),
      data = pre ++ (wire_lens ps ++ post) → off = pre.length →
      unmarshal_lens_loop pool data ps.length dst off a =
        some { ok := true, dst := dst ++ ps.map unmarshal_hdr,
               off := off + (wire_lens ps).length, nalloc := a + ps.length } := by
  induction ps with
  | nil =>
    intro data pre post dst off a _ _
    simp [unmarshal_lens_loop, wire_lens]
  | cons e es ih =>
    intro data pre post dst off a hd hoff
    have r1 : ngx_mem_read data off NGX_PROXY_WASM_PTR_SIZE = some (ngx_u32_store e.key.len) :=
      ngx_mem_read_eq data pre _ (ngx_u32_store e.value.len ++ (wire_lens es ++ post)) off _
        (by simp [hd, wire_lens]) hoff rfl
    have r2 : ngx_mem_read data (off + NGX_PROXY_WASM_PTR_SIZE) NGX_PROXY_WASM_PTR_SIZE =
        some (ngx_u32_store e.value.len) :=
      ngx_mem_read_eq data (pre ++ ngx_u32_store e.key.len) _ (wire_lens es ++ post) _ _
        (by simp [hd, wire_lens]) (by simp [hoff, ngx_u32_store_length, NGX_PROXY_WASM_PTR_SIZE])
        rfl
    have h3 := ih data (pre ++ ngx_u32_store e.key.len ++ ngx_u32_store e.value.len) post
      (dst ++ [unmarshal_hdr e])
      (off + NGX_PROXY_WASM_PTR_SIZE + NGX_PROXY_WASM_PTR_SIZE) (a + 1)
      (by simp [hd, wire_lens])
      (by simp [hoff, ngx_u32_store_length, NGX_PROXY_WASM_PTR_SIZE])
    simp only [List.length_cons, unmarshal_lens_loop, hpool, if_true, r1, r2]
    simp only [unmarshal_hdr, ngx_u32_load_store] at h3 ⊢
    rw [h3]
    simp only [wire_lens, List.length_append, ngx_u32_store_length, NGX_PROXY_WASM_PTR_SIZE,
      List.map_cons, List.append_assoc, List.singleton_append, List.length_cons, unmarshal_hdr]
    congr 2 <;> omega

theorem unmarshal_data_loop_wire (pool : ngx_pool_t) (hpool : ∀ k, pool k = true)
    (ps : List ngx_table_elt_t) (hv : pairs_valid ps) (hf : pairs_lens_fit ps) :
    ∀ (data pre post : List Nat) (done : List ngx_table_elt_t) (off a : Nat),
      data = pre ++ (wire_payloads ps ++ post) → off = pre.length →
      unmarshal_data_loop pool data (ps.map unmarshal_hdr) done off a =
        some { ok := true, dst := done ++ ps.map unmarshal_elt,
               off := off + (wire_payloads ps).length, nalloc := a + 2 * ps.length } := by
  induction ps with
  | nil =>
    intro data pre post done off a _ _
    simp [unmarshal_data_loop, wire_payloads]
  | cons e es ih =>
    intro data pre post done off a hd hoff
    rw [pairs_valid_cons] at hv
    have hf1 := hf e (List.mem_cons_self _ _)
    have hf2 : pairs_lens_fit es := fun x hx => hf x (List.mem_cons_of_mem _ hx)
    have hk := hv.1.1
    have hvv := hv.1.2
    unfold ngx_str_valid at hk hvv
    have hkl : e.key.len % 2 ^ 32 = e.key.len := Nat.mod_eq_of_lt hf1.1
    have hvl : e.value.len % 2 ^ 32 = e.value.len := Nat.mod_eq_of_lt hf1.2
    have lk : (List.take e.key.len e.key.data ++ [0]).length = e.key.len + 1 := by
      simp [Nat.min_eq_left hk]
    have lv : (List.take e.value.len e.value.data ++ [0]).length = e.value.len + 1 := by
      simp [Nat.min_eq_left hvv]
    have r1 : ngx_mem_read data off (e.key.len + 1) =
        some (List.take e.key.len e.key.data ++ [0]) :=
      ngx_mem_read_eq data pre _
        ((List.take e.value.len e.value.data ++ [0]) ++ (wire_payloads es ++ post)) off _
        (by simp [hd, wire_payloads]) hoff lk.symm
    have r2 : ngx_mem_read data (off + (e.key.len + 1)) (e.value.len + 1) =
        some (List.take e.value.len e.value.data ++ [0]) :=
      ngx_mem_read_eq data (pre ++ (List.take e.key.len e.key.data ++ [0])) _
        (wire_payloads es ++ post) _ _
        (by simp [hd, wire_payloads])
        (by rw [List.length_append, lk, hoff]) lv.symm
    have h3 := ih hv.2 hf2 data
      (pre ++ (List.take e.key.len e.key.data ++ [0])
        ++ (List.take e.value.len e.value.data ++ [0])) post
      (done ++ [unmarshal_elt e]) (off + (e.key.len + 1) + (e.value.len + 1)) (a + 2)
      (by simp [hd, wire_payloads])
      (by rw [List.length_append, List.length_append, lk, lv, hoff])
    simp only [List.map_cons, unmarshal_data_loop, hpool, if_true, unmarshal_hdr, hkl, hvl,
      r1, r2]
    simp only [unmarshal_elt] at h3 ⊢
    rw [h3]
    simp only [wire_payloads, List.length_append, lk, lv, List.length_cons, List.map_cons,
      List.append_assoc, List.singleton_append, unmarshal_elt]
    have lk2 : (List.take e.key.len e.key.data).length = e.key.len := by
      simp [Nat.min_eq_left hk]
    have lv2 : (List.take e.value.len e.value.data).length = e.value.len := by
      simp [Nat.min_eq_left hvv]
    congr 2 <;> omega

theorem unmarshal_wire_format (pool : ngx_pool_t) (hpool : ∀ k, pool k = true)
    (ps : List ngx_table_elt_t) (hv : pairs_valid ps) (hf : pairs_lens_fit ps)
    (hn : ps.length < 2 ^ 32) (rest : List Nat) (len : Nat) (hlen : len ≠ 0) :
    ngx_proxy_wasm_pairs_unmarshal pool
        { data := wire_format ps.length ps ++ rest, len := len } =
      some { rc := NGX_OK, dst := ps.map unmarshal_elt,
             nread := (wire_format ps.length ps).length } := by
  have r0 : ngx_mem_read (wire_format ps.length ps ++ rest) 0 NGX_PROXY_WASM_PTR_SIZE =
      some (ngx_u32_store ps.length) :=
    ngx_mem_read_eq _ [] _ (wire_lens ps ++ wire_payloads ps ++ rest) 0 _
      (by simp [wire_format]) rfl rfl
  have h1 := unmarshal_lens_loop_wire pool hpool ps (wire_format ps.length ps ++ rest)
    (ngx_u32_store ps.length) (wire_payloads ps ++ rest) [] NGX_PROXY_WASM_PTR_SIZE 1
    (by simp [wire_format]) rfl
  have h2 := unmarshal_data_loop_wire pool hpool ps hv hf (wire_format ps.length ps ++ rest)
    (ngx_u32_store ps.length ++ wire_lens ps) rest []
    (NGX_PROXY_WASM_PTR_SIZE + (wire_lens ps).length) (1 + ps.length)
    (by simp [wire_format]) (by simp [ngx_u32_store_length, NGX_PROXY_WASM_PTR_SIZE])
  simp only [ngx_proxy_wasm_pairs_unmarshal, hlen, ne_eq, not_false_eq_true, if_true, r0,
    Option.map_some', ngx_u32_load_store, Nat.mod_eq_of_lt hn, hpool, h1, List.nil_append, h2]
  simp [wire_format, ngx_u32_store_length, NGX_PROXY_WASM_PTR_SIZE]
  omega

/-! ## Lemmas on tombstones -/

theorem ngx_list_chain_remove_tombstones_elts
    (ps : List (ngx_table_elt_t × List ngx_table_elt_t)) :
    ngx_list_chain_elts (ngx_list_chain_remove_tombstones ps) =
      (ngx_list_chain_elts ps).filter (fun e => decide (e.hash ≠ 0)) := by
  induction ps with
  | nil => rfl
  | cons p ps ih =>
    simp only [ngx_list_chain_remove_tombstones, ngx_list_chain_elts, List.filter_append]
    split
    · next h => rw [h, ih]; rfl
    · next e es h => rw [ngx_list_chain_elts, ih, h]

theorem ngx_list_remove_tombstones_elts (list : ngx_list_t) :
    ngx_list_elts (ngx_list_remove_tombstones list) =
      (ngx_list_elts list).filter (fun e => decide (e.hash ≠ 0)) := by
  simp [ngx_list_elts, ngx_list_remove_tombstones, ngx_list_chain_remove_tombstones_elts]

theorem pairs_live_remove_tombstones (list : ngx_list_t) :
    pairs_live (ngx_list_remove_tombstones list) = pairs_live list := by
  simp [pairs_live, ngx_list_remove_tombstones_elts]

theorem pairs_size_list_loop_filter (max : Nat) (es : List ngx_table_elt_t) (size n : Nat) :
    pairs_size_list_loop max (es.filter (fun e => decide (e.hash ≠ 0))) size n =
      pairs_size_list_loop max es size n := by
  induction es generalizing size n with
  | nil => rfl
  | cons e es ih =>
    by_cases h : e.hash = 0
    · have hf : (e :: es).filter (fun e => decide (e.hash ≠ 0)) =
          es.filter (fun e => decide (e.hash ≠ 0)) := by simp [h]
      rw [hf, ih]
      simp [pairs_size_list_loop, h]
    · simp only [ne_eq, h, not_false_eq_true, decide_True, List.filter_cons_of_pos,
        pairs_size_list_loop, if_false, ih]

theorem marshal_lens_list_loop_filter (count : Nat) (es : List ngx_table_elt_t)
    (buf : List Nat) (n : Nat) :
    marshal_lens_list_loop count (es.filter (fun e => decide (e.hash ≠ 0))) buf n =
      marshal_lens_list_loop count es buf n := by
  simp only [marshal_lens_list_loop_eq, List.filter_filter, Bool.and_self]

theorem marshal_data_list_loop_filter (count : Nat) (es : List ngx_table_elt_t)
    (buf : List Nat) (n : Nat) :
    marshal_data_list_loop count (es.filter (fun e => decide (e.hash ≠ 0))) buf n =
      marshal_data_list_loop count es buf n := by
  simp only [marshal_data_list_loop_eq, List.filter_filter, Bool.and_self]

theorem marshal_count_remove_tombstones (list : ngx_list_t)
    (extras : Option (List ngx_table_elt_t)) :
    marshal_count (ngx_list_remove_tombstones list) extras = marshal_count list extras := by
  simp only [marshal_count, ngx_proxy_wasm_pairs_count_eq, pairs_live_remove_tombstones]

/-! ## Lemmas on the size computation -/

theorem pairs_size_list_loop_nocap (max : Nat) (es : List ngx_table_elt_t) (size n : Nat)
    (h : max = 0 ∨ n + (es.filter (fun e => decide (e.hash ≠ 0))).length ≤ max) :
    pairs_size_list_loop max es size n =
      (size + pairs_wire_size (es.filter (fun e => decide (e.hash ≠ 0))),
        n + (es.filter (fun e => decide (e.hash ≠ 0))).length) := by
  induction es generalizing size n with
  | nil => simp [pairs_size_list_loop, pairs_wire_size]
  | cons e es ih =>
    by_cases he : e.hash = 0
    · simp only [pairs_size_list_loop, he, if_true]
      rw [ih size n (by simpa [he] using h)]
      simp [he]
    · have hf : (e :: es).filter (fun e => decide (e.hash ≠ 0)) =
          e :: es.filter (fun e => decide (e.hash ≠ 0)) := by simp [he]
      rw [hf] at h ⊢
      simp only [List.length_cons] at h
      simp only [pairs_size_list_loop, he, if_false, pairs_wire_size, pair_wire_size,
        NGX_PROXY_WASM_PTR_SIZE, List.length_cons]
      by_cases hb : max ≠ 0 ∧ n + 1 ≥ max
      · have h0 : (es.filter (fun e => decide (e.hash ≠ 0))).length = 0 := by omega
        have h1 : es.filter (fun e => decide (e.hash ≠ 0)) = [] := List.length_eq_zero.mp h0
        rw [if_pos hb, h1]
        simp only [pairs_wire_size, List.length_nil, Prod.mk.injEq, and_true]
        omega
      · rw [if_neg hb, ih _ (n + 1) (by omega)]
        simp only [Prod.mk.injEq]
        constructor <;> omega

theorem pairs_size_extras_loop_nocap (max : Nat) (ex : List ngx_table_elt_t) (size n : Nat)
    (h : max = 0 ∨ n + ex.length ≤ max) :
    (pairs_size_extras_loop max ex size n).1 = size + pairs_wire_size ex := by
  induction ex generalizing size n with
  | nil => simp [pairs_size_extras_loop, pairs_wire_size]
  | cons e es ih =>
    simp only [List.length_cons] at h
    have hb : ¬ (max ≠ 0 ∧ n ≥ max) := by omega
    simp only [pairs_size_extras_loop, hb, if_false, pairs_wire_size, pair_wire_size,
      NGX_PROXY_WASM_PTR_SIZE]
    rw [ih _ (n + 1) (by omega)]
    omega

theorem ngx_proxy_wasm_pairs_size_nocap (list : ngx_list_t)
    (extras : Option (List ngx_table_elt_t)) (max : Nat)
    (h : max = 0 ∨ (pairs_precedence list extras).length ≤ max) :
    ngx_proxy_wasm_pairs_size list extras max =
      4 + pairs_wire_size (pairs_precedence list extras) := by
  rw [pairs_precedence_length] at h
  cases extras with
  | none =>
    simp only [Option.getD_none, List.length_nil, Nat.zero_add] at h
    simp only [ngx_proxy_wasm_pairs_size, pairs_precedence, Option.getD_none, List.nil_append]
    rw [pairs_size_list_loop_nocap max _ _ 0 (by simpa [pairs_live] using h)]
    simp [pairs_live, NGX_PROXY_WASM_PTR_SIZE]
  | some ex =>
    simp only [Option.getD_some] at h
    simp only [ngx_proxy_wasm_pairs_size, pairs_precedence, Option.getD_some]
    rw [pairs_size_list_loop_nocap max _ _ 0
      (by rcases h with h | h
          · exact Or.inl h
          · right; simp only [pairs_live] at h; omega)]
    rw [pairs_size_extras_loop_nocap max ex _ _
      (by rcases h with h | h
          · exact Or.inl h
          · right; simp only [pairs_live] at h; omega)]
    simp only [pairs_wire_size_append, pairs_live, NGX_PROXY_WASM_PTR_SIZE]
    omega

theorem wire_format_length (n : Nat) (ps : List ngx_table_elt_t) (h : pairs_valid ps) :
    (wire_format n ps).length = 4 + pairs_wire_size ps := by
  simp only [wire_format, List.length_append, ngx_u32_store_length]
  have := wire_total_length ps h
  omega

theorem wire_format_length_ge (n : Nat) (ps : List ngx_table_elt_t) :
    4 + 8 * ps.length ≤ (wire_format n ps).length := by
  simp only [wire_format, List.length_append, ngx_u32_store_length, wire_lens_length]
  omega

/-! ## Further lemmas on the marshaller -/

theorem marshal_result_count_nocap (list : ngx_list_t) (extras : Option (List ngx_table_elt_t))
    (max : Nat) (truncated : Option Nat)
    (hcap : max = 0 ∨ (pairs_precedence list extras).length ≤ max)
    (hfit : (pairs_precedence list extras).length < 2 ^ 32) :
    (ngx_proxy_wasm_pairs_marshal list extras max truncated).count =
      (pairs_precedence list extras).length := by
  rw [marshal_result_count, marshal_count_eq_of_lt list extras hfit]
  have : ¬ (max ≠ 0 ∧ (pairs_precedence list extras).length > max) := by omega
  rw [if_neg this]

theorem marshal_result_count_cap (list : ngx_list_t) (extras : Option (List ngx_table_elt_t))
    (max : Nat) (truncated : Option Nat) (hmax : 0 < max)
    (htot : max < (pairs_precedence list extras).length)
    (hfit : (pairs_precedence list extras).length < 2 ^ 32) :
    (ngx_proxy_wasm_pairs_marshal list extras max truncated).count = max := by
  rw [marshal_result_count, marshal_count_eq_of_lt list extras hfit]
  have : max ≠ 0 ∧ (pairs_precedence list extras).length > max := by omega
  rw [if_pos this]

theorem marshal_result_truncated (list : ngx_list_t) (extras : Option (List ngx_table_elt_t))
    (max : Nat) (truncated : Option Nat) :
    (ngx_proxy_wasm_pairs_marshal list extras max truncated).truncated =
      if max ≠ 0 ∧ marshal_count list extras > max then
        truncated.map (fun _ => (ngx_proxy_wasm_pairs_marshal list extras max truncated).count)
      else truncated := by
  by_cases h : max ≠ 0 ∧ marshal_count list extras > max
  · simp [ngx_proxy_wasm_pairs_marshal, h]
  · simp only [ngx_proxy_wasm_pairs_marshal, h, decide_False, if_false]
    simp

theorem pair_content_unmarshal_elt (e : ngx_table_elt_t)
    (h : ngx_str_valid e.key ∧ ngx_str_valid e.value) :
    pair_content (unmarshal_elt e) = pair_content e := by
  obtain ⟨hk, hv⟩ := h
  unfold ngx_str_valid at hk hv
  simp only [pair_content, unmarshal_elt]
  rw [List.take_append_of_le_length (by simp [Nat.min_eq_left hk]),
    List.take_append_of_le_length (by simp [Nat.min_eq_left hv])]
  simp [List.take_take]

theorem map_pair_content_unmarshal_elt (ps : List ngx_table_elt_t) (h : pairs_valid ps) :
    (ps.map unmarshal_elt).map pair_content = ps.map pair_content := by
  rw [List.map_map]
  apply List.map_congr_left
  intro e he
  exact pair_content_unmarshal_elt e (h e he)

/-! ## Further lemmas on the unmarshaller -/

theorem unmarshal_lens_loop_ok (pool : ngx_pool_t) (hpool : ∀ k, pool k = true)
    (data : List Nat) (count : Nat) :
    ∀ (dst : List ngx_table_elt_t) (off a : Nat) (s : unmarshal_state),
      unmarshal_lens_loop pool data count dst off a = some s → s.ok = true := by
  induction count with
  | zero =>
    intro dst off a s h
    simp only [unmarshal_lens_loop, Option.some.injEq] at h
    rw [← h]
  | succ k ih =>
    intro dst off a s h
    simp only [unmarshal_lens_loop, hpool, if_true] at h
    split at h
    · exact absurd h (by simp)
    · split at h
      · exact absurd h (by simp)
      · exact ih _ _ _ s h

theorem unmarshal_data_loop_ok (pool : ngx_pool_t) (hpool : ∀ k, pool k = true)
    (data : List Nat) (todo : List ngx_table_elt_t) :
    ∀ (done : List ngx_table_elt_t) (off a : Nat) (s : unmarshal_state),
      unmarshal_data_loop pool data todo done off a = some s → s.ok = true := by
  induction todo with
  | nil =>
    intro done off a s h
    simp only [unmarshal_data_loop, Option.some.injEq] at h
    rw [← h]
  | cons e es ih =>
    intro done off a s h
    simp only [unmarshal_data_loop, hpool, if_true] at h
    split at h
    · exact absurd h (by simp)
    · split at h
      · exact absurd h (by simp)
      · exact ih _ _ _ s h

theorem unmarshal_lens_loop_off (pool : ngx_pool_t) (data : List Nat) (count : Nat) :
    ∀ (dst : List ngx_table_elt_t) (off a : Nat) (s : unmarshal_state),
      unmarshal_lens_loop pool data count dst off a = some s → off ≤ s.off := by
  induction count with
  | zero =>
    intro dst off a s h
    simp only [unmarshal_lens_loop, Option.some.injEq] at h
    rw [← h]
  | succ k ih =>
    intro dst off a s h
    simp only [unmarshal_lens_loop] at h
    split at h
    · split at h
      · exact absurd h (by simp)
      · split at h
        · exact absurd h (by simp)
        · have := ih _ _ _ s h
          omega
    · simp only [Option.some.injEq] at h
      rw [← h]

theorem unmarshal_data_loop_off (pool : ngx_pool_t) (data : List Nat)
    (todo : List ngx_table_elt_t) :
    ∀ (done : List ngx_table_elt_t) (off a : Nat) (s : unmarshal_state),
      unmarshal_data_loop pool data todo done off a = some s → off ≤ s.off := by
  induction todo with
  | nil =>
    intro done off a s h
    simp only [unmarshal_data_loop, Option.some.injEq] at h
    rw [← h]
  | cons e es ih =>
    intro done off a s h
    simp only [unmarshal_data_loop] at h
    split at h
    · split at h
      · exact absurd h (by simp)
      · split at h
        · split at h
          · exact absurd h (by simp)
          · have := ih _ _ _ s h
            omega
        · simp only [Option.some.injEq] at h
          rw [← h]
          simp
    · simp only [Option.some.injEq] at h
      rw [← h]

/-! ## Properties of the specification -/

/-- C1, round trip. For every list without tombstone, marshalled without
extras and with `max = 0` or at least as large as the number of pairs, the
unmarshaller run on the bytes written returns `NGX_OK` with as many elements
as the list has pairs, the i-th having the key and value lengths and bytes of
the i-th pair, and reads exactly the bytes written. The environment is one
where the allocations succeed, the strings of the list are valid and lengths
and count fit the `u32` fields of the wire format. -/
theorem C1_unmarshal_marshal_roundtrip (pool : ngx_pool_t) (list : ngx_list_t) (max : Nat)
    (truncated : Option Nat) (rest : List Nat)
    (hpool : ∀ k, pool k = true)
    (hlive : ∀ e ∈ ngx_list_elts list, e.hash ≠ 0)
    (hmax : max = 0 ∨ (ngx_list_elts list).length ≤ max)
    (hv : pairs_valid (ngx_list_elts list))
    (hf : pairs_lens_fit (ngx_list_elts list))
    (hn : (ngx_list_elts list).length < 2 ^ 32) :
    ngx_proxy_wasm_pairs_unmarshal pool
        { data := (ngx_proxy_wasm_pairs_marshal list none max truncated).buf ++ rest,
          len := (ngx_proxy_wasm_pairs_marshal list none max truncated).buf.length } =
      some { rc := NGX_OK, dst := (ngx_list_elts list).map unmarshal_elt,
             nread := (ngx_proxy_wasm_pairs_marshal list none max truncated).buf.length } ∧
    ((ngx_list_elts list).map unmarshal_elt).length = (ngx_list_elts list).length ∧
    ((ngx_list_elts list).map unmarshal_elt).map pair_content =
      (ngx_list_elts list).map pair_content := by
  have hp : pairs_precedence list none = ngx_list_elts list := by
    simp only [pairs_precedence, pairs_live, Option.getD_none, List.nil_append]
    apply List.filter_eq_self.mpr
    intro e he
    simpa using hlive e he
  have hc := marshal_result_count_nocap list none max truncated (by rw [hp]; exact hmax)
    (by rw [hp]; exact hn)
  have hb := marshal_buf_eq list none max truncated
  rw [hc, hp, List.take_length] at hb
  refine ⟨?_, by simp, map_pair_content_unmarshal_elt _ hv⟩
  rw [hb]
  exact unmarshal_wire_format pool hpool (ngx_list_elts list) hv hf hn rest _
    (by have := wire_format_length_ge (ngx_list_elts list).length (ngx_list_elts list); omega)

/-- Witness of C1 on a list of two parts and three pairs, with `max = 0`. -/
theorem C1_unmarshal_marshal_roundtrip_witness :
    ((∀ k, ngx_pool_ok k = true) ∧ (∀ e ∈ ngx_list_elts example_list, e.hash ≠ 0) ∧
      (0 = 0 ∨ (ngx_list_elts example_list).length ≤ 0) ∧
      pairs_valid (ngx_list_elts example_list) ∧ pairs_lens_fit (ngx_list_elts example_list) ∧
      (ngx_list_elts example_list).length < 2 ^ 32) ∧
    (ngx_proxy_wasm_pairs_unmarshal ngx_pool_ok
        { data := (ngx_proxy_wasm_pairs_marshal example_list none 0 none).buf ++ [],
          len := (ngx_proxy_wasm_pairs_marshal example_list none 0 none).buf.length } =
      some { rc := NGX_OK, dst := (ngx_list_elts example_list).map unmarshal_elt,
             nread := (ngx_proxy_wasm_pairs_marshal example_list none 0 none).buf.length } ∧
    ((ngx_list_elts example_list).map unmarshal_elt).length =
      (ngx_list_elts example_list).length ∧
    ((ngx_list_elts example_list).map unmarshal_elt).map pair_content =
      (ngx_list_elts example_list).map pair_content) :=
  ⟨⟨fun _ => rfl, by decide, Or.inl rfl, by decide, by decide, by decide⟩,
    C1_unmarshal_marshal_roundtrip ngx_pool_ok example_list 0 none [] (fun _ => rfl)
      (by decide) (Or.inl rfl) (by decide) (by decide) (by decide)⟩

/-- C2, truncation. When the number of extras plus the number of pairs of the
list that are not tombstones exceeds `max > 0` (and fits the `uint32_t`
count), the marshaller writes the header count `max`, encodes exactly the
first `max` pairs of the precedence sequence (extras in order, then the live
pairs of the list in order) and stores `max` in `*truncated`. -/
theorem C2_marshal_truncates_to_max (list : ngx_list_t)
    (extras : Option (List ngx_table_elt_t)) (max v : Nat) (hmax : 0 < max)
    (htot : max < (pairs_precedence list extras).length)
    (hfit : (pairs_precedence list extras).length < 2 ^ 32) :
    (ngx_proxy_wasm_pairs_marshal list extras max (some v)).count = max ∧
    (ngx_proxy_wasm_pairs_marshal list extras max (some v)).buf =
      ngx_u32_store max ++ wire_lens ((pairs_precedence list extras).take max)
        ++ wire_payloads ((pairs_precedence list extras).take max) ∧
    ((pairs_precedence list extras).take max).length = max ∧
    (ngx_proxy_wasm_pairs_marshal list extras max (some v)).truncated = some max := by
  have hc := marshal_result_count_cap list extras max (some v) hmax htot hfit
  have hb := marshal_buf_eq list extras max (some v)
  have ht := marshal_result_truncated list extras max (some v)
  rw [hc] at hb ht
  rw [marshal_count_eq_of_lt list extras hfit,
    if_pos (show max ≠ 0 ∧ (pairs_precedence list extras).length > max by omega)] at ht
  refine ⟨hc, hb, ?_, ht⟩
  rw [List.length_take]
  omega

/-- Witness of C2: ten pairs marshalled with `max = 3`. -/
theorem C2_marshal_truncates_to_max_witness :
    (0 < 3 ∧ 3 < (pairs_precedence example_ten none).length ∧
      (pairs_precedence example_ten none).length < 2 ^ 32) ∧
    (ngx_proxy_wasm_pairs_marshal example_ten none 3 (some 0)).count = 3 ∧
    (ngx_proxy_wasm_pairs_marshal example_ten none 3 (some 0)).buf =
      ngx_u32_store 3 ++ wire_lens ((pairs_precedence example_ten none).take 3)
        ++ wire_payloads ((pairs_precedence example_ten none).take 3) ∧
    ((pairs_precedence example_ten none).take 3).length = 3 ∧
    (ngx_proxy_wasm_pairs_marshal example_ten none 3 (some 0)).truncated = some 3 :=
  ⟨⟨by decide, by decide, by decide⟩,
    C2_marshal_truncates_to_max example_ten none 3 0 (by decide) (by decide) (by decide)⟩

/-- C3, tombstone skipping. For every list, extras and `max`, the size
computed and everything the marshaller produces (bytes, header count,
`*truncated`) are those obtained from the list with every element of
`hash == 0` removed: tombstones are not encoded and do not count toward
`max`. -/
theorem C3_tombstones_skipped (list : ngx_list_t) (extras : Option (List ngx_table_elt_t))
    (max : Nat) (truncated : Option Nat) :
    ngx_proxy_wasm_pairs_size list extras max =
      ngx_proxy_wasm_pairs_size (ngx_list_remove_tombstones list) extras max ∧
    ngx_proxy_wasm_pairs_marshal list extras max truncated =
      ngx_proxy_wasm_pairs_marshal (ngx_list_remove_tombstones list) extras max truncated := by
  constructor
  · simp only [ngx_proxy_wasm_pairs_size, ngx_list_remove_tombstones_elts,
      pairs_size_list_loop_filter]
  · simp only [ngx_proxy_wasm_pairs_marshal, ngx_list_remove_tombstones_elts,
      marshal_lens_list_loop_filter, marshal_data_list_loop_filter,
      marshal_count_remove_tombstones]

/-- C4, wire layout. For every list, extras and `max`, the bytes written are
the 4-byte header count `n`, then the `n` entries `keylen:u32, valuelen:u32`,
then the `n` payloads `key bytes, 0x00, value bytes, 0x00`, both for the same
`n` pairs in the same order: the first `n` of the extras followed by the live
pairs of the list in list order. -/
theorem C4_marshal_wire_layout (list : ngx_list_t) (extras : Option (List ngx_table_elt_t))
    (max : Nat) (truncated : Option Nat) :
    (ngx_proxy_wasm_pairs_marshal list extras max truncated).buf =
      ngx_u32_store (ngx_proxy_wasm_pairs_marshal list extras max truncated).count
        ++ wire_lens ((pairs_precedence list extras).take
            (ngx_proxy_wasm_pairs_marshal list extras max truncated).count)
        ++ wire_payloads ((pairs_precedence list extras).take
            (ngx_proxy_wasm_pairs_marshal list extras max truncated).count) ∧
    ((pairs_precedence list extras).take
      (ngx_proxy_wasm_pairs_marshal list extras max truncated).count).length =
      (ngx_proxy_wasm_pairs_marshal list extras max truncated).count := by
  refine ⟨marshal_buf_eq list extras max truncated, ?_⟩
  rw [List.length_take]
  have := marshal_result_count_le list extras max truncated
  omega

/-- C5, exact size without a cap. When `max = 0` or the number of extras plus
live pairs of the list is at most `max`, the size computed is
`4 + Σ (8 + keylen + 1 + valuelen + 1)` over the extras and the live pairs of
the list, and it is the number of bytes the marshaller writes for the same
arguments (the strings being valid and the count fitting its `uint32_t`). -/
theorem C5_size_exact_without_cap (list : ngx_list_t) (extras : Option (List ngx_table_elt_t))
    (max : Nat) (truncated : Option Nat)
    (hcap : max = 0 ∨ (pairs_precedence list extras).length ≤ max)
    (hv : pairs_valid (pairs_precedence list extras))
    (hfit : (pairs_precedence list extras).length < 2 ^ 32) :
    ngx_proxy_wasm_pairs_size list extras max =
      4 + pairs_wire_size (pairs_precedence list extras) ∧
    ngx_proxy_wasm_pairs_size list extras max =
      (ngx_proxy_wasm_pairs_marshal list extras max truncated).buf.length := by
  have hs := ngx_proxy_wasm_pairs_size_nocap list extras max hcap
  have hc := marshal_result_count_nocap list extras max truncated hcap hfit
  have hb := marshal_buf_eq list extras max truncated
  rw [hc, List.take_length] at hb
  refine ⟨hs, ?_⟩
  rw [hs, hb, wire_format_length _ _ hv]

/-- Witness of C5: two extras and a list with tombstones, `max = 4`. -/
theorem C5_size_exact_without_cap_witness :
    ((4 = 0 ∨ (pairs_precedence example_tombstones
        (some [ngx_pair [9] [], ngx_pair [] [9, 9]])).length ≤ 4) ∧
      pairs_valid (pairs_precedence example_tombstones
        (some [ngx_pair [9] [], ngx_pair [] [9, 9]])) ∧
      (pairs_precedence example_tombstones
        (some [ngx_pair [9] [], ngx_pair [] [9, 9]])).length < 2 ^ 32) ∧
    ngx_proxy_wasm_pairs_size example_tombstones
        (some [ngx_pair [9] [], ngx_pair [] [9, 9]]) 4 =
      4 + pairs_wire_size (pairs_precedence example_tombstones
        (some [ngx_pair [9] [], ngx_pair [] [9, 9]])) ∧
    ngx_proxy_wasm_pairs_size example_tombstones
        (some [ngx_pair [9] [], ngx_pair [] [9, 9]]) 4 =
      (ngx_proxy_wasm_pairs_marshal example_tombstones
        (some [ngx_pair [9] [], ngx_pair [] [9, 9]]) 4 none).buf.length :=
  ⟨⟨by decide, by decide, by decide⟩,
    C5_size_exact_without_cap example_tombstones (some [ngx_pair [9] [], ngx_pair [] [9, 9]])
      4 none (by decide) (by decide) (by decide)⟩


/-- C6, size under a cap: evaluation at a failing input. With one pair
`("a", "b")` in the list, one extra `("cc", "dd")` and `max = 1`,
`ngx_proxy_wasm_pairs_size` returns 30: it accounts for the list pair and
for the extra, two pairs for `max = 1`. The marshaller emits one pair, the
extra, in 18 bytes, which is `4 + (8 + 2 + 1 + 2 + 1)`. -/
theorem C6_size_under_cap_diverges :
    ngx_proxy_wasm_pairs_size { part := [ngx_pair [97] [98]], next := [] }
        (some [ngx_pair [99, 99] [100, 100]]) 1 = 30 ∧
    (ngx_proxy_wasm_pairs_marshal { part := [ngx_pair [97] [98]], next := [] }
        (some [ngx_pair [99, 99] [100, 100]]) 1 none).count = 1 ∧
    (ngx_proxy_wasm_pairs_marshal { part := [ngx_pair [97] [98]], next := [] }
        (some [ngx_pair [99, 99] [100, 100]]) 1 none).buf =
      wire_format 1 [ngx_pair [99, 99] [100, 100]] ∧
    (ngx_proxy_wasm_pairs_marshal { part := [ngx_pair [97] [98]], next := [] }
        (some [ngx_pair [99, 99] [100, 100]]) 1 none).buf.length = 18 ∧
    4 + pairs_wire_size [ngx_pair [99, 99] [100, 100]] = 18 := by
  decide

/-- C7 as stated fails: with an empty list, the two extras `([1], [2])` and
`([3], [4])` and `max = 1`, the marshaller writes the wire format of the
first extra alone, and its output is not the wire format of any sequence of
pairs that starts with the two extras. -/
theorem C7_extras_dropped_counterexample :
    (ngx_proxy_wasm_pairs_marshal { part := [], next := [] }
        (some [ngx_pair [1] [2], ngx_pair [3] [4]]) 1 none).buf =
      wire_format 1 [ngx_pair [1] [2]] ∧
    ¬ ∃ n ps, (ngx_proxy_wasm_pairs_marshal { part := [], next := [] }
        (some [ngx_pair [1] [2], ngx_pair [3] [4]]) 1 none).buf =
      wire_format n ([ngx_pair [1] [2], ngx_pair [3] [4]] ++ ps) := by
  refine ⟨by decide, ?_⟩
  rintro ⟨n, ps, h⟩
  have hl : (ngx_proxy_wasm_pairs_marshal { part := [], next := [] }
      (some [ngx_pair [1] [2], ngx_pair [3] [4]]) 1 none).buf.length = 16 := by decide
  have hg := wire_format_length_ge n ([ngx_pair [1] [2], ngx_pair [3] [4]] ++ ps)
  rw [← h, hl] at hg
  simp only [List.length_append, List.length_cons, List.length_nil] at hg
  omega

/-- C7, amended. For `max > 0`, when there are at most `max` extras (and the
total count fits its `uint32_t`), every pair of the extras is in the output,
in order and first: the bytes written are the wire format of the extras
followed by a prefix of the live pairs of the list, so that only pairs from
the tail of the list are dropped. -/
theorem C7_extras_kept_within_max (list : ngx_list_t) (ex : List ngx_table_elt_t)
    (max : Nat) (truncated : Option Nat) (_hmax : 0 < max) (hex : ex.length ≤ max)
    (hfit : (pairs_precedence list (some ex)).length < 2 ^ 32) :
    ∃ ps, ps <+: pairs_live list ∧
      (ngx_proxy_wasm_pairs_marshal list (some ex) max truncated).buf =
        wire_format (ngx_proxy_wasm_pairs_marshal list (some ex) max truncated).count
          (ex ++ ps) ∧
      (ngx_proxy_wasm_pairs_marshal list (some ex) max truncated).count =
        ex.length + ps.length := by
  have hb := marshal_buf_eq list (some ex) max truncated
  have hle := marshal_result_count_le list (some ex) max truncated
  have hc := marshal_result_count list (some ex) max truncated
  rw [marshal_count_eq_of_lt list (some ex) hfit] at hc
  have hlen := pairs_precedence_length list (some ex)
  simp only [Option.getD_some] at hlen
  have hge : ex.length ≤ (ngx_proxy_wasm_pairs_marshal list (some ex) max truncated).count := by
    rw [hc]; split <;> omega
  refine ⟨(pairs_live list).take
    ((ngx_proxy_wasm_pairs_marshal list (some ex) max truncated).count - ex.length),
    List.take_prefix _ _, ?_, ?_⟩
  · rw [hb]
    simp only [pairs_precedence, Option.getD_some, List.take_append_eq_append_take,
      List.take_of_length_le hge]
  · rw [List.length_take]
    omega

/-- Witness of the amended C7: two extras, a list of ten pairs, `max = 3`. -/
theorem C7_extras_kept_within_max_witness :
    (0 < 3 ∧ [ngx_pair [1] [2], ngx_pair [3] [4]].length ≤ 3 ∧
      (pairs_precedence example_ten
        (some [ngx_pair [1] [2], ngx_pair [3] [4]])).length < 2 ^ 32) ∧
    ∃ ps, ps <+: pairs_live example_ten ∧
      (ngx_proxy_wasm_pairs_marshal example_ten
          (some [ngx_pair [1] [2], ngx_pair [3] [4]]) 3 none).buf =
        wire_format (ngx_proxy_wasm_pairs_marshal example_ten
          (some [ngx_pair [1] [2], ngx_pair [3] [4]]) 3 none).count
          ([ngx_pair [1] [2], ngx_pair [3] [4]] ++ ps) ∧
      (ngx_proxy_wasm_pairs_marshal example_ten
          (some [ngx_pair [1] [2], ngx_pair [3] [4]]) 3 none).count =
        [ngx_pair [1] [2], ngx_pair [3] [4]].length + ps.length :=
  ⟨⟨by decide, by decide, by decide⟩,
    C7_extras_kept_within_max example_ten [ngx_pair [1] [2], ngx_pair [3] [4]] 3 none
      (by decide) (by decide) (by decide)⟩

/-- C8, empty buffer. For every map with `len = 0`, whatever its `data`
pointer, the unmarshaller takes the count to be 0, reads no byte of the
buffer and, `ngx_array_init` succeeding, returns `NGX_OK` with an empty
array. -/
theorem C8_unmarshal_empty_buffer (pool : ngx_pool_t) (map : ngx_proxy_wasm_marshalled_map_t)
    (hlen : map.len = 0) (hinit : pool 0 = true) :
    ngx_proxy_wasm_pairs_unmarshal pool map = some { rc := NGX_OK, dst := [], nread := 0 } := by
  simp [ngx_proxy_wasm_pairs_unmarshal, hlen, hinit, unmarshal_lens_loop, unmarshal_data_loop]

/-- Witness of C8: a map with `len = 0` and no readable byte. -/
theorem C8_unmarshal_empty_buffer_witness :
    ((({ data := [], len := 0 } : ngx_proxy_wasm_marshalled_map_t).len = 0) ∧
      ngx_pool_ok 0 = true) ∧
    ngx_proxy_wasm_pairs_unmarshal ngx_pool_ok { data := [], len := 0 } =
      some { rc := NGX_OK, dst := [], nread := 0 } :=
  ⟨⟨rfl, rfl⟩, C8_unmarshal_empty_buffer ngx_pool_ok { data := [], len := 0 } rfl rfl⟩


/-- C9 as stated fails. A non-empty map of `len = 2`, shorter than the
4-byte count, whose memory reads `0, 0, 0, 0`: the unmarshaller returns
`NGX_OK`, not `NGX_ERROR`, and has read the four bytes at offsets 0 to 3. A
map of `len = 12` that declares one pair of key `[97, 98]` and value
`[99, 100]`, whose payloads would end at offset 18: the unmarshaller returns
`NGX_OK` with that pair and has read 18 bytes. -/
theorem C9_malformed_buffer_counterexample :
    (ngx_proxy_wasm_pairs_unmarshal ngx_pool_ok { data := [0, 0, 0, 0], len := 2 } =
        some { rc := NGX_OK, dst := [], nread := 4 } ∧ NGX_OK ≠ NGX_ERROR ∧ ¬ 4 ≤ 2) ∧
    (ngx_proxy_wasm_pairs_unmarshal ngx_pool_ok
        { data := wire_format 1 [ngx_pair [97, 98] [99, 100]], len := 12 } =
        some { rc := NGX_OK, dst := [unmarshal_elt (ngx_pair [97, 98] [99, 100])],
               nread := 18 } ∧ ¬ 18 ≤ 12) := by
  decide

/-- C9, amended. The unmarshaller does not validate the buffer against
`map->len`, which it only tests for being zero. For a non-empty map: the
outcome (return code, array, bytes read) is the same whatever the value of
`len`; the count is always read, so at least 4 bytes are, and `NGX_ERROR` is
returned only when an allocation fails; and when the memory at `map->data`
holds the wire format of some pairs, these are decoded in full with `NGX_OK`
and every byte of the encoding is read, also when `len` is shorter than the
encoding. -/
theorem C9_unmarshal_ignores_len (pool : ngx_pool_t) (data : List Nat) (len len2 : Nat)
    (hlen : len ≠ 0) (hlen2 : len2 ≠ 0) :
    ngx_proxy_wasm_pairs_unmarshal pool { data := data, len := len } =
      ngx_proxy_wasm_pairs_unmarshal pool { data := data, len := len2 } ∧
    (∀ r, ngx_proxy_wasm_pairs_unmarshal pool { data := data, len := len } = some r →
      4 ≤ r.nread ∧ (r.rc = NGX_ERROR → ∃ k, pool k = false)) ∧
    (∀ ps rest, (∀ k, pool k = true) → pairs_valid ps → pairs_lens_fit ps →
      ps.length < 2 ^ 32 → data = wire_format ps.length ps ++ rest →
      ngx_proxy_wasm_pairs_unmarshal pool { data := data, len := len } =
        some { rc := NGX_OK, dst := ps.map unmarshal_elt,
               nread := (wire_format ps.length ps).length }) := by
  refine ⟨by simp [ngx_proxy_wasm_pairs_unmarshal, hlen, hlen2], ?_, ?_⟩
  · intro r h
    simp only [ngx_proxy_wasm_pairs_unmarshal, hlen, ne_eq, not_false_eq_true, if_true] at h
    cases h0 : ngx_mem_read data 0 NGX_PROXY_WASM_PTR_SIZE with
    | none => simp [h0] at h
    | some b =>
      simp only [h0, Option.map_some'] at h
      by_cases hp : ∀ k, pool k = true
      · simp only [hp, if_true] at h
        cases h1 : unmarshal_lens_loop pool data (ngx_u32_load b) [] NGX_PROXY_WASM_PTR_SIZE 1
          with
        | none => simp [h1] at h
        | some s1 =>
          have ok1 := unmarshal_lens_loop_ok pool hp data _ _ _ _ s1 h1
          have off1 := unmarshal_lens_loop_off pool data _ _ _ _ s1 h1
          simp only [h1, ok1, if_true] at h
          cases h2 : unmarshal_data_loop pool data s1.dst [] s1.off s1.nalloc with
          | none => simp [h2] at h
          | some s2 =>
            have ok2 := unmarshal_data_loop_ok pool hp data _ _ _ _ s2 h2
            have off2 := unmarshal_data_loop_off pool data _ _ _ _ s2 h2
            simp only [h2, ok2, if_true, Option.some.injEq] at h
            rw [← h]
            simp only [NGX_PROXY_WASM_PTR_SIZE] at off1
            refine ⟨by simp only; omega, ?_⟩
            intro hrc
            exact absurd hrc (show NGX_OK ≠ NGX_ERROR by decide)
      · have hex : ∃ k, pool k = false := by
          by_contra hne
          apply hp
          intro k
          cases hk : pool k with
          | true => rfl
          | false => exact absurd ⟨k, hk⟩ hne
        refine ⟨?_, fun _ => hex⟩
        split at h
        · cases h1 : unmarshal_lens_loop pool data (ngx_u32_load b) [] NGX_PROXY_WASM_PTR_SIZE 1
            with
          | none => simp [h1] at h
          | some s1 =>
            have off1 := unmarshal_lens_loop_off pool data _ _ _ _ s1 h1
            simp only [NGX_PROXY_WASM_PTR_SIZE] at off1
            simp only [h1] at h
            split at h
            · cases h2 : unmarshal_data_loop pool data s1.dst [] s1.off s1.nalloc with
              | none => simp [h2] at h
              | some s2 =>
                have off2 := unmarshal_data_loop_off pool data _ _ _ _ s2 h2
                simp only [h2] at h
                split at h
                · simp only [Option.some.injEq] at h
                  rw [← h]
                  simp only
                  omega
                · simp only [Option.some.injEq] at h
                  rw [← h]
                  simp only
                  omega
            · simp only [Option.some.injEq] at h
              rw [← h]
              simp only
              omega
        · simp only [Option.some.injEq] at h
          rw [← h]
          simp [NGX_PROXY_WASM_PTR_SIZE]
  · intro ps rest hpool hv hf hn hd
    rw [hd]
    exact unmarshal_wire_format pool hpool ps hv hf hn rest len hlen

/-- Witness of the amended C9: the same four bytes under `len = 2` and
`len = 4`. -/
theorem C9_unmarshal_ignores_len_witness :
    ((2 : Nat) ≠ 0 ∧ (4 : Nat) ≠ 0) ∧
    (ngx_proxy_wasm_pairs_unmarshal ngx_pool_ok { data := [0, 0, 0, 0], len := 2 } =
      ngx_proxy_wasm_pairs_unmarshal ngx_pool_ok { data := [0, 0, 0, 0], len := 4 } ∧
    (∀ r, ngx_proxy_wasm_pairs_unmarshal ngx_pool_ok { data := [0, 0, 0, 0], len := 2 } =
        some r →
      4 ≤ r.nread ∧ (r.rc = NGX_ERROR → ∃ k, ngx_pool_ok k = false)) ∧
    (∀ ps rest, (∀ k, ngx_pool_ok k = true) → pairs_valid ps → pairs_lens_fit ps →
      ps.length < 2 ^ 32 → [0, 0, 0, 0] = wire_format ps.length ps ++ rest →
      ngx_proxy_wasm_pairs_unmarshal ngx_pool_ok { data := [0, 0, 0, 0], len := 2 } =
        some { rc := NGX_OK, dst := ps.map unmarshal_elt,
               nread := (wire_format ps.length ps).length })) :=
  ⟨⟨by decide, by decide⟩,
    C9_unmarshal_ignores_len ngx_pool_ok [0, 0, 0, 0] 2 4 (by decide) (by decide)⟩

/-- C10, timer termination. In every firing in which the invocation of the
timer callback fails (the filter has no root instance, or
`ngx_proxy_wasm_resume` returns a value other than `NGX_OK`), the handler
returns with `fctx->ev == NULL` and has called `ngx_add_timer` not once. -/
theorem C10_tick_failure_stops_timer {W : Type} (env : tick_env W) (ev : ngx_event_t)
    (s : tick_state W)
    (hfail : (env.filter s.world).root_ictx = none ∨
      ∃ ictx, (env.filter s.world).root_ictx = some ictx ∧
        (env.ngx_proxy_wasm_resume ictx s.world).1 ≠ NGX_OK) :
    (ngx_proxy_wasm_filter_tick_handler env ev s).ev = none ∧
    (ngx_proxy_wasm_filter_tick_handler env ev s).timers = s.timers := by
  unfold ngx_proxy_wasm_filter_tick_handler
  rcases hfail with h | ⟨ictx, h, hrc⟩
  · simp only [h]
    split <;> simp
  · simp only [h, hrc]
    split <;> simp


/-- Witness of C10: a firing in which `ngx_proxy_wasm_resume` returns
`NGX_ERROR`. -/
theorem C10_tick_failure_stops_timer_witness :
    ((example_tick_env_failing.filter example_tick_state.world).root_ictx = none ∨
      ∃ ictx, (example_tick_env_failing.filter example_tick_state.world).root_ictx = some ictx ∧
        (example_tick_env_failing.ngx_proxy_wasm_resume ictx example_tick_state.world).1
          ≠ NGX_OK) ∧
    (ngx_proxy_wasm_filter_tick_handler example_tick_env_failing example_event
      example_tick_state).ev = none ∧
    (ngx_proxy_wasm_filter_tick_handler example_tick_env_failing example_event
      example_tick_state).timers = example_tick_state.timers :=
  ⟨Or.inr ⟨0, rfl, by decide⟩,
    C10_tick_failure_stops_timer example_tick_env_failing example_event example_tick_state
      (Or.inr ⟨0, rfl, by decide⟩)⟩


/-! ## Lemmas on instance creation -/

theorem ngx_wavm_instance_create_ret (env : instance_env) (lmodule : ngx_wavm_linked_module_t)
    (module : ngx_wavm_module_t) (ctx : ngx_wavm_ctx_t) (r : instance_result)
    (inst : ngx_wavm_instance_t) (hown : ngx_wavm_ctx_owns ctx = true)
    (h : ngx_wavm_instance_create env lmodule module ctx = some r) (hr : r.ret = some inst) :
    inst.ctx = ctx.addr ∧ r.ctx.addr = ctx.addr ∧
      ∃ slots, r.ctx.instances = some slots ∧ slots[lmodule.idx]? = some (some inst) := by
  unfold ngx_wavm_instance_create at h
  cases hi : ctx.instances with
  | none => simp [hi] at h
  | some slots =>
    simp only [hi] at h
    cases hs : slots[lmodule.idx]? with
    | none => simp [hs] at h
    | some slot =>
      cases slot with
      | some old =>
        simp only [hs, Option.some.injEq] at h
        subst h
        simp only [Option.some.injEq] at hr
        subst hr
        refine ⟨?_, rfl, slots, hi, hs⟩
        simp only [ngx_wavm_ctx_owns, hi, List.all_eq_true] at hown
        have := hown (some old) (List.getElem?_mem hs)
        simpa using this
      | none =>
        simp only [hs] at h
        cases hp : env.palloc_instance with
        | none =>
          simp only [hp, Option.some.injEq] at h
          subst h
          simp at hr
        | some addr =>
          simp only [hp] at h
          split at h
          · simp only [Option.map_eq_some'] at h
            obtain ⟨_, _, h⟩ := h
            subst h; simp at hr
          · split at h
            · simp only [Option.map_eq_some'] at h
              obtain ⟨_, _, h⟩ := h
              subst h; simp at hr
            · cases hn : env.ngx_wrt_instance_new with
              | none =>
                simp only [hn, Option.map_eq_some'] at h
                obtain ⟨_, _, h⟩ := h
                subst h
                simp at hr
              | some handle =>
                simp only [hn, Option.some.injEq] at h
                subst h
                simp only [Option.some.injEq] at hr
                subst hr
                have hlt : lmodule.idx < slots.length := by
                  by_contra hge
                  rw [List.getElem?_eq_none (by omega)] at hs
                  simp at hs
                exact ⟨rfl, rfl, _, rfl, List.getElem?_set_self hlt⟩

/-! ## Properties of the runtime and of the timer -/

/-- C11, timer shutdown or missing callback. In every firing at which
`ngx_exiting` is set or `proxy_on_timer_ready` is false, the handler does not
call `ngx_proxy_wasm_resume` (the rest of the process is left as it is), does
not call `ngx_add_timer`, and leaves `fctx->ev` NULL. -/
theorem C11_tick_not_invoked_at_shutdown {W : Type} (env : tick_env W) (ev : ngx_event_t)
    (s : tick_state W)
    (h : env.ngx_exiting s.world = true ∨
      (env.filter s.world).proxy_on_timer_ready = false) :
    (ngx_proxy_wasm_filter_tick_handler env ev s).resumed = s.resumed ∧
    (ngx_proxy_wasm_filter_tick_handler env ev s).world = s.world ∧
    (ngx_proxy_wasm_filter_tick_handler env ev s).timers = s.timers ∧
    (ngx_proxy_wasm_filter_tick_handler env ev s).ev = none := by
  unfold ngx_proxy_wasm_filter_tick_handler
  rcases h with h | h <;> simp [h]

/-- Witness of C11: a firing during shutdown. -/
theorem C11_tick_not_invoked_at_shutdown_witness :
    (example_tick_env_exiting.ngx_exiting example_tick_state.world = true ∨
      (example_tick_env_exiting.filter example_tick_state.world).proxy_on_timer_ready
        = false) ∧
    (ngx_proxy_wasm_filter_tick_handler example_tick_env_exiting example_event
      example_tick_state).resumed = example_tick_state.resumed ∧
    (ngx_proxy_wasm_filter_tick_handler example_tick_env_exiting example_event
      example_tick_state).world = example_tick_state.world ∧
    (ngx_proxy_wasm_filter_tick_handler example_tick_env_exiting example_event
      example_tick_state).timers = example_tick_state.timers ∧
    (ngx_proxy_wasm_filter_tick_handler example_tick_env_exiting example_event
      example_tick_state).ev = none :=
  ⟨Or.inl rfl,
    C11_tick_not_invoked_at_shutdown example_tick_env_exiting example_event example_tick_state
      (Or.inl rfl)⟩

/-- C12, instance reuse. After a successful `ngx_wavm_instance_create` that
returned `inst` for a linked module in a context, the instance is in the slot
`lmodule->idx` of the context, and a second call with the same linked module
in that context returns the identical instance without calling
`ngx_wrt_instance_new` and leaves the context, hence every slot, as it is. A
successful call with the same linked module in a context at another address
returns a different instance, held in the slot `lmodule->idx` of that other
context. The contexts are such that the instances in their slots point back
to them. -/
theorem C12_instance_reuse (env env2 envB : instance_env) (lmodule : ngx_wavm_linked_module_t)
    (module : ngx_wavm_module_t) (ctx ctxB : ngx_wavm_ctx_t) (r rB : instance_result)
    (inst instB : ngx_wavm_instance_t)
    (hown : ngx_wavm_ctx_owns ctx = true) (hownB : ngx_wavm_ctx_owns ctxB = true)
    (haddr : ctxB.addr ≠ ctx.addr)
    (h : ngx_wavm_instance_create env lmodule module ctx = some r) (hr : r.ret = some inst)
    (hB : ngx_wavm_instance_create envB lmodule module ctxB = some rB)
    (hrB : rB.ret = some instB) :
    ngx_wavm_instance_create env2 lmodule module r.ctx =
      some { ret := some inst, ctx := r.ctx, instantiated := false } ∧
    (∃ slots, r.ctx.instances = some slots ∧ slots[lmodule.idx]? = some (some inst)) ∧
    instB ≠ inst ∧
    (∃ slots, rB.ctx.instances = some slots ∧ slots[lmodule.idx]? = some (some instB)) := by
  obtain ⟨hc, _, slots, hs, hi⟩ := ngx_wavm_instance_create_ret env lmodule module ctx r inst
    hown h hr
  obtain ⟨hcB, _, slotsB, hsB, hiB⟩ := ngx_wavm_instance_create_ret envB lmodule module ctxB rB
    instB hownB hB hrB
  refine ⟨?_, ⟨slots, hs, hi⟩, ?_, ⟨slotsB, hsB, hiB⟩⟩
  · simp [ngx_wavm_instance_create, hs, hi]
  · intro heq
    rw [heq, hc] at hcB
    exact haddr hcB.symm

/-- Witness of C12: two contexts with one empty slot each. -/
theorem C12_instance_reuse_witness :
    (ngx_wavm_ctx_owns example_ctx = true ∧ ngx_wavm_ctx_owns example_ctx2 = true ∧
      example_ctx2.addr ≠ example_ctx.addr ∧
      ngx_wavm_instance_create (example_instance_env 100) example_lmodule example_module
        example_ctx = some (example_instance_result 100 example_ctx) ∧
      (example_instance_result 100 example_ctx).ret = some (example_instance 100 1) ∧
      ngx_wavm_instance_create (example_instance_env 200) example_lmodule example_module
        example_ctx2 = some (example_instance_result 200 example_ctx2) ∧
      (example_instance_result 200 example_ctx2).ret = some (example_instance 200 2)) ∧
    (ngx_wavm_instance_create (example_instance_env 300) example_lmodule example_module
        (example_instance_result 100 example_ctx).ctx =
      some { ret := some (example_instance 100 1),
             ctx := (example_instance_result 100 example_ctx).ctx, instantiated := false } ∧
    (∃ slots, (example_instance_result 100 example_ctx).ctx.instances = some slots ∧
      slots[example_lmodule.idx]? = some (some (example_instance 100 1))) ∧
    example_instance 200 2 ≠ example_instance 100 1 ∧
    (∃ slots, (example_instance_result 200 example_ctx2).ctx.instances = some slots ∧
      slots[example_lmodule.idx]? = some (some (example_instance 200 2)))) :=
  ⟨⟨by decide, by decide, by decide, by decide, by decide, by decide, by decide⟩,
    C12_instance_reuse (example_instance_env 100) (example_instance_env 300)
      (example_instance_env 200) example_lmodule example_module example_ctx example_ctx2
      (example_instance_result 100 example_ctx) (example_instance_result 200 example_ctx2)
      (example_instance 100 1) (example_instance 200 2)
      (by decide) (by decide) (by decide) (by decide) (by decide) (by decide) (by decide)⟩


/-! ## Lemmas on linking -/

theorem ngx_strncmp_env (data : List Nat) (h : data.take 3 = str_env) :
    ngx_strncmp data str_env 3 = 0 := by
  match data, h with
  | a :: b :: c :: rest, h =>
    simp only [List.take_succ_cons, List.take_zero, str_env, List.cons.injEq, and_true] at h
    obtain ⟨ha, hb, hc⟩ := h
    subst ha hb hc
    simp [ngx_strncmp, str_env]
  | [], h => simp [str_env] at h
  | [_], h => simp [str_env] at h
  | [_, _], h => simp [str_env] at h

theorem wasm_name_env_take (n : wasm_name_t) (h : wasm_name_bytes n = str_env) :
    n.data.take 3 = str_env := by
  unfold wasm_name_bytes at h
  have hl : (n.data.take n.size).length = 3 := by rw [h]; rfl
  rw [List.length_take] at hl
  have h3 : n.data.take 3 = (n.data.take n.size).take 3 := by
    rw [List.take_take]
    congr 1
    omega
  rw [h3, h]
  rfl

theorem ngx_wavm_import_selected_of_env (i : wasm_importtype_t)
    (h : wasm_name_bytes i.module = str_env) : ngx_wavm_import_selected i = true := by
  simp [ngx_wavm_import_selected, ngx_strncmp_env _ (wasm_name_env_take _ h)]

theorem ngx_wavm_host_hfunc_create_none (ok : Bool) (host : ngx_wavm_host_def_t)
    (s : ngx_str_t) (h : ngx_str_bytes s ∉ host.funcs) :
    ngx_wavm_host_hfunc_create ok host s = none := by
  simp [ngx_wavm_host_hfunc_create, h]

theorem ngx_wavm_host_hfunc_create_some (ok : Bool) (host : ngx_wavm_host_def_t)
    (s : ngx_str_t) (hfunc : ngx_wavm_hfunc_t)
    (h : ngx_wavm_host_hfunc_create ok host s = some hfunc) :
    hfunc.host = host.name ∧ hfunc.name = ngx_str_bytes s ∧ hfunc.name ∈ host.funcs := by
  unfold ngx_wavm_host_hfunc_create at h
  split at h
  · next hc =>
    simp only [Bool.and_eq_true, decide_eq_true_eq] at hc
    simp only [Option.some.injEq] at h
    subst h
    exact ⟨rfl, rfl, hc.2⟩
  · simp at h

theorem ngx_wavm_module_link_resolve_none (pool : ngx_pool_t)
    (core_host : Option ngx_wavm_host_def_t) (host : ngx_wavm_host_def_t) (s : ngx_str_t)
    (a : Nat) (hhost : ngx_str_bytes s ∉ host.funcs)
    (hcore : ∀ core, core_host = some core → ngx_str_bytes s ∉ core.funcs) :
    (ngx_wavm_module_link_resolve pool core_host host s a).1 = none := by
  unfold ngx_wavm_module_link_resolve
  rw [ngx_wavm_host_hfunc_create_none _ host s hhost]
  cases core_host with
  | none => rfl
  | some core => simp [ngx_wavm_host_hfunc_create_none _ core s (hcore core rfl)]

theorem ngx_wavm_module_link_imports_missing (pool : ngx_pool_t)
    (core_host : Option ngx_wavm_host_def_t) (host : ngx_wavm_host_def_t)
    (imp : wasm_importtype_t) (hsel : ngx_wavm_import_selected imp = true)
    (hhost : wasm_name_bytes imp.name ∉ host.funcs)
    (hcore : ∀ core, core_host = some core → wasm_name_bytes imp.name ∉ core.funcs)
    (imports : List wasm_importtype_t) (himp : imp ∈ imports) :
    ∀ (hfuncs : List ngx_wavm_hfunc_t) (a : Nat),
      ngx_wavm_module_link_imports pool core_host host imports hfuncs a = none := by
  induction imports with
  | nil => simp at himp
  | cons i rest ih =>
    intro hfuncs a
    simp only [ngx_wavm_import_selected, decide_eq_true_eq] at hsel
    unfold ngx_wavm_module_link_imports
    by_cases hi : ngx_strncmp i.module.data str_env 3 ≠ 0
    · rw [if_pos hi]
      rcases List.mem_cons.mp himp with heq | hmem
      · subst heq; exact absurd hsel hi
      · exact ih hmem hfuncs a
    · rw [if_neg hi]
      rcases List.mem_cons.mp himp with heq | hmem
      · subst heq
        have := ngx_wavm_module_link_resolve_none pool core_host host
          { len := imp.name.size, data := imp.name.data } a hhost hcore
        simp only [this]
      · simp only
        split
        · rfl
        · split
          · exact ih hmem _ _
          · rfl

theorem ngx_wavm_module_link_resolve_some (pool : ngx_pool_t) (vm : ngx_wavm_t)
    (host : ngx_wavm_host_def_t) (imp : wasm_importtype_t) (a : Nat) (hfunc : ngx_wavm_hfunc_t)
    (h : (ngx_wavm_module_link_resolve pool vm.core_host host
      { len := imp.name.size, data := imp.name.data } a).1 = some hfunc) :
    ngx_wavm_hfunc_resolves vm host imp hfunc := by
  unfold ngx_wavm_module_link_resolve at h
  cases h1 : ngx_wavm_host_hfunc_create (pool a) host
      { len := imp.name.size, data := imp.name.data } with
  | some hf =>
    simp only [h1, Option.some.injEq] at h
    subst h
    obtain ⟨e1, e2, e3⟩ := ngx_wavm_host_hfunc_create_some _ _ _ _ h1
    exact ⟨e2, Or.inl ⟨e1, e3⟩⟩
  | none =>
    simp only [h1] at h
    cases hc : vm.core_host with
    | none => simp [hc] at h
    | some core =>
      simp only [hc] at h
      obtain ⟨e1, e2, e3⟩ := ngx_wavm_host_hfunc_create_some _ _ _ _ h
      exact ⟨e2, Or.inr ⟨core, hc, e1, e3⟩⟩

theorem ngx_wavm_module_link_imports_bound (pool : ngx_pool_t) (vm : ngx_wavm_t)
    (host : ngx_wavm_host_def_t) (imports : List wasm_importtype_t) :
    ∀ (hfuncs : List ngx_wavm_hfunc_t) (a : Nat) (out : List ngx_wavm_hfunc_t),
      ngx_wavm_module_link_imports pool vm.core_host host imports hfuncs a = some out →
      ∃ bound, out = hfuncs ++ bound ∧
        List.Forall₂ (ngx_wavm_hfunc_resolves vm host)
          (imports.filter ngx_wavm_import_selected) bound := by
  induction imports with
  | nil =>
    intro hfuncs a out h
    simp only [ngx_wavm_module_link_imports, Option.some.injEq] at h
    exact ⟨[], by simp [h], by simp⟩
  | cons i rest ih =>
    intro hfuncs a out h
    unfold ngx_wavm_module_link_imports at h
    by_cases hi : ngx_strncmp i.module.data str_env 3 ≠ 0
    · rw [if_pos hi] at h
      obtain ⟨bound, e, f⟩ := ih hfuncs a out h
      refine ⟨bound, e, ?_⟩
      have : ngx_wavm_import_selected i = false := by simp [ngx_wavm_import_selected, hi]
      simpa [List.filter_cons, this] using f
    · rw [if_neg hi] at h
      simp only at h
      cases hr : (ngx_wavm_module_link_resolve pool vm.core_host host
          { len := i.name.size, data := i.name.data } a).1 with
      | none => simp [hr] at h
      | some hfunc =>
        simp only [hr] at h
        split at h
        · obtain ⟨bound, e, f⟩ := ih _ _ out h
          refine ⟨hfunc :: bound, by simp [e], ?_⟩
          have hs : ngx_wavm_import_selected i = true := by
            simp only [ngx_wavm_import_selected, decide_eq_true_eq]
            exact not_not.mp hi
          rw [List.filter_cons, if_pos hs]
          exact List.Forall₂.cons (ngx_wavm_module_link_resolve_some pool vm host i a hfunc hr) f
        · simp at h

theorem ngx_wavm_module_link_step (pool : ngx_pool_t) (vm : ngx_wavm_t)
    (module : ngx_wavm_module_t) (host : Option ngx_wavm_host_def_t) (r : link_result)
    (h : ngx_wavm_module_link pool vm module host = some r) :
    (r.ret = none ∧ r.vm = vm ∧ r.module = module) ∨
    (∃ lmodule, r.ret = some lmodule ∧ lmodule.idx = vm.lmodules_max ∧
      r.vm.lmodules_max = vm.lmodules_max + 1 ∧
      r.module.lmodules = module.lmodules ++ [lmodule]) := by
  unfold ngx_wavm_module_link at h
  by_cases hl : ngx_wavm_module_loaded module = 0
  · rw [if_pos hl] at h
    simp only [Option.some.injEq] at h; subst h; exact Or.inl ⟨rfl, rfl, rfl⟩
  · rw [if_neg hl] at h
    by_cases hp : (pool 0 && pool 1) = true
    · rw [if_pos hp] at h
      cases host with
      | none =>
        simp only [Option.some.injEq] at h; subst h
        exact Or.inr ⟨_, rfl, rfl, rfl, rfl⟩
      | some hst =>
        simp only at h
        cases hloop : ngx_wavm_module_link_imports pool vm.core_host hst module.imports [] 2 with
        | none =>
          simp only [hloop, Option.some.injEq] at h; subst h; exact Or.inl ⟨rfl, rfl, rfl⟩
        | some hf =>
          simp only [hloop, Option.some.injEq] at h; subst h
          exact Or.inr ⟨_, rfl, rfl, rfl, rfl⟩
    · rw [if_neg hp] at h
      cases host with
      | none => simp at h
      | some hst =>
        simp only [Option.some.injEq] at h; subst h; exact Or.inl ⟨rfl, rfl, rfl⟩

theorem ngx_wavm_module_link_seq_idx
    (calls : List (ngx_pool_t × ngx_wavm_module_t × Option ngx_wavm_host_def_t)) :
    ∀ vm : ngx_wavm_t,
      ((ngx_wavm_module_link_seq calls vm).1.filterMap id).map (fun lm => lm.idx) =
        List.range' vm.lmodules_max ((ngx_wavm_module_link_seq calls vm).1.filterMap id).length ∧
      (ngx_wavm_module_link_seq calls vm).2.lmodules_max =
        vm.lmodules_max + ((ngx_wavm_module_link_seq calls vm).1.filterMap id).length := by
  induction calls with
  | nil => intro vm; simp [ngx_wavm_module_link_seq]
  | cons call rest ih =>
    intro vm
    unfold ngx_wavm_module_link_seq
    cases hl : ngx_wavm_module_link call.1 vm call.2.1 call.2.2 with
    | none => simp
    | some r =>
      simp only
      obtain ⟨ih1, ih2⟩ := ih r.vm
      rcases ngx_wavm_module_link_step _ _ _ _ r hl with ⟨h1, h2, _⟩ | ⟨lm, h1, h2, h3, _⟩
      · have hm : r.vm.lmodules_max = vm.lmodules_max := by rw [h2]
        rw [hm] at ih1 ih2
        simp only [h1, List.filterMap_cons, id]
        exact ⟨ih1, ih2⟩
      · rw [h3] at ih1 ih2
        simp only [h1, List.filterMap_cons, id, List.map_cons, List.length_cons, h2,
          List.range'_succ, ih1, true_and]
        omega


/-- C13, linking completeness. For every module with an import of namespace
`env` whose name is defined neither by the host interface given nor by the
core host interface of the runtime, `ngx_wavm_module_link` returns NULL and
leaves the runtime and the module as they are: the queue `module->lmodules`
and `vm->lmodules_max` are unchanged. This holds whatever the kind of
the import, whether or not the module is loaded and whatever the
allocations do. -/
theorem C13_link_fails_on_missing_import (pool : ngx_pool_t) (vm : ngx_wavm_t)
    (module : ngx_wavm_module_t) (host : ngx_wavm_host_def_t) (imp : wasm_importtype_t)
    (himp : imp ∈ module.imports)
    (henv : wasm_name_bytes imp.module = str_env)
    (hhost : wasm_name_bytes imp.name ∉ host.funcs)
    (hcore : ∀ core, vm.core_host = some core → wasm_name_bytes imp.name ∉ core.funcs) :
    ngx_wavm_module_link pool vm module (some host) =
      some { ret := none, vm := vm, module := module } := by
  have hloop := ngx_wavm_module_link_imports_missing pool vm.core_host host imp
    (ngx_wavm_import_selected_of_env imp henv) hhost hcore module.imports himp [] 2
  unfold ngx_wavm_module_link
  simp only [hloop]
  split
  · rfl
  · split <;> rfl

/-- Witness of C13: the import `env.f` and a host interface without
function. -/
theorem C13_link_fails_on_missing_import_witness :
    (({ module := wasm_name str_env, name := wasm_name [102],
        kind := wasm_externkind_t.WASM_EXTERN_FUNC } : wasm_importtype_t)
        ∈ example_module.imports ∧
      wasm_name_bytes (wasm_name str_env) = str_env ∧
      wasm_name_bytes (wasm_name [102]) ∉ example_host_empty.funcs ∧
      (∀ core, example_vm.core_host = some core →
        wasm_name_bytes (wasm_name [102]) ∉ core.funcs)) ∧
    ngx_wavm_module_link ngx_pool_ok example_vm example_module (some example_host_empty) =
      some { ret := none, vm := example_vm, module := example_module } :=
  ⟨⟨by decide, by decide, by decide, by decide⟩,
    C13_link_fails_on_missing_import ngx_pool_ok example_vm example_module example_host_empty
      { module := wasm_name str_env, name := wasm_name [102],
        kind := wasm_externkind_t.WASM_EXTERN_FUNC }
      (by decide) (by decide) (by decide) (by decide)⟩

/-- C14 as stated fails for a NULL host: `example_module` has one
function import of namespace `env`, and `ngx_wavm_module_link` with a NULL
host succeeds with a linked module whose `hfuncs_imports` is empty. -/
theorem C14_null_host_counterexample :
    (ngx_wavm_module_link ngx_pool_ok example_vm example_module none).map (fun r => r.ret) =
      some (some { module := ngx_string [109], idx := 0, hfuncs_imports := [] }) ∧
    (example_module.imports.filter (fun i =>
      decide (wasm_name_bytes i.module = str_env ∧
        i.kind = wasm_externkind_t.WASM_EXTERN_FUNC))).length = 1 := by
  decide

/-- C14, amended. For a host that is not NULL, whenever
`ngx_wavm_module_link` succeeds, `hfuncs_imports` holds exactly one host
function per function import of namespace `env`, in import order, each
bearing the name of its import and taken from the host given or else from
the core host, which defines that name; so that no such import is left
unbound. The module is one whose imports selected by the loop are those of
namespace `env`, all of function kind as `ngx_wavm_module_load` requires.
With a NULL host the link succeeds with an empty `hfuncs_imports`. -/
theorem C14_link_binds_every_env_import (pool : ngx_pool_t) (vm : ngx_wavm_t)
    (module : ngx_wavm_module_t) (host : ngx_wavm_host_def_t) (r : link_result)
    (lmodule : ngx_wavm_linked_module_t)
    (h : ngx_wavm_module_link pool vm module (some host) = some r)
    (hr : r.ret = some lmodule)
    (hns : ∀ i ∈ module.imports, ngx_wavm_import_selected i = true →
      wasm_name_bytes i.module = str_env)
    (hfun : ∀ i ∈ module.imports, wasm_name_bytes i.module = str_env →
      i.kind = wasm_externkind_t.WASM_EXTERN_FUNC) :
    List.Forall₂ (ngx_wavm_hfunc_resolves vm host)
      (module.imports.filter (fun i =>
        decide (wasm_name_bytes i.module = str_env ∧
          i.kind = wasm_externkind_t.WASM_EXTERN_FUNC)))
      lmodule.hfuncs_imports := by
  have hfilter : module.imports.filter (fun i =>
      decide (wasm_name_bytes i.module = str_env ∧
        i.kind = wasm_externkind_t.WASM_EXTERN_FUNC)) =
      module.imports.filter ngx_wavm_import_selected := by
    apply List.filter_congr
    intro i hi
    by_cases hs : ngx_wavm_import_selected i = true
    · have he := hns i hi hs
      simp [hs, he, hfun i hi he]
    · have he : ¬ wasm_name_bytes i.module = str_env :=
        fun he => hs (ngx_wavm_import_selected_of_env i he)
      simp [hs, he]
  rw [hfilter]
  unfold ngx_wavm_module_link at h
  by_cases hl : ngx_wavm_module_loaded module = 0
  · rw [if_pos hl] at h
    simp only [Option.some.injEq] at h; subst h; simp at hr
  · rw [if_neg hl] at h
    by_cases hp : (pool 0 && pool 1) = true
    · rw [if_pos hp] at h
      simp only at h
      cases hloop : ngx_wavm_module_link_imports pool vm.core_host host module.imports [] 2 with
      | none => simp only [hloop, Option.some.injEq] at h; subst h; simp at hr
      | some hf =>
        simp only [hloop, Option.some.injEq] at h; subst h
        simp only [Option.some.injEq] at hr; subst hr
        obtain ⟨bound, e, f⟩ := ngx_wavm_module_link_imports_bound pool vm host module.imports
          [] 2 hf hloop
        simp only [List.nil_append] at e
        subst e
        exact f
    · rw [if_neg hp] at h
      simp only [Option.some.injEq] at h; subst h; simp at hr

/-- Witness of the amended C14: `example_module` linked with a host that
defines `f`. -/
theorem C14_link_binds_every_env_import_witness :
    (ngx_wavm_module_link ngx_pool_ok example_vm example_module (some example_host) =
        some { ret := some example_lmodule,
               vm := { example_vm with lmodules_max := 1 },
               module := { example_module with lmodules := [example_lmodule] } } ∧
      (∀ i ∈ example_module.imports, ngx_wavm_import_selected i = true →
        wasm_name_bytes i.module = str_env) ∧
      (∀ i ∈ example_module.imports, wasm_name_bytes i.module = str_env →
        i.kind = wasm_externkind_t.WASM_EXTERN_FUNC)) ∧
    List.Forall₂ (ngx_wavm_hfunc_resolves example_vm example_host)
      (example_module.imports.filter (fun i =>
        decide (wasm_name_bytes i.module = str_env ∧
          i.kind = wasm_externkind_t.WASM_EXTERN_FUNC)))
      example_lmodule.hfuncs_imports :=
  ⟨⟨by decide, by decide, by decide⟩,
    C14_link_binds_every_env_import ngx_pool_ok example_vm example_module example_host
      { ret := some example_lmodule, vm := { example_vm with lmodules_max := 1 },
        module := { example_module with lmodules := [example_lmodule] } }
      example_lmodule (by decide) rfl (by decide) (by decide)⟩

/-- C15, dense indices that are never reused. On a runtime as
`ngx_wavm_create` returns it, in every sequence of calls of
`ngx_wavm_module_link` (on any modules, with any hosts and allocations) the
k-th successful call, counted from 0, returns a linked module of `idx = k`,
and `lmodules_max` ends as the number of successful calls: every linked
module has `idx < lmodules_max` and no two have the same `idx`. On any
runtime a call that returns NULL leaves `lmodules_max` as it is, and no
sequence of calls makes it decrease. -/
theorem C15_link_indices_dense (pool : ngx_pool_t) (core_host : Option ngx_wavm_host_def_t)
    (vm : ngx_wavm_t)
    (calls : List (ngx_pool_t × ngx_wavm_module_t × Option ngx_wavm_host_def_t))
    (hvm : ngx_wavm_create pool core_host = some vm) :
    ((ngx_wavm_module_link_seq calls vm).1.filterMap id).map (fun lm => lm.idx) =
      List.range ((ngx_wavm_module_link_seq calls vm).1.filterMap id).length ∧
    (ngx_wavm_module_link_seq calls vm).2.lmodules_max =
      ((ngx_wavm_module_link_seq calls vm).1.filterMap id).length ∧
    (∀ lm ∈ (ngx_wavm_module_link_seq calls vm).1.filterMap id,
      lm.idx < (ngx_wavm_module_link_seq calls vm).2.lmodules_max) ∧
    (((ngx_wavm_module_link_seq calls vm).1.filterMap id).map (fun lm => lm.idx)).Nodup ∧
    (∀ (p : ngx_pool_t) (vm2 : ngx_wavm_t) (m : ngx_wavm_module_t)
        (host : Option ngx_wavm_host_def_t) (r : link_result),
      ngx_wavm_module_link p vm2 m host = some r → r.ret = none →
        r.vm.lmodules_max = vm2.lmodules_max) ∧
    (∀ (vm2 : ngx_wavm_t)
        (calls2 : List (ngx_pool_t × ngx_wavm_module_t × Option ngx_wavm_host_def_t)),
      vm2.lmodules_max ≤ (ngx_wavm_module_link_seq calls2 vm2).2.lmodules_max) := by
  have h0 : vm.lmodules_max = 0 := by
    unfold ngx_wavm_create at hvm
    split at hvm
    · split at hvm
      · simp only [Option.some.injEq] at hvm; rw [← hvm]
      · simp at hvm
    · simp at hvm
  obtain ⟨h1, h2⟩ := ngx_wavm_module_link_seq_idx calls vm
  rw [h0] at h1 h2
  rw [← List.range_eq_range'] at h1
  simp only [Nat.zero_add] at h2
  refine ⟨h1, h2, ?_, ?_, ?_, ?_⟩
  · intro lm hlm
    have hmem : lm.idx ∈ ((ngx_wavm_module_link_seq calls vm).1.filterMap id).map
        (fun lm => lm.idx) := List.mem_map_of_mem _ hlm
    rw [h1, List.mem_range] at hmem
    rw [h2]
    exact hmem
  · rw [h1]
    exact List.nodup_range _
  · intro p vm2 m host r hl hnone
    rcases ngx_wavm_module_link_step p vm2 m host r hl with ⟨_, hv, _⟩ | ⟨lm, hs, _⟩
    · rw [hv]
    · rw [hnone] at hs; simp at hs
  · intro vm2 calls2
    have := (ngx_wavm_module_link_seq_idx calls2 vm2).2
    omega

/-- Witness of C15: three calls on a fresh runtime, the second of which
fails. -/
theorem C15_link_indices_dense_witness :
    ngx_wavm_create ngx_pool_ok none = some example_vm_created ∧
    (((ngx_wavm_module_link_seq example_link_calls example_vm_created).1.filterMap id).map
        (fun lm => lm.idx) =
      List.range ((ngx_wavm_module_link_seq example_link_calls
        example_vm_created).1.filterMap id).length ∧
    (ngx_wavm_module_link_seq example_link_calls example_vm_created).2.lmodules_max =
      ((ngx_wavm_module_link_seq example_link_calls example_vm_created).1.filterMap id).length ∧
    (∀ lm ∈ (ngx_wavm_module_link_seq example_link_calls example_vm_created).1.filterMap id,
      lm.idx < (ngx_wavm_module_link_seq example_link_calls
        example_vm_created).2.lmodules_max) ∧
    (((ngx_wavm_module_link_seq example_link_calls example_vm_created).1.filterMap id).map
      (fun lm => lm.idx)).Nodup ∧
    (∀ (p : ngx_pool_t) (vm2 : ngx_wavm_t) (m : ngx_wavm_module_t)
        (host : Option ngx_wavm_host_def_t) (r : link_result),
      ngx_wavm_module_link p vm2 m host = some r → r.ret = none →
        r.vm.lmodules_max = vm2.lmodules_max) ∧
    (∀ (vm2 : ngx_wavm_t)
        (calls2 : List (ngx_pool_t × ngx_wavm_module_t × Option ngx_wavm_host_def_t)),
      vm2.lmodules_max ≤ (ngx_wavm_module_link_seq calls2 vm2).2.lmodules_max)) :=
  ⟨by decide,
    C15_link_indices_dense ngx_pool_ok none example_vm_created example_link_calls (by decide)⟩


/-! ## Lemmas on the registry of modules -/

theorem ngx_str_bytes_copy (s : ngx_str_t) (h : ngx_str_valid s) :
    ngx_str_bytes { len := s.len, data := s.data.take s.len ++ [0] } = ngx_str_bytes s := by
  unfold ngx_str_valid at h
  simp only [ngx_str_bytes]
  rw [List.take_append_of_le_length (by simp [Nat.min_eq_left h]), List.take_take]
  simp

theorem ngx_str_same_copy (s : ngx_str_t) (h : ngx_str_valid s) :
    ngx_str_same { len := s.len, data := s.data.take s.len ++ [0] } s = true := by
  simp [ngx_str_same, ngx_str_bytes_copy s h]

theorem ngx_str_same_trans_false (a b c : ngx_str_t) (hab : ngx_str_same a b = true)
    (hbc : ngx_str_same b c = false) : ngx_str_same a c = false := by
  simp only [ngx_str_same, Bool.and_eq_true, decide_eq_true_eq, Bool.and_eq_false_iff,
    decide_eq_false_iff_not] at *
  obtain ⟨h1, h2⟩ := hab
  rw [h1, h2]
  exact hbc

theorem ngx_wavm_module_add_ok (pool : ngx_pool_t) (before : List Nat) (vm : ngx_wavm_t)
    (name path : ngx_str_t) (vm1 : ngx_wavm_t)
    (h : ngx_wavm_module_add pool before vm name path = some (NGX_OK, vm1)) :
    ngx_wavm_module_lookup vm name = none ∧
      ∃ state, vm1 = { vm with modules_tree :=
        vm.modules_tree ++ [ngx_wavm_module_added state name path] } := by
  unfold ngx_wavm_module_add at h
  cases hl : ngx_wavm_module_lookup vm name with
  | some m =>
    simp only [hl, Option.some.injEq, Prod.mk.injEq] at h
    exact absurd h.1 (by decide)
  | none =>
    refine ⟨rfl, ?_⟩
    simp only [hl] at h
    split at h
    · split at h
      · split at h
        · split at h
          · simp at h
          · simp only [Option.some.injEq, Prod.mk.injEq, true_and] at h
            exact ⟨_, h.symm⟩
        · simp at h
      · simp at h
    · simp only [Option.some.injEq, Prod.mk.injEq] at h
      exact absurd h.1 (by decide)

theorem ngx_wavm_module_add_cases (pool : ngx_pool_t) (before : List Nat) (vm : ngx_wavm_t)
    (name path : ngx_str_t) (r : Int × ngx_wavm_t)
    (h : ngx_wavm_module_add pool before vm name path = some r) :
    r.2 = vm ∨ ∃ state, r.2 = { vm with modules_tree :=
        vm.modules_tree ++ [ngx_wavm_module_added state name path] } := by
  unfold ngx_wavm_module_add at h
  cases hl : ngx_wavm_module_lookup vm name with
  | some m =>
    simp only [hl, Option.some.injEq] at h
    subst h
    exact Or.inl rfl
  | none =>
    simp only [hl] at h
    split at h
    · split at h
      · split at h
        · split at h
          · simp at h
          · simp only [Option.some.injEq] at h
            subst h
            exact Or.inr ⟨_, rfl⟩
        · simp at h
      · simp at h
    · simp only [Option.some.injEq] at h
      subst h
      exact Or.inl rfl

theorem ngx_wavm_module_lookup_added (vm : ngx_wavm_t) (state : Nat) (name path : ngx_str_t)
    (hv : ngx_str_valid name) (hl : ngx_wavm_module_lookup vm name = none) :
    ngx_wavm_module_lookup
        { vm with modules_tree := vm.modules_tree ++ [ngx_wavm_module_added state name path] }
        name = some (ngx_wavm_module_added state name path) := by
  simp only [ngx_wavm_module_lookup, ngx_wasm_sn_rbtree_lookup] at hl ⊢
  rw [List.find?_append, hl]
  simp [List.find?, ngx_wavm_module_added, ngx_str_same_copy name hv]

theorem ngx_wavm_module_lookup_other (vm : ngx_wavm_t) (state : Nat)
    (name path name2 : ngx_str_t) (hv : ngx_str_valid name)
    (hne : ngx_str_same name name2 = false) :
    ngx_wavm_module_lookup
        { vm with modules_tree := vm.modules_tree ++ [ngx_wavm_module_added state name path] }
        name2 = ngx_wavm_module_lookup vm name2 := by
  simp only [ngx_wavm_module_lookup, ngx_wasm_sn_rbtree_lookup]
  rw [List.find?_append]
  have : ngx_str_same (ngx_wavm_module_added state name path).name name2 = false :=
    ngx_str_same_trans_false _ name name2 (ngx_str_same_copy name hv) hne
  simp [List.find?, this]

theorem ngx_wavm_module_add_seq_lookup
    (calls : List (ngx_pool_t × List Nat × ngx_str_t × ngx_str_t)) (name : ngx_str_t)
    (hcalls : ∀ c ∈ calls, ngx_str_valid c.2.2.1 ∧ ngx_str_same c.2.2.1 name = false) :
    ∀ vm : ngx_wavm_t, ngx_wavm_module_lookup vm name = none →
      ngx_wavm_module_lookup (ngx_wavm_module_add_seq calls vm) name = none := by
  induction calls with
  | nil => intro vm h; exact h
  | cons c rest ih =>
    intro vm h
    unfold ngx_wavm_module_add_seq
    cases ha : ngx_wavm_module_add c.1 c.2.1 vm c.2.2.1 c.2.2.2 with
    | none => exact h
    | some r =>
      simp only
      apply ih (fun c' hc' => hcalls c' (List.mem_cons_of_mem _ hc'))
      obtain ⟨hv, hne⟩ := hcalls c (List.mem_cons_self _ _)
      rcases ngx_wavm_module_add_cases _ _ _ _ _ r ha with he | ⟨state, he⟩
      · rw [he]; exact h
      · rw [he, ngx_wavm_module_lookup_other vm state _ _ name hv hne]; exact h

/-- C16, unique names, the first registration wins. After
`ngx_wavm_module_add(vm, name, path)` returned `NGX_OK` (name and path being
valid strings), `ngx_wavm_module_lookup(vm, name)` returns a module whose name
and path have the length and the bytes given; a later
`ngx_wavm_module_add` with the same name, whatever the path and the
allocations, returns `NGX_DECLINED` and leaves the runtime as it is, so that
the lookup still returns that module; and `ngx_wasm_core_module_directive`
with that name returns `NGX_CONF_ERROR`. On a runtime as `ngx_wavm_create`
returns it, after any sequence of `ngx_wavm_module_add` the lookup of a name
that none of the calls was given returns NULL. -/
theorem C16_module_names_unique (pool : ngx_pool_t) (before : List Nat) (vm vm1 : ngx_wavm_t)
    (name path : ngx_str_t) (hvn : ngx_str_valid name) (hvp : ngx_str_valid path)
    (h : ngx_wavm_module_add pool before vm name path = some (NGX_OK, vm1)) :
    (∃ m, ngx_wavm_module_lookup vm1 name = some m ∧
      m.name.len = name.len ∧ ngx_str_bytes m.name = ngx_str_bytes name ∧
      m.path.len = path.len ∧ ngx_str_bytes m.path = ngx_str_bytes path) ∧
    (∀ (pool2 : ngx_pool_t) (before2 : List Nat) (path2 : ngx_str_t),
      ngx_wavm_module_add pool2 before2 vm1 name path2 = some (NGX_DECLINED, vm1) ∧
      ngx_wasm_core_module_directive pool2 before2 vm1 name path2 =
        some (NGX_CONF_ERROR, vm1)) ∧
    (∀ (pool0 : ngx_pool_t) (core_host : Option ngx_wavm_host_def_t) (vm0 : ngx_wavm_t)
        (calls : List (ngx_pool_t × List Nat × ngx_str_t × ngx_str_t)) (other : ngx_str_t),
      ngx_wavm_create pool0 core_host = some vm0 →
      (∀ c ∈ calls, ngx_str_valid c.2.2.1 ∧ ngx_str_same c.2.2.1 other = false) →
      ngx_wavm_module_lookup (ngx_wavm_module_add_seq calls vm0) other = none) := by
  obtain ⟨hl, state, hvm1⟩ := ngx_wavm_module_add_ok pool before vm name path vm1 h
  have hfound := ngx_wavm_module_lookup_added vm state name path hvn hl
  rw [← hvm1] at hfound
  refine ⟨⟨_, hfound, rfl, ngx_str_bytes_copy name hvn, rfl, ngx_str_bytes_copy path hvp⟩,
    ?_, ?_⟩
  · intro pool2 before2 path2
    have hadd : ngx_wavm_module_add pool2 before2 vm1 name path2 = some (NGX_DECLINED, vm1) := by
      simp [ngx_wavm_module_add, hfound]
    refine ⟨hadd, ?_⟩
    unfold ngx_wasm_core_module_directive
    split
    · rfl
    · split
      · rfl
      · rw [hadd]
        simp [NGX_DECLINED, NGX_OK]
  · intro pool0 core_host vm0 calls other hvm0 hcalls
    apply ngx_wavm_module_add_seq_lookup calls other hcalls
    unfold ngx_wavm_create at hvm0
    split at hvm0
    · split at hvm0
      · simp only [Option.some.injEq] at hvm0
        rw [← hvm0]
        rfl
      · simp at hvm0
    · simp at hvm0

/-- Witness of C16: the module `m` of path `m.wasm` added to a fresh
runtime. -/
theorem C16_module_names_unique_witness :
    (ngx_str_valid (ngx_string [109]) ∧
      ngx_str_valid (ngx_string [109, 46, 119, 97, 115, 109]) ∧
      ngx_wavm_module_add ngx_pool_ok [] example_vm_created (ngx_string [109])
          (ngx_string [109, 46, 119, 97, 115, 109]) =
        some (NGX_OK, { example_vm_created with modules_tree :=
          [ngx_wavm_module_added 0 (ngx_string [109])
            (ngx_string [109, 46, 119, 97, 115, 109])] })) ∧
    ∃ m, ngx_wavm_module_lookup
        { example_vm_created with modules_tree :=
          [ngx_wavm_module_added 0 (ngx_string [109])
            (ngx_string [109, 46, 119, 97, 115, 109])] } (ngx_string [109]) = some m ∧
      m.name.len = (ngx_string [109]).len ∧
      ngx_str_bytes m.name = ngx_str_bytes (ngx_string [109]) ∧
      m.path.len = (ngx_string [109, 46, 119, 97, 115, 109]).len ∧
      ngx_str_bytes m.path = ngx_str_bytes (ngx_string [109, 46, 119, 97, 115, 109]) :=
  ⟨⟨by decide, by decide, by decide⟩,
    (C16_module_names_unique ngx_pool_ok [] example_vm_created _ (ngx_string [109])
      (ngx_string [109, 46, 119, 97, 115, 109]) (by decide) (by decide) (by decide)).1⟩

/-- C17 as stated fails: `ngx_wavm_module_add` called with an empty name on a
fresh runtime returns `NGX_OK` and the registry then holds one module, whose
name is empty. -/
theorem C17_add_accepts_empty_name_counterexample :
    ngx_wavm_module_add ngx_pool_ok [] example_vm_created (ngx_string [])
        (ngx_string [109, 46, 119, 97, 115, 109]) =
      some (NGX_OK, { example_vm_created with modules_tree :=
        [ngx_wavm_module_added 0 (ngx_string [])
          (ngx_string [109, 46, 119, 97, 115, 109])] }) ∧
    (ngx_string []).len = 0 := by
  decide

/-- C17, amended. `ngx_wavm_module_add` does not test the name; it is
`ngx_wasm_core_module_directive` that rejects an empty name: for every
runtime and path it returns `NGX_CONF_ERROR` without adding a module, the
runtime being left as it is. -/
theorem C17_directive_rejects_empty_name (pool : ngx_pool_t) (before : List Nat)
    (vm : ngx_wavm_t) (name path : ngx_str_t) (hname : name.len = 0) :
    ngx_wasm_core_module_directive pool before vm name path = some (NGX_CONF_ERROR, vm) := by
  simp [ngx_wasm_core_module_directive, hname]

/-- Witness of the amended C17: the directive with an empty name on a fresh
runtime. -/
theorem C17_directive_rejects_empty_name_witness :
    (ngx_string []).len = 0 ∧
    ngx_wasm_core_module_directive ngx_pool_ok [] example_vm_created (ngx_string [])
        (ngx_string [109, 46, 119, 97, 115, 109]) =
      some (NGX_CONF_ERROR, example_vm_created) :=
  ⟨rfl, C17_directive_rejects_empty_name ngx_pool_ok [] example_vm_created (ngx_string [])
    (ngx_string [109, 46, 119, 97, 115, 109]) rfl⟩


/-! ## Lemmas on the loading of modules -/

theorem ngx_wavm_module_ready_or_loaded (s : Nat) :
    (s ||| NGX_WAVM_MODULE_LOADED) &&& NGX_WAVM_MODULE_READY = s &&& NGX_WAVM_MODULE_READY := by
  have h2 : NGX_WAVM_MODULE_LOADED = 2 ^ 1 := rfl
  have h4 : NGX_WAVM_MODULE_READY = 2 ^ 2 := rfl
  apply Nat.eq_of_testBit_eq
  intro i
  simp only [Nat.testBit_and, Nat.testBit_or]
  rw [h2, h4, Nat.testBit_two_pow, Nat.testBit_two_pow]
  by_cases h : 2 = i
  · subst h; simp
  · simp [h]

theorem ngx_wavm_module_load_imports_bad (imports : List wasm_importtype_t)
    (h : wasm_imports_env_non_func imports) : ngx_wavm_module_load_imports imports = false := by
  induction imports with
  | nil => obtain ⟨i, hi, _⟩ := h; simp at hi
  | cons j rest ih =>
    obtain ⟨i, hi, henv, hkind⟩ := h
    unfold ngx_wavm_module_load_imports
    by_cases hj : ngx_strncmp j.module.data str_env 3 ≠ 0
    · rw [if_pos hj]
      rcases List.mem_cons.mp hi with heq | hmem
      · subst heq
        exact absurd (ngx_strncmp_env _ (wasm_name_env_take _ henv)) hj
      · exact ih ⟨i, hmem, henv, hkind⟩
    · rw [if_neg hj]
      by_cases hk : j.kind ≠ wasm_externkind_t.WASM_EXTERN_FUNC
      · rw [if_pos hk]
      · rw [if_neg hk]
        rcases List.mem_cons.mp hi with heq | hmem
        · subst heq; exact absurd hkind hk
        · exact ih ⟨i, hmem, henv, hkind⟩

theorem ngx_wavm_module_load_from_path_cases (wrt : ngx_wrt_t) (vm : ngx_wavm_t)
    (module : ngx_wavm_module_t) (hready : ngx_wavm_ready vm ≠ 0)
    (hpath : module.path.len ≠ 0) :
    ngx_wavm_module_load_from_path wrt vm module = Except.error NGX_ERROR ∨
    (ngx_wavm_module_loaded module ≠ 0 ∧
      ngx_wavm_module_load_from_path wrt vm module = Except.ok module) ∨
    (∃ bytes wm, wrt.ngx_wrt_module_new bytes = some wm ∧
      ngx_wavm_module_load_from_path wrt vm module =
        Except.ok { module with module := some wm,
                                state := module.state ||| NGX_WAVM_MODULE_LOADED }) := by
  unfold ngx_wavm_module_load_from_path
  by_cases hl : ngx_wavm_module_loaded module ≠ 0
  · rw [if_pos hl]
    exact Or.inr (Or.inl ⟨hl, rfl⟩)
  · rw [if_neg hl, if_neg hready, if_neg hpath]
    cases hb : wrt.ngx_wasm_bytes_from_path module.path.data with
    | none => exact Or.inl rfl
    | some file_bytes =>
      simp only
      cases hw : (if ngx_wavm_module_is_wat module ≠ 0 then wrt.ngx_wrt_wat2wasm file_bytes
          else some file_bytes) with
      | none => exact Or.inl rfl
      | some bytes =>
        simp only
        cases hm : wrt.ngx_wrt_module_new bytes with
        | none => exact Or.inl rfl
        | some wm => exact Or.inr (Or.inr ⟨bytes, wm, hm, rfl⟩)

/-- C18, import validation. For every module whose import list, as the
engine reports it, holds an import of namespace `env` that is not of function
kind, `ngx_wavm_module_load` returns `NGX_ERROR` and leaves the module
without `NGX_WAVM_MODULE_READY`, so that `ngx_wavm_module_func_lookup`
returns NULL for every name; the module it leaves is again such a module, so
that no later load sets the flag. The call is one that `ngx_wavm_init` makes:
the runtime is initialised and the path is not empty. -/
theorem C18_load_rejects_env_non_function (wrt : ngx_wrt_t) (pool : ngx_pool_t)
    (vm : ngx_wavm_t) (module : ngx_wavm_module_t)
    (hready : ngx_wavm_ready vm ≠ 0) (hpath : module.path.len ≠ 0)
    (hnr : ngx_wavm_module_ready module = 0)
    (hwf : ngx_wavm_module_loaded module ≠ 0 → module.module ≠ none)
    (hcur : ∀ wm, module.module = some wm → wasm_imports_env_non_func wm.imports)
    (heng : ∀ bytes wm, wrt.ngx_wrt_module_new bytes = some wm →
      wasm_imports_env_non_func wm.imports) :
    (ngx_wavm_module_load wrt pool vm module).1 = NGX_ERROR ∧
    ngx_wavm_module_ready (ngx_wavm_module_load wrt pool vm module).2 = 0 ∧
    (∀ name, ngx_wavm_module_func_lookup (ngx_wavm_module_load wrt pool vm module).2 name
      = none) ∧
    (ngx_wavm_module_load wrt pool vm module).2.path = module.path ∧
    (ngx_wavm_module_loaded (ngx_wavm_module_load wrt pool vm module).2 ≠ 0 →
      (ngx_wavm_module_load wrt pool vm module).2.module ≠ none) ∧
    (∀ wm, (ngx_wavm_module_load wrt pool vm module).2.module = some wm →
      wasm_imports_env_non_func wm.imports) := by
  have key : (ngx_wavm_module_load wrt pool vm module).1 = NGX_ERROR ∧
      ngx_wavm_module_ready (ngx_wavm_module_load wrt pool vm module).2 = 0 ∧
      (ngx_wavm_module_load wrt pool vm module).2.path = module.path ∧
      (ngx_wavm_module_loaded (ngx_wavm_module_load wrt pool vm module).2 ≠ 0 →
        (ngx_wavm_module_load wrt pool vm module).2.module ≠ none) ∧
      (∀ wm, (ngx_wavm_module_load wrt pool vm module).2.module = some wm →
        wasm_imports_env_non_func wm.imports) := by
    unfold ngx_wavm_module_load
    rcases ngx_wavm_module_load_from_path_cases wrt vm module hready hpath with
      he | ⟨hl, he⟩ | ⟨bytes, wm, hm, he⟩
    · rw [he]
      exact ⟨rfl, hnr, rfl, hwf, hcur⟩
    · rw [he]
      cases hmod : module.module with
      | none => exact absurd hmod (hwf hl)
      | some wm =>
        have hbad := ngx_wavm_module_load_imports_bad _ (hcur wm hmod)
        simp only [hmod, wasm_module_imports, hbad, Bool.false_eq_true, if_false]
        refine ⟨trivial, hnr, trivial, fun _ => by simp, ?_⟩
        intro wm2 h2
        simp only [Option.some.injEq] at h2
        subst h2
        exact hcur _ hmod
    · rw [he]
      have hbad := ngx_wavm_module_load_imports_bad _ (heng bytes wm hm)
      simp only [wasm_module_imports, hbad, Bool.false_eq_true, if_false]
      refine ⟨trivial, ?_, trivial, fun _ => by simp, ?_⟩
      · simp only [ngx_wavm_module_ready] at hnr ⊢
        rw [ngx_wavm_module_ready_or_loaded]
        exact hnr
      · intro wm2 h2
        simp only [Option.some.injEq] at h2
        subst h2
        exact heng bytes _ hm
  obtain ⟨k1, k2, k3, k4, k5⟩ := key
  refine ⟨k1, k2, ?_, k3, k4, k5⟩
  intro name
  simp [ngx_wavm_module_func_lookup, k2]

/-- Witness of C18: a module freshly added whose file compiles to a module
that imports the global `env.g`. -/
theorem C18_load_rejects_env_non_function_witness :
    (ngx_wavm_ready example_vm ≠ 0 ∧
      (ngx_wavm_module_added 0 (ngx_string [109])
        (ngx_string [109, 46, 119, 97, 115, 109])).path.len ≠ 0 ∧
      ngx_wavm_module_ready (ngx_wavm_module_added 0 (ngx_string [109])
        (ngx_string [109, 46, 119, 97, 115, 109])) = 0) ∧
    (ngx_wavm_module_load (example_wrt example_wasm_env_global) ngx_pool_ok example_vm
        (ngx_wavm_module_added 0 (ngx_string [109])
          (ngx_string [109, 46, 119, 97, 115, 109]))).1 = NGX_ERROR ∧
    ngx_wavm_module_ready (ngx_wavm_module_load (example_wrt example_wasm_env_global)
        ngx_pool_ok example_vm
        (ngx_wavm_module_added 0 (ngx_string [109])
          (ngx_string [109, 46, 119, 97, 115, 109]))).2 = 0 :=
  ⟨⟨by decide, by decide, by decide⟩,
    (C18_load_rejects_env_non_function (example_wrt example_wasm_env_global) ngx_pool_ok
      example_vm
      (ngx_wavm_module_added 0 (ngx_string [109]) (ngx_string [109, 46, 119, 97, 115, 109]))
      (by decide) (by decide) (by decide) (by decide)
      (by intro wm h; simp [ngx_wavm_module_added] at h)
      (by
        intro bytes wm h
        simp only [example_wrt, Option.some.injEq] at h
        subst h
        decide)).1,
    (C18_load_rejects_env_non_function (example_wrt example_wasm_env_global) ngx_pool_ok
      example_vm
      (ngx_wavm_module_added 0 (ngx_string [109]) (ngx_string [109, 46, 119, 97, 115, 109]))
      (by decide) (by decide) (by decide) (by decide)
      (by intro wm h; simp [ngx_wavm_module_added] at h)
      (by
        intro bytes wm h
        simp only [example_wrt, Option.some.injEq] at h
        subst h
        decide)).2.1⟩


/-- C19, imports outside `env`: evaluation at a failing input. A module
whose only import is the global `envoy.g` fails to load with `NGX_ERROR`,
whereas the same module without that import loads with `NGX_OK`; and a
module whose only import is the function `envoy.f` gets it bound by
`ngx_wavm_module_link` to the host function `f`, whereas without that import
nothing is bound. The namespace `envoy` is not `env`: the two loops compare
its first 3 bytes only. -/
theorem C19_env_prefix_diverges :
    wasm_name_bytes (wasm_name [101, 110, 118, 111, 121]) ≠ str_env ∧
    (ngx_wavm_module_load (example_wrt example_wasm_envoy_global) ngx_pool_ok example_vm
      example_module_added).1 = NGX_ERROR ∧
    (ngx_wavm_module_load (example_wrt example_wasm_no_import) ngx_pool_ok example_vm
      example_module_added).1 = NGX_OK ∧
    (ngx_wavm_module_link ngx_pool_ok example_vm
        (example_module_importing
          [{ module := wasm_name [101, 110, 118, 111, 121], name := wasm_name [102],
             kind := wasm_externkind_t.WASM_EXTERN_FUNC }])
        (some example_host)).map (fun r => r.ret.map (fun lm => lm.hfuncs_imports)) =
      some (some [{ host := [104], name := [102] }]) ∧
    (ngx_wavm_module_link ngx_pool_ok example_vm (example_module_importing [])
        (some example_host)).map (fun r => r.ret.map (fun lm => lm.hfuncs_imports)) =
      some (some []) := by
  decide

/-- C20, atomic initialization failure: evaluation at a failing input. On a
fresh runtime with one registered module whose file cannot be read,
`ngx_wavm_init` creates the engine and the store, sets `NGX_WAVM_INIT`, fails
to load the module and returns `NGX_ERROR` after `ngx_wavm_shutdown`: engine
and store are NULL and the registry is empty, but `NGX_WAVM_INIT` is still
set, so that `ngx_wavm_initialized(vm)` is not 0 and `ngx_wavm_ready(vm)`
is 1. Likewise `ngx_wavm_shutdown` of a runtime whose state is
`NGX_WAVM_INIT | NGX_WAVM_LOADED` leaves `NGX_WAVM_INIT` set: the function
clears the bits `1 << NGX_WAVM_LOADED` and `1 << NGX_WAVM_INIT`, which are 4
and 2, and not the flags, which are 2 and 1. -/
theorem C20_init_failure_keeps_init_flag :
    ngx_wavm_init example_wrt_no_file (fun _ => ngx_pool_ok) example_vm_one_module =
      (NGX_ERROR, { state := NGX_WAVM_INIT, lmodules_max := 0, modules_tree := [],
                    core_host := none, engine := none, store := none }) ∧
    ngx_wavm_initialized (ngx_wavm_init example_wrt_no_file (fun _ => ngx_pool_ok)
      example_vm_one_module).2 = 1 ∧
    ngx_wavm_ready (ngx_wavm_init example_wrt_no_file (fun _ => ngx_pool_ok)
      example_vm_one_module).2 = 1 ∧
    (ngx_wavm_shutdown { example_vm with state := NGX_WAVM_INIT ||| NGX_WAVM_LOADED }).state =
      NGX_WAVM_INIT ∧
    1 <<< NGX_WAVM_LOADED = 4 ∧ 1 <<< NGX_WAVM_INIT = 2 ∧
    NGX_WAVM_LOADED = 2 ∧ NGX_WAVM_INIT = 1 := by
  decide

/-! ## Buffer size, assertions and suffix test -/

theorem marshal_lens_loops_n (c : Nat) (ex es : List ngx_table_elt_t) (buf : List Nat) :
    (marshal_lens_list_loop c es (marshal_lens_extras_loop c ex buf 0).1
      (marshal_lens_extras_loop c ex buf 0).2).2 =
      min c (ex.length + (es.filter (fun e => decide (e.hash ≠ 0))).length) := by
  simp only [marshal_lens_list_loop_eq, marshal_lens_extras_loop_eq]
  omega

theorem marshal_data_loops_n (c : Nat) (ex es : List ngx_table_elt_t) (buf : List Nat) :
    (marshal_data_list_loop c es (marshal_data_extras_loop c ex buf 0).1
      (marshal_data_extras_loop c ex buf 0).2).2 =
      min c (ex.length + (es.filter (fun e => decide (e.hash ≠ 0))).length) := by
  simp only [marshal_data_list_loop_eq, marshal_data_extras_loop_eq]
  omega

theorem marshal_result_n (list : ngx_list_t) (extras : Option (List ngx_table_elt_t))
    (max : Nat) (truncated : Option Nat) :
    (ngx_proxy_wasm_pairs_marshal list extras max truncated).n_lens =
      min (ngx_proxy_wasm_pairs_marshal list extras max truncated).count
        (pairs_precedence list extras).length ∧
    (ngx_proxy_wasm_pairs_marshal list extras max truncated).n_data =
      min (ngx_proxy_wasm_pairs_marshal list extras max truncated).count
        (pairs_precedence list extras).length := by
  cases extras with
  | none =>
    simp only [ngx_proxy_wasm_pairs_marshal, marshal_lens_list_loop_eq,
      marshal_data_list_loop_eq, pairs_precedence, pairs_live, Option.getD_none,
      List.nil_append, Nat.sub_zero, Nat.zero_add, and_self]
  | some ex =>
    simp only [ngx_proxy_wasm_pairs_marshal, marshal_lens_loops_n, marshal_data_loops_n,
      pairs_precedence, pairs_live, Option.getD_some, List.length_append, and_self]

/-- C27, buffer sufficiency: evaluation at a failing input. For the list of
two short pairs, two extras with keys and values of 8 bytes and `max = 2`,
`ngx_proxy_wasm_pairs_size` returns 54 (the header, the two list pairs and
the first extra) while `ngx_proxy_wasm_pairs_marshal` writes 56 bytes (the
header and the two extras): a buffer of the size returned is overrun by 2
bytes. -/
theorem C27_marshal_overruns_size :
    ngx_proxy_wasm_pairs_size example_short_list (some example_long_extras) 2 = 54 ∧
    (ngx_proxy_wasm_pairs_marshal example_short_list (some example_long_extras) 2 none).count
      = 2 ∧
    (ngx_proxy_wasm_pairs_marshal example_short_list (some example_long_extras) 2
      none).buf.length = 56 := by
  decide

/-- C28, validity of the two assertions of `ngx_proxy_wasm_pairs_marshal`.
For every list, every extras (NULL or not), every `max` and every
`truncated`, the value of `n` at the first `ngx_wasm_assert(n == count)`
(after the length-table pass) and at the second one (after the payload pass)
is the header value `count`. When the number of extras plus
`ngx_proxy_wasm_pairs_count(list)` fits the `uint32_t` header, `count` is
that total for `max = 0` and the minimum of the total and `max` otherwise. -/
theorem C28_marshal_assertions_hold (list : ngx_list_t)
    (extras : Option (List ngx_table_elt_t)) (max : Nat) (truncated : Option Nat) :
    (ngx_proxy_wasm_pairs_marshal list extras max truncated).n_lens =
      (ngx_proxy_wasm_pairs_marshal list extras max truncated).count ∧
    (ngx_proxy_wasm_pairs_marshal list extras max truncated).n_data =
      (ngx_proxy_wasm_pairs_marshal list extras max truncated).count ∧
    ((extras.getD []).length + ngx_proxy_wasm_pairs_count list < 2 ^ 32 →
      (ngx_proxy_wasm_pairs_marshal list extras max truncated).count =
        if max = 0 then (extras.getD []).length + ngx_proxy_wasm_pairs_count list
        else min ((extras.getD []).length + ngx_proxy_wasm_pairs_count list) max) := by
  obtain ⟨h1, h2⟩ := marshal_result_n list extras max truncated
  have hle := marshal_result_count_le list extras max truncated
  refine ⟨by omega, by omega, ?_⟩
  intro hfit
  rw [ngx_proxy_wasm_pairs_count_eq, ← pairs_precedence_length] at hfit ⊢
  rw [marshal_result_count, marshal_count_eq_of_lt list extras hfit]
  by_cases hm : max = 0
  · simp [hm]
  · by_cases hgt : (pairs_precedence list extras).length > max
    · rw [if_pos ⟨hm, hgt⟩, if_neg hm]; omega
    · rw [if_neg (fun h => hgt h.2), if_neg hm]; omega

/-- Witness of C28: the list of ten pairs with two extras and `max = 5`, where
both passes stop at 5 pairs, and the same without cap, where they process the
12 pairs. -/
theorem C28_marshal_assertions_hold_witness :
    ((ngx_proxy_wasm_pairs_marshal example_ten (some example_long_extras) 5 none).n_lens = 5 ∧
      (ngx_proxy_wasm_pairs_marshal example_ten (some example_long_extras) 5 none).n_data = 5 ∧
      (ngx_proxy_wasm_pairs_marshal example_ten (some example_long_extras) 0 none).n_lens = 12 ∧
      (ngx_proxy_wasm_pairs_marshal example_ten (some example_long_extras) 0 none).n_data
        = 12) ∧
    (ngx_proxy_wasm_pairs_marshal example_ten (some example_long_extras) 5 none).n_lens =
      (ngx_proxy_wasm_pairs_marshal example_ten (some example_long_extras) 5 none).count ∧
    (ngx_proxy_wasm_pairs_marshal example_ten (some example_long_extras) 5 none).n_data =
      (ngx_proxy_wasm_pairs_marshal example_ten (some example_long_extras) 5 none).count ∧
    (ngx_proxy_wasm_pairs_marshal example_ten (some example_long_extras) 5 none).count =
      if 5 = 0 then ((some example_long_extras).getD []).length +
          ngx_proxy_wasm_pairs_count example_ten
      else min (((some example_long_extras).getD []).length +
          ngx_proxy_wasm_pairs_count example_ten) 5 :=
  ⟨by decide,
    (C28_marshal_assertions_hold example_ten (some example_long_extras) 5 none).1,
    (C28_marshal_assertions_hold example_ten (some example_long_extras) 5 none).2.1,
    (C28_marshal_assertions_hold example_ten (some example_long_extras) 5 none).2.2
      (by decide)⟩

theorem ngx_strncmp_wat (a b c d : Nat) (rest : List Nat) :
    ngx_strncmp (a :: b :: c :: d :: rest) str_wat 4 = 0 ↔ [a, b, c, d] = str_wat := by
  simp only [ngx_strncmp, str_wat, List.headD_cons, List.tail_cons, List.cons.injEq, and_true]
  by_cases ha : a = 46
  · subst ha
    by_cases hb : b = 119
    · subst hb
      by_cases hc : c = 97
      · subst hc
        by_cases hd : d = 116
        · subst hd; simp
        · simp [hd]; omega
      · simp [hc]; omega
    · simp [hb]; omega
  · simp [ha]; omega

theorem list_last_four (l : List Nat) (h : 4 ≤ l.length) :
    ∃ a b c d, l.drop (l.length - 4) = [a, b, c, d] := by
  have hl : (l.drop (l.length - 4)).length = 4 := by simp; omega
  match hm : l.drop (l.length - 4), hl with
  | [a, b, c, d], _ => exact ⟨a, b, c, d, rfl⟩

theorem ngx_wavm_module_add_wat (pool : ngx_pool_t) (hpool : ∀ k, pool k = true)
    (before : List Nat) (vm : ngx_wavm_t) (name path : ngx_str_t)
    (hlook : ngx_wavm_module_lookup vm name = none) (hvalid : ngx_str_valid path)
    (hlen : 4 ≤ path.len) :
    ngx_wavm_module_add pool before vm name path =
      some (NGX_OK, { vm with modules_tree := vm.modules_tree ++
        [ngx_wavm_module_added
          (if (ngx_str_bytes path).drop (path.len - 4) = str_wat then NGX_WAVM_MODULE_ISWAT
           else 0) name path] }) := by
  unfold ngx_str_valid at hvalid
  have hbl : (ngx_str_bytes path).length = path.len := by
    simp only [ngx_str_bytes, List.length_take]
    omega
  obtain ⟨a, b, c, d, hx⟩ := list_last_four (ngx_str_bytes path) (by omega)
  rw [hbl] at hx
  have hdrop : (before ++ (path.data.take path.len ++ [0])).drop
      (before.length + path.len - 4) = a :: b :: c :: d :: [0] := by
    have e : before.length + path.len - 4 = before.length + (path.len - 4) := by omega
    rw [e, List.drop_append,
      List.drop_append_of_le_length (by simp only [List.length_take]; omega)]
    have hx2 : (path.data.take path.len).drop (path.len - 4) = [a, b, c, d] := hx
    rw [hx2]
    rfl
  unfold ngx_wavm_module_add
  simp only [hlook, hpool, if_true]
  rw [if_neg (by omega), hdrop, hx]
  by_cases hw : [a, b, c, d] = str_wat
  · rw [if_pos ((ngx_strncmp_wat a b c d [0]).mpr hw), if_pos hw]
    rfl
  · rw [if_neg (fun h => hw ((ngx_strncmp_wat a b c d [0]).mp h)), if_neg hw]
    rfl

/-- C29, detection of the `.wat` suffix: evaluation at a failing input.
`ngx_wavm_module_add` reads `&module->path.data[module->path.len - 4]`
without testing `path.len >= 4`. For the path `t` of one byte the three
bytes before the start of the path are read: when they are `.wa` the module
is flagged `NGX_WAVM_MODULE_ISWAT` although the path does not end in `.wat`,
when they are zero it is not, and when no memory is readable there the call
faults. For every valid path of 4 bytes or more, a name that is not
registered and allocations that succeed, the module is registered with the
flag set if and only if the last four bytes of the path are `.wat`, whatever
the memory before the path holds. -/
theorem C29_wat_check_reads_before_path :
    ngx_str_bytes (ngx_string [116]) = [116] ∧
    (ngx_wavm_module_add ngx_pool_ok [46, 119, 97] example_vm_created (ngx_string [109])
      (ngx_string [116])).map (fun r => (r.1, r.2.modules_tree.map ngx_wavm_module_is_wat)) =
      some (NGX_OK, [1]) ∧
    (ngx_wavm_module_add ngx_pool_ok [0, 0, 0] example_vm_created (ngx_string [109])
      (ngx_string [116])).map (fun r => (r.1, r.2.modules_tree.map ngx_wavm_module_is_wat)) =
      some (NGX_OK, [0]) ∧
    ngx_wavm_module_add ngx_pool_ok [] example_vm_created (ngx_string [109])
      (ngx_string [116]) = none ∧
    (∀ (pool : ngx_pool_t) (before : List Nat) (vm : ngx_wavm_t) (name path : ngx_str_t),
      (∀ k, pool k = true) → ngx_wavm_module_lookup vm name = none → ngx_str_valid path →
      4 ≤ path.len →
      ngx_wavm_module_add pool before vm name path =
        some (NGX_OK, { vm with modules_tree := vm.modules_tree ++
          [ngx_wavm_module_added
            (if (ngx_str_bytes path).drop (path.len - 4) = str_wat then NGX_WAVM_MODULE_ISWAT
             else 0) name path] })) := by
  refine ⟨by decide, by decide, by decide, by decide, ?_⟩
  intro pool before vm name path hpool hlook hvalid hlen
  exact ngx_wavm_module_add_wat pool hpool before vm name path hlook hvalid hlen

/-! ## Lemmas on the exports of a module -/

theorem wasm_exports_last_memory_none (exps : List wasm_exporttype_t) :
    wasm_exports_last_memory exps = none ↔
      ∀ e ∈ exps, e.kind ≠ wasm_externkind_t.WASM_EXTERN_MEMORY := by
  induction exps with
  | nil => simp [wasm_exports_last_memory]
  | cons e rest ih =>
    unfold wasm_exports_last_memory
    cases h : wasm_exports_last_memory rest with
    | some j =>
      constructor
      · intro hc
        simp at hc
      · intro hall
        have : wasm_exports_last_memory rest = none :=
          ih.mpr (fun x hx => hall x (List.mem_cons_of_mem _ hx))
        rw [h] at this
        simp at this
    | none =>
      have hr := ih.mp h
      by_cases hk : e.kind = wasm_externkind_t.WASM_EXTERN_MEMORY
      · simp [hk]
      · simp only [hk, if_false, true_iff]
        intro x hx
        rcases List.mem_cons.mp hx with heq | hmem
        · rw [heq]; exact hk
        · exact hr x hmem

theorem wasm_exports_last_memory_some (exps : List wasm_exporttype_t) :
    ∀ j, wasm_exports_last_memory exps = some j →
      (exps[j]?.map (fun e => e.kind) = some wasm_externkind_t.WASM_EXTERN_MEMORY) ∧
      ∀ k, j < k → exps[k]?.map (fun e => e.kind) ≠ some wasm_externkind_t.WASM_EXTERN_MEMORY := by
  induction exps with
  | nil => intro j h; simp [wasm_exports_last_memory] at h
  | cons e rest ih =>
    intro j h
    unfold wasm_exports_last_memory at h
    cases hr : wasm_exports_last_memory rest with
    | some i =>
      simp only [hr, Option.some.injEq] at h
      subst h
      obtain ⟨h1, h2⟩ := ih i hr
      refine ⟨by simpa using h1, ?_⟩
      intro k hk
      obtain ⟨k1, rfl⟩ : ∃ k1, k = k1 + 1 := ⟨k - 1, by omega⟩
      simpa using h2 k1 (by omega)
    | none =>
      simp only [hr] at h
      by_cases hk : e.kind = wasm_externkind_t.WASM_EXTERN_MEMORY
      · simp only [hk, if_true, Option.some.injEq] at h
        subst h
        refine ⟨by simp [hk], ?_⟩
        intro k hk0
        obtain ⟨k1, rfl⟩ : ∃ k1, k = k1 + 1 := ⟨k - 1, by omega⟩
        have hall := (wasm_exports_last_memory_none rest).mp hr
        simp only [List.getElem?_cons_succ]
        intro hc
        cases hg : rest[k1]? with
        | none => simp [hg] at hc
        | some x =>
          simp only [hg, Option.map_some', Option.some.injEq] at hc
          exact hall x (List.getElem?_mem hg) hc
      · simp [hk] at h

theorem ngx_wavm_module_load_exports_memory_idx (pool : ngx_pool_t)
    (exps : List wasm_exporttype_t) :
    ∀ (i a : Nat) (module : ngx_wavm_module_t),
      (ngx_wavm_module_load_exports pool exps i a module).1 = true →
      (ngx_wavm_module_load_exports pool exps i a module).2.memory_idx =
        match wasm_exports_last_memory exps with
        | none => module.memory_idx
        | some j => ((i + j : Nat) : Int) := by
  induction exps with
  | nil => intro i a module _; simp [ngx_wavm_module_load_exports, wasm_exports_last_memory]
  | cons e rest ih =>
    intro i a module h
    unfold ngx_wavm_module_load_exports at h ⊢
    unfold wasm_exports_last_memory
    cases hk : e.kind with
    | WASM_EXTERN_FUNC =>
      simp only [hk] at h ⊢
      by_cases hp : pool a = true
      · simp only [hp, if_true] at h ⊢
        rw [ih _ _ _ h]
        cases wasm_exports_last_memory rest with
        | none => simp
        | some j => simp only; congr 1; omega
      · simp [hp] at h
    | WASM_EXTERN_MEMORY =>
      simp only [hk] at h ⊢
      rw [ih _ _ _ h]
      cases wasm_exports_last_memory rest with
      | none => simp
      | some j => simp only; congr 1; omega
    | WASM_EXTERN_GLOBAL =>
      simp only [hk] at h ⊢
      rw [ih _ _ _ h]
      cases wasm_exports_last_memory rest with
      | none => simp
      | some j => simp only; congr 1; omega
    | WASM_EXTERN_TABLE =>
      simp only [hk] at h ⊢
      rw [ih _ _ _ h]
      cases wasm_exports_last_memory rest with
      | none => simp
      | some j => simp only; congr 1; omega

theorem ngx_wavm_module_load_exports_no_memory (pool : ngx_pool_t)
    (exps : List wasm_exporttype_t)
    (hall : ∀ e ∈ exps, e.kind ≠ wasm_externkind_t.WASM_EXTERN_MEMORY) :
    ∀ (i a : Nat) (module : ngx_wavm_module_t),
      (ngx_wavm_module_load_exports pool exps i a module).2.memory_idx = module.memory_idx := by
  induction exps with
  | nil => intro i a module; simp [ngx_wavm_module_load_exports]
  | cons e rest ih =>
    intro i a module
    have hrest : ∀ x ∈ rest, x.kind ≠ wasm_externkind_t.WASM_EXTERN_MEMORY :=
      fun x hx => hall x (List.mem_cons_of_mem _ hx)
    have he := hall e (List.mem_cons_self _ _)
    unfold ngx_wavm_module_load_exports
    cases hk : e.kind with
    | WASM_EXTERN_FUNC =>
      simp only
      by_cases hp : pool a = true
      · simp only [hp, if_true]
        rw [ih hrest]
      · simp [hp]
    | WASM_EXTERN_MEMORY => exact absurd hk he
    | WASM_EXTERN_GLOBAL => simp only; rw [ih hrest]
    | WASM_EXTERN_TABLE => simp only; rw [ih hrest]

theorem ngx_wavm_module_load_exports_exports (pool : ngx_pool_t)
    (exps : List wasm_exporttype_t) :
    ∀ (i a : Nat) (module : ngx_wavm_module_t),
      (ngx_wavm_module_load_exports pool exps i a module).2.exports = module.exports := by
  induction exps with
  | nil => intro i a module; simp [ngx_wavm_module_load_exports]
  | cons e rest ih =>
    intro i a module
    unfold ngx_wavm_module_load_exports
    cases hk : e.kind with
    | WASM_EXTERN_FUNC =>
      simp only
      by_cases hp : pool a = true
      · simp only [hp, if_true]
        rw [ih]
      · simp [hp]
    | WASM_EXTERN_MEMORY => simp only; rw [ih]
    | WASM_EXTERN_GLOBAL => simp only; rw [ih]
    | WASM_EXTERN_TABLE => simp only; rw [ih]

theorem ngx_wavm_module_load_from_path_ok (wrt : ngx_wrt_t) (vm : ngx_wavm_t)
    (module m1 : ngx_wavm_module_t)
    (h : ngx_wavm_module_load_from_path wrt vm module = Except.ok m1) :
    m1.memory_idx = module.memory_idx := by
  unfold ngx_wavm_module_load_from_path at h
  split at h
  · simp only [Except.ok.injEq] at h; rw [← h]
  · split at h
    · simp at h
    · split at h
      · simp at h
      · split at h
        · simp at h
        · split at h
          · simp at h
          · split at h
            · simp at h
            · simp only [Except.ok.injEq] at h; rw [← h]

theorem ngx_wavm_module_load_from_path_error (wrt : ngx_wrt_t) (vm : ngx_wavm_t)
    (module : ngx_wavm_module_t) (rc : Int)
    (h : ngx_wavm_module_load_from_path wrt vm module = Except.error rc) :
    rc ≠ NGX_OK := by
  unfold ngx_wavm_module_load_from_path at h
  split at h
  · simp at h
  · split at h
    · simp only [Except.error.injEq] at h; rw [← h]; decide
    · split at h
      · simp only [Except.error.injEq] at h; rw [← h]; decide
      · split at h
        · simp only [Except.error.injEq] at h; rw [← h]; decide
        · split at h
          · simp only [Except.error.injEq] at h; rw [← h]; decide
          · split at h
            · simp only [Except.error.injEq] at h; rw [← h]; decide
            · simp at h

/-- C26, memory export index. A module registered by `ngx_wavm_module_add`
has `memory_idx = -1`. For a module of `memory_idx = -1`, after a call of
`ngx_wavm_module_load` that returns `NGX_OK` the field `memory_idx` is -1
when the export list holds no memory, and otherwise the position in the
export list of the last export of memory kind: that export is a memory and
no export after it is one. The loop over the exports leaves `memory_idx` as
it is when the list holds no memory, whatever its function exports and
whether or not it ends through an allocation failure, and a load that fails
before the module is compiled leaves the module as it is. -/
theorem C26_memory_export_index (wrt : ngx_wrt_t) (pool : ngx_pool_t) (vm : ngx_wavm_t)
    (module : ngx_wavm_module_t) (hidx : module.memory_idx = -1)
    (hok : (ngx_wavm_module_load wrt pool vm module).1 = NGX_OK) :
    (∀ (p : ngx_pool_t) (before : List Nat) (vm0 vm1 : ngx_wavm_t) (name path : ngx_str_t),
      ngx_wavm_module_add p before vm0 name path = some (NGX_OK, vm1) →
      ∃ state, vm1.modules_tree = vm0.modules_tree ++ [ngx_wavm_module_added state name path] ∧
        (ngx_wavm_module_added state name path).memory_idx = -1) ∧
    (ngx_wavm_module_load wrt pool vm module).2.memory_idx =
      (match wasm_exports_last_memory (ngx_wavm_module_load wrt pool vm module).2.exports with
       | none => -1
       | some j => (j : Int)) ∧
    (wasm_exports_last_memory (ngx_wavm_module_load wrt pool vm module).2.exports = none ↔
      ∀ e ∈ (ngx_wavm_module_load wrt pool vm module).2.exports,
        e.kind ≠ wasm_externkind_t.WASM_EXTERN_MEMORY) ∧
    (∀ j, wasm_exports_last_memory (ngx_wavm_module_load wrt pool vm module).2.exports = some j →
      ((ngx_wavm_module_load wrt pool vm module).2.exports[j]?.map (fun e => e.kind) =
          some wasm_externkind_t.WASM_EXTERN_MEMORY) ∧
        ∀ k, j < k →
          (ngx_wavm_module_load wrt pool vm module).2.exports[k]?.map (fun e => e.kind) ≠
            some wasm_externkind_t.WASM_EXTERN_MEMORY) ∧
    (∀ (p : ngx_pool_t) (exps : List wasm_exporttype_t) (i a : Nat) (m : ngx_wavm_module_t),
      (∀ e ∈ exps, e.kind ≠ wasm_externkind_t.WASM_EXTERN_MEMORY) →
      (ngx_wavm_module_load_exports p exps i a m).2.memory_idx = m.memory_idx) ∧
    (∀ (w : ngx_wrt_t) (p : ngx_pool_t) (vm2 : ngx_wavm_t) (m : ngx_wavm_module_t) (rc : Int),
      ngx_wavm_module_load_from_path w vm2 m = Except.error rc →
      ngx_wavm_module_load w p vm2 m = (rc, m)) := by
  refine ⟨?_, ?_, wasm_exports_last_memory_none _, wasm_exports_last_memory_some _, ?_, ?_⟩
  · intro p before vm0 vm1 name path h
    obtain ⟨_, state, hs⟩ := ngx_wavm_module_add_ok p before vm0 name path vm1 h
    exact ⟨state, by rw [hs], rfl⟩
  · unfold ngx_wavm_module_load at hok ⊢
    cases hf : ngx_wavm_module_load_from_path wrt vm module with
    | error rc =>
      simp only [hf] at hok
      exact absurd hok (ngx_wavm_module_load_from_path_error wrt vm module rc hf)
    | ok m1 =>
      have hm1 := ngx_wavm_module_load_from_path_ok wrt vm module m1 hf
      simp only [hf] at hok ⊢
      by_cases hi : ngx_wavm_module_load_imports (wasm_module_imports m1.module) = true
      · simp only [hi, if_true] at hok ⊢
        by_cases he : (ngx_wavm_module_load_exports pool (wasm_module_exports m1.module) 0 0
            { m1 with imports := wasm_module_imports m1.module,
                      exports := wasm_module_exports m1.module, funcs_tree := [] }).1 = true
        · simp only [he, if_true] at hok ⊢
          rw [ngx_wavm_module_load_exports_exports,
            ngx_wavm_module_load_exports_memory_idx _ _ _ _ _ he]
          simp only [hm1, hidx, Nat.zero_add]
        · simp only [he, Bool.false_eq_true, if_false] at hok
          exact absurd hok (by decide)
      · simp only [hi, Bool.false_eq_true, if_false] at hok
        exact absurd hok (by decide)
  · intro p exps i a m hall
    exact ngx_wavm_module_load_exports_no_memory p exps hall i a m
  · intro w p vm2 m rc h
    simp only [ngx_wavm_module_load, h]

/-- Witness of C26: the module `m` as `ngx_wavm_module_add` leaves it, loaded
from a file that exports two memories at the positions 1 and 3: `memory_idx`
ends as 3. -/
theorem C26_memory_export_index_witness :
    (example_module_added.memory_idx = -1 ∧
      (ngx_wavm_module_load (example_wrt example_wasm_two_memories) ngx_pool_ok example_vm
        example_module_added).1 = NGX_OK ∧
      (ngx_wavm_module_load (example_wrt example_wasm_two_memories) ngx_pool_ok example_vm
        example_module_added).2.memory_idx = 3) ∧
    (ngx_wavm_module_load (example_wrt example_wasm_two_memories) ngx_pool_ok example_vm
        example_module_added).2.memory_idx =
      (match wasm_exports_last_memory (ngx_wavm_module_load
          (example_wrt example_wasm_two_memories) ngx_pool_ok example_vm
          example_module_added).2.exports with
       | none => -1
       | some j => (j : Int)) :=
  ⟨by decide,
    (C26_memory_export_index (example_wrt example_wasm_two_memories) ngx_pool_ok example_vm
      example_module_added (by decide) (by decide)).2.1⟩

/-- C24, single outstanding timer. In every firing of
`ngx_proxy_wasm_filter_tick_handler` the handler calls
`ngx_proxy_wasm_resume` at most once and `fctx->ev` is NULL at that call.
When shutdown is not in progress before the callback, the filter implements
the timer callback, a root instance exists, the callback returns `NGX_OK`,
shutdown is not in progress after it and the allocation of the event
succeeds, the handler calls `ngx_add_timer` exactly once, with the period
`filter->tick_period` as it is after the callback and with an event whose
handler is `ngx_proxy_wasm_filter_tick_handler`, whose data is the same
`fctx` and whose log is the one of the event fired, and `fctx->ev` is that
event. In every other case the handler calls `ngx_add_timer` not once and
leaves `fctx->ev` NULL. -/
theorem C24_tick_single_timer {W : Type} (env : tick_env W) (ev : ngx_event_t)
    (s : tick_state W) :
    (∃ l, (ngx_proxy_wasm_filter_tick_handler env ev s).resumed = s.resumed ++ l ∧
      l.length ≤ 1 ∧ ∀ x ∈ l, x = none) ∧
    (tick_rearms env s →
      (ngx_proxy_wasm_filter_tick_handler env ev s).timers =
        s.timers ++
          [({ handler := ngx_event_handler_pt.ngx_proxy_wasm_filter_tick_handler,
              data := ev.data, log := ev.log },
            (env.filter (ngx_proxy_wasm_filter_tick_handler env ev s).world).tick_period)] ∧
      (ngx_proxy_wasm_filter_tick_handler env ev s).ev =
        some { handler := ngx_event_handler_pt.ngx_proxy_wasm_filter_tick_handler,
               data := ev.data, log := ev.log }) ∧
    (¬ tick_rearms env s →
      (ngx_proxy_wasm_filter_tick_handler env ev s).timers = s.timers ∧
      (ngx_proxy_wasm_filter_tick_handler env ev s).ev = none) := by
  unfold tick_rearms ngx_proxy_wasm_filter_tick_handler
  cases hx : env.ngx_exiting s.world
  · cases hp : (env.filter s.world).proxy_on_timer_ready
    · simp [hx, hp]
    · cases hi : (env.filter s.world).root_ictx with
      | none => simp [hx, hp, hi]
      | some ictx =>
        by_cases hrc : (env.ngx_proxy_wasm_resume ictx s.world).1 = NGX_OK
        · cases hx2 : env.ngx_exiting (env.ngx_proxy_wasm_resume ictx s.world).2
          · cases hc : env.ngx_calloc (env.ngx_proxy_wasm_resume ictx s.world).2
            · simp [hx, hp, hi, hrc, hx2, hc]
            · simp [hx, hp, hi, hrc, hx2, hc]
          · simp [hx, hp, hi, hrc, hx2]
        · simp [hx, hp, hi, hrc]
  · simp [hx]

/-- Witness of C24: a firing in which the callback succeeds and changes the
period of the filter from 0 to 1; one timer of period 1 is armed. -/
theorem C24_tick_single_timer_witness :
    tick_rearms example_tick_env_ok
      { world := 0, ev := some example_event, timers := [], resumed := [], logged := [] } ∧
    (ngx_proxy_wasm_filter_tick_handler example_tick_env_ok example_event
        { world := 0, ev := some example_event, timers := [], resumed := [],
          logged := [] }).timers =
      [] ++ [({ handler := ngx_event_handler_pt.ngx_proxy_wasm_filter_tick_handler,
                data := example_event.data, log := example_event.log },
              (example_tick_env_ok.filter (ngx_proxy_wasm_filter_tick_handler
                example_tick_env_ok example_event
                { world := 0, ev := some example_event, timers := [], resumed := [],
                  logged := [] }).world).tick_period)] ∧
    (ngx_proxy_wasm_filter_tick_handler example_tick_env_ok example_event
        { world := 0, ev := some example_event, timers := [], resumed := [],
          logged := [] }).ev =
      some { handler := ngx_event_handler_pt.ngx_proxy_wasm_filter_tick_handler,
             data := example_event.data, log := example_event.log } :=
  ⟨⟨rfl, rfl, 0, rfl, rfl, rfl, rfl⟩,
    (C24_tick_single_timer example_tick_env_ok example_event
      { world := 0, ev := some example_event, timers := [], resumed := [],
        logged := [] }).2.1 ⟨rfl, rfl, 0, rfl, rfl, rfl, rfl⟩⟩

/-! ## Lemmas on the precedence of resolution -/

theorem link_binding_spec_none (core_host : Option ngx_wavm_host_def_t)
    (host : ngx_wavm_host_def_t) (name : List Nat) :
    link_binding_spec core_host host name = none ↔
      name ∉ host.funcs ∧ ∀ core, core_host = some core → name ∉ core.funcs := by
  unfold link_binding_spec
  by_cases hh : name ∈ host.funcs
  · simp [hh]
  · cases core_host with
    | none => simp [hh]
    | some core =>
      by_cases hc : name ∈ core.funcs
      · simp [hh, hc]
      · simp [hh, hc]

theorem link_bindings_spec_none (core_host : Option ngx_wavm_host_def_t)
    (host : ngx_wavm_host_def_t) (imports : List wasm_importtype_t) :
    link_bindings_spec core_host host imports = none ↔
      ∃ i ∈ imports, link_binding_spec core_host host (wasm_name_bytes i.name) = none := by
  induction imports with
  | nil => simp [link_bindings_spec]
  | cons i rest ih =>
    unfold link_bindings_spec
    cases h : link_binding_spec core_host host (wasm_name_bytes i.name) with
    | none => simp [h]
    | some hfunc => simp [h, ih]

theorem ngx_wavm_module_link_resolve_spec (pool : ngx_pool_t) (hpool : ∀ k, pool k = true)
    (core_host : Option ngx_wavm_host_def_t) (host : ngx_wavm_host_def_t) (s : ngx_str_t)
    (a : Nat) :
    (ngx_wavm_module_link_resolve pool core_host host s a).1 =
      link_binding_spec core_host host (ngx_str_bytes s) := by
  unfold ngx_wavm_module_link_resolve link_binding_spec ngx_wavm_host_hfunc_create
  by_cases hh : ngx_str_bytes s ∈ host.funcs
  · simp [hpool, hh]
  · cases core_host with
    | none => simp [hpool, hh]
    | some core =>
      by_cases hc : ngx_str_bytes s ∈ core.funcs
      · simp [hpool, hh, hc]
      · simp [hpool, hh, hc]

theorem ngx_wavm_module_link_imports_spec (pool : ngx_pool_t) (hpool : ∀ k, pool k = true)
    (core_host : Option ngx_wavm_host_def_t) (host : ngx_wavm_host_def_t)
    (imports : List wasm_importtype_t) :
    ∀ (hfuncs : List ngx_wavm_hfunc_t) (a : Nat),
      ngx_wavm_module_link_imports pool core_host host imports hfuncs a =
        (link_bindings_spec core_host host (imports.filter ngx_wavm_import_selected)).map
          (fun l => hfuncs ++ l) := by
  induction imports with
  | nil => intro hfuncs a; simp [ngx_wavm_module_link_imports, link_bindings_spec]
  | cons i rest ih =>
    intro hfuncs a
    unfold ngx_wavm_module_link_imports
    by_cases hi : ngx_strncmp i.module.data str_env 3 ≠ 0
    · have hs : ngx_wavm_import_selected i = false := by simp [ngx_wavm_import_selected, hi]
      rw [if_pos hi, ih, List.filter_cons, hs]
      simp
    · have hs : ngx_wavm_import_selected i = true := by
        simp only [ngx_wavm_import_selected, decide_eq_true_eq]
        exact not_not.mp hi
      rw [if_neg hi, List.filter_cons, if_pos hs]
      simp only [ngx_wavm_module_link_resolve_spec pool hpool, hpool, if_true]
      unfold link_bindings_spec
      have hb : ngx_str_bytes { len := i.name.size, data := i.name.data } =
          wasm_name_bytes i.name := rfl
      rw [hb]
      cases hr : link_binding_spec core_host host (wasm_name_bytes i.name) with
      | none => simp
      | some hfunc =>
        simp only [ih]
        cases link_bindings_spec core_host host (rest.filter ngx_wavm_import_selected) with
        | none => simp
        | some l => simp

/-- C25, precedence of resolution in `ngx_wavm_module_link`. For a loaded
module, a host interface that is not NULL and allocations that succeed, the
link binds each function import of namespace `env`, in import order, to a
host function of the given interface when that interface defines the name of
the import (whatever the core interface defines), and to one of the core
interface of the runtime when the given interface lacks the name and a core
interface is set and defines it; the link returns NULL, leaving the runtime
and the module as they are, exactly when some such import has a name that
neither interface defines. The module is one whose imports selected by the
loop are those of namespace `env`, all of function kind as
`ngx_wavm_module_load` requires. -/
theorem C25_link_resolution_precedence (pool : ngx_pool_t) (vm : ngx_wavm_t)
    (module : ngx_wavm_module_t) (host : ngx_wavm_host_def_t)
    (hpool : ∀ k, pool k = true) (hloaded : ngx_wavm_module_loaded module ≠ 0)
    (hns : ∀ i ∈ module.imports, ngx_wavm_import_selected i = true →
      wasm_name_bytes i.module = str_env)
    (hfun : ∀ i ∈ module.imports, wasm_name_bytes i.module = str_env →
      i.kind = wasm_externkind_t.WASM_EXTERN_FUNC) :
    ngx_wavm_module_link pool vm module (some host) =
      some (match link_bindings_spec vm.core_host host
          (module.imports.filter (fun i =>
            decide (wasm_name_bytes i.module = str_env ∧
              i.kind = wasm_externkind_t.WASM_EXTERN_FUNC))) with
        | none => { ret := none, vm := vm, module := module }
        | some hf =>
          { ret := some { module := module.name, idx := vm.lmodules_max, hfuncs_imports := hf },
            vm := { vm with lmodules_max := vm.lmodules_max + 1 },
            module := { module with lmodules := module.lmodules ++
              [{ module := module.name, idx := vm.lmodules_max, hfuncs_imports := hf }] } }) ∧
    (∀ name, name ∈ host.funcs →
      link_binding_spec vm.core_host host name = some { host := host.name, name := name }) ∧
    (∀ name core, name ∉ host.funcs → vm.core_host = some core → name ∈ core.funcs →
      link_binding_spec vm.core_host host name = some { host := core.name, name := name }) ∧
    (link_bindings_spec vm.core_host host
        (module.imports.filter (fun i =>
          decide (wasm_name_bytes i.module = str_env ∧
            i.kind = wasm_externkind_t.WASM_EXTERN_FUNC))) = none ↔
      ∃ i ∈ module.imports, wasm_name_bytes i.module = str_env ∧
        i.kind = wasm_externkind_t.WASM_EXTERN_FUNC ∧
        wasm_name_bytes i.name ∉ host.funcs ∧
        ∀ core, vm.core_host = some core → wasm_name_bytes i.name ∉ core.funcs) := by
  have hfilter : module.imports.filter (fun i =>
      decide (wasm_name_bytes i.module = str_env ∧
        i.kind = wasm_externkind_t.WASM_EXTERN_FUNC)) =
      module.imports.filter ngx_wavm_import_selected := by
    apply List.filter_congr
    intro i hi
    by_cases hs : ngx_wavm_import_selected i = true
    · have he := hns i hi hs
      simp [hs, he, hfun i hi he]
    · have he : ¬ wasm_name_bytes i.module = str_env :=
        fun he => hs (ngx_wavm_import_selected_of_env i he)
      simp [hs, he]
  refine ⟨?_, ?_, ?_, ?_⟩
  · rw [hfilter]
    unfold ngx_wavm_module_link
    rw [if_neg hloaded]
    simp only [hpool, Bool.and_self, if_true,
      ngx_wavm_module_link_imports_spec pool hpool, List.nil_append]
    cases link_bindings_spec vm.core_host host
        (module.imports.filter ngx_wavm_import_selected) with
    | none => simp
    | some hf => simp
  · intro name hn
    simp [link_binding_spec, hn]
  · intro name core hn hc hcn
    simp [link_binding_spec, hn, hc, hcn]
  · rw [link_bindings_spec_none]
    constructor
    · rintro ⟨i, hi, hnone⟩
      obtain ⟨h1, h2⟩ := List.mem_filter.mp hi
      simp only [decide_eq_true_eq] at h2
      exact ⟨i, h1, h2.1, h2.2, (link_binding_spec_none _ _ _).mp hnone⟩
    · rintro ⟨i, hi, he, hk, hn⟩
      exact ⟨i, List.mem_filter.mpr ⟨hi, by simp [he, hk]⟩,
        (link_binding_spec_none _ _ _).mpr hn⟩

/-- Witness of C25: a module importing `env.f` and `env.g`, linked with the
host interface `h` that defines `f` on a runtime whose core interface `c`
defines `f` and `g`: `f` is bound to `h` and `g` to `c`. -/
theorem C25_link_resolution_precedence_witness :
    ((∀ k, ngx_pool_ok k = true) ∧
      ngx_wavm_module_loaded (example_module_importing example_imports_f_g) ≠ 0 ∧
      (∀ i ∈ (example_module_importing example_imports_f_g).imports,
        ngx_wavm_import_selected i = true → wasm_name_bytes i.module = str_env) ∧
      (∀ i ∈ (example_module_importing example_imports_f_g).imports,
        wasm_name_bytes i.module = str_env → i.kind = wasm_externkind_t.WASM_EXTERN_FUNC) ∧
      (ngx_wavm_module_link ngx_pool_ok example_vm_core
          (example_module_importing example_imports_f_g) (some example_host)).map
          (fun r => r.ret.map (fun lm => lm.hfuncs_imports)) =
        some (some [{ host := [104], name := [102] }, { host := [99], name := [103] }])) ∧
    ngx_wavm_module_link ngx_pool_ok example_vm_core
        (example_module_importing example_imports_f_g) (some example_host) =
      some (match link_bindings_spec example_vm_core.core_host example_host
          ((example_module_importing example_imports_f_g).imports.filter (fun i =>
            decide (wasm_name_bytes i.module = str_env ∧
              i.kind = wasm_externkind_t.WASM_EXTERN_FUNC))) with
        | none => { ret := none, vm := example_vm_core,
                    module := example_module_importing example_imports_f_g }
        | some hf =>
          { ret := some { module := (example_module_importing example_imports_f_g).name,
                          idx := example_vm_core.lmodules_max, hfuncs_imports := hf },
            vm := { example_vm_core with lmodules_max := example_vm_core.lmodules_max + 1 },
            module := { example_module_importing example_imports_f_g with
              lmodules := (example_module_importing example_imports_f_g).lmodules ++
                [{ module := (example_module_importing example_imports_f_g).name,
                   idx := example_vm_core.lmodules_max, hfuncs_imports := hf }] } }) :=
  ⟨⟨fun _ => rfl, by decide, by decide, by decide, by decide⟩,
    (C25_link_resolution_precedence ngx_pool_ok example_vm_core
      (example_module_importing example_imports_f_g) example_host
      (fun _ => rfl) (by decide) (by decide) (by decide)).1⟩

/-! ## Properties of the shared-memory directive -/

theorem ngx_size_of_nat (s : Nat) (h : s < 2 ^ 63) : ngx_size_of (s : Int) = s := by
  unfold ngx_size_of
  have h2 : ((s : Int) % 2 ^ 64) = ((s % 2 ^ 64 : Nat) : Int) := by
    push_cast
    rfl
  rw [h2, Int.toNat_ofNat, Nat.mod_eq_of_lt (by omega)]

theorem ngx_pagesize_mask (k : Nat) (hk : k < 64) :
    (2 ^ k + 2 ^ 64 - 1) % 2 ^ 64 = 2 ^ k - 1 := by
  have h1 : 1 ≤ 2 ^ k := Nat.one_le_two_pow
  have h2 : 2 ^ k < 2 ^ 64 := Nat.pow_lt_pow_right (by norm_num) hk
  have h3 : 2 ^ k + 2 ^ 64 - 1 = (2 ^ k - 1) + 2 ^ 64 := by omega
  rw [h3, Nat.add_mod_right, Nat.mod_eq_of_lt (by omega)]

/-- C30 as stated fails after a failure of `ngx_shared_memory_add`: with a
page size of 4096, an empty list, the name `kv` and the size 12288, the
directive pushes the mapping on `wcf->shms` before it calls
`ngx_shared_memory_add`, and when that call returns NULL it returns
`NGX_CONF_ERROR` with the new entry, of NULL zone, still in the list. -/
theorem C30_shm_entry_remains_counterexample :
    ngx_wasm_core_shm_generic_directive 4096 ngx_pool_ok (fun _ _ => none) []
        (ngx_string [107, 118]) 12288 ngx_wasm_shm_type_e.NGX_WASM_SHM_TYPE_KV =
      (NGX_CONF_ERROR, [{ name := ngx_string [107, 118], zone := none }]) := by
  decide

/-- C30, amended. `ngx_wasm_core_shm_generic_directive` returns
`NGX_CONF_ERROR` and leaves the list `wcf->shms` as it is whenever the name is
empty, the size does not parse, the size is below 3 pages, the size is
rejected by the test `(size & (ngx_pagesize - 1)) != 0`, a shm of the same
name is in the list, or one of its two allocations fails. Otherwise it
pushes one mapping of that name at the end of the list and calls
`ngx_shared_memory_add`: when that call returns NULL the directive returns
`NGX_CONF_ERROR` and the new mapping, of NULL zone, remains in the list; when
it returns a zone the directive returns `NGX_CONF_OK`. For a page size that
is a power of two and a size that is not negative, the test of alignment
rejects exactly the sizes that are not multiples of the page size. -/
theorem C30_shm_directive_validation (ngx_pagesize : Nat) (pool : ngx_pool_t)
    (ngx_shared_memory_add : ngx_str_t → Int → Option Nat)
    (shms : List ngx_wasm_shm_mapping_t) (name : ngx_str_t) (size : Int)
    ( type : ngx_wasm_shm_type_e) :
    (shm_directive_invalid ngx_pagesize shms name size ∨ pool 0 = false ∨ pool 1 = false →
      ngx_wasm_core_shm_generic_directive ngx_pagesize pool ngx_shared_memory_add shms name
        size type = (NGX_CONF_ERROR, shms)) ∧
    (¬ shm_directive_invalid ngx_pagesize shms name size → pool 0 = true → pool 1 = true →
      ngx_wasm_core_shm_generic_directive ngx_pagesize pool ngx_shared_memory_add shms name
        size type =
        match ngx_shared_memory_add name size with
        | none => (NGX_CONF_ERROR, shms ++ [{ name := name, zone := none }])
        | some addr =>
          (NGX_CONF_OK,
            shms ++ [{ name := name,
                       zone := some { addr := addr, data := { type := type, name := name },
                                      noreuse := 1 } }])) ∧
    (∀ k s : Nat, k < 64 → s < 2 ^ 63 →
      (ngx_size_of (s : Int) &&& ((2 ^ k + 2 ^ 64 - 1) % 2 ^ 64) ≠ 0 ↔ s % 2 ^ k ≠ 0)) := by
  refine ⟨?_, ?_, ?_⟩
  · intro h
    unfold ngx_wasm_core_shm_generic_directive
    unfold shm_directive_invalid at h
    by_cases h1 : name.len = 0
    · simp [h1]
    · by_cases h2 : size = NGX_ERROR
      · simp [h1, h2]
      · by_cases h3 : size < ngx_ssize_of (3 * ngx_pagesize)
        · simp [h1, h2, h3]
        · simp only [h1, h2, h3, if_false]
          by_cases h4 : ngx_size_of size &&& ((ngx_pagesize + 2 ^ 64 - 1) % 2 ^ 64) ≠ 0
          · rw [if_pos h4]
          · rw [if_neg h4]
            by_cases h5 : (!pool 0) = true
            · rw [if_pos h5]
            · rw [if_neg h5]
              by_cases h6 : (shms.any (fun mapping => ngx_str_eq mapping.name name)) = true
              · rw [if_pos h6]
              · rw [if_neg h6]
                by_cases h7 : (!pool 1) = true
                · rw [if_pos h7]
                · exfalso
                  rcases h with (h | h | h | h | ⟨m, hm, he⟩) | h | h
                  · exact h1 h
                  · exact h2 h
                  · exact h3 h
                  · exact h4 h
                  · exact h6 (List.any_eq_true.mpr ⟨m, hm, he⟩)
                  · exact h5 (by simp [h])
                  · exact h7 (by simp [h])
  · intro hv hp0 hp1
    unfold shm_directive_invalid at hv
    simp only [not_or, not_exists, not_and] at hv
    obtain ⟨h1, h2, h3, h4, h5⟩ := hv
    have h6 : (shms.any (fun mapping => ngx_str_eq mapping.name name)) = false := by
      rw [Bool.eq_false_iff]
      intro hc
      obtain ⟨m, hm, he⟩ := List.any_eq_true.mp hc
      exact h5 m hm he
    unfold ngx_wasm_core_shm_generic_directive
    simp only [h1, h2, h3, if_false]
    rw [if_neg h4]
    simp only [h6, hp0, hp1, if_false, Bool.not_true, Bool.false_eq_true]
  · intro k s hk hs
    rw [ngx_size_of_nat s hs, ngx_pagesize_mask k hk, Nat.and_pow_two_sub_one_eq_mod]

/-- Witness of the amended C30, with a page size of 4096: the size 12289 is
rejected and leaves the list empty; the size 12288 is accepted and, the zone
being returned at the address 9, one mapping is pushed. -/
theorem C30_shm_directive_validation_witness :
    (shm_directive_invalid 4096 [] (ngx_string [107, 118]) 12289 ∧
      ¬ shm_directive_invalid 4096 [] (ngx_string [107, 118]) 12288) ∧
    ngx_wasm_core_shm_generic_directive 4096 ngx_pool_ok (fun _ _ => some 9) []
        (ngx_string [107, 118]) 12289 ngx_wasm_shm_type_e.NGX_WASM_SHM_TYPE_KV =
      (NGX_CONF_ERROR, []) ∧
    ngx_wasm_core_shm_generic_directive 4096 ngx_pool_ok (fun _ _ => some 9) []
        (ngx_string [107, 118]) 12288 ngx_wasm_shm_type_e.NGX_WASM_SHM_TYPE_KV =
      (NGX_CONF_OK,
        [{ name := ngx_string [107, 118],
           zone := some { addr := 9,
                          data := { type := ngx_wasm_shm_type_e.NGX_WASM_SHM_TYPE_KV,
                                    name := ngx_string [107, 118] },
                          noreuse := 1 } }]) :=
  ⟨by decide,
    (C30_shm_directive_validation 4096 ngx_pool_ok (fun _ _ => some 9) []
      (ngx_string [107, 118]) 12289 ngx_wasm_shm_type_e.NGX_WASM_SHM_TYPE_KV).1
      (Or.inl (by decide)),
    (C30_shm_directive_validation 4096 ngx_pool_ok (fun _ _ => some 9) []
      (ngx_string [107, 118]) 12288 ngx_wasm_shm_type_e.NGX_WASM_SHM_TYPE_KV).2.1
      (by decide) rfl rfl⟩

/-! ## Properties of contexts and instances -/

theorem ngx_wavm_instance_create_null (env : instance_env)
    (lmodule : ngx_wavm_linked_module_t) (module : ngx_wavm_module_t) (ctx : ngx_wavm_ctx_t)
    (r : instance_result) (h : ngx_wavm_instance_create env lmodule module ctx = some r)
    (hr : r.ret = none) :
    r.ctx = ctx ∧ ∃ slots, ctx.instances = some slots ∧ slots[lmodule.idx]? = some none := by
  unfold ngx_wavm_instance_create at h
  cases hi : ctx.instances with
  | none => simp [hi] at h
  | some slots =>
    simp only [hi] at h
    cases hs : slots[lmodule.idx]? with
    | none => simp [hs] at h
    | some slot =>
      cases slot with
      | some old =>
        simp only [hs, Option.some.injEq] at h
        subst h
        simp at hr
      | none =>
        refine ⟨?_, slots, hi ▸ rfl, hs ▸ rfl⟩
        simp only [hs] at h
        cases hp : env.palloc_instance with
        | none =>
          simp only [hp, Option.some.injEq] at h
          subst h
          rfl
        | some addr =>
          simp only [hp] at h
          split at h
          · simp only [Option.map_eq_some'] at h
            obtain ⟨_, _, h⟩ := h
            subst h; rfl
          · split at h
            · simp only [Option.map_eq_some'] at h
              obtain ⟨_, _, h⟩ := h
              subst h; rfl
            · cases hn : env.ngx_wrt_instance_new with
              | none =>
                simp only [hn, Option.map_eq_some'] at h
                obtain ⟨_, _, h⟩ := h
                subst h; rfl
              | some handle =>
                simp only [hn, Option.some.injEq] at h
                subst h
                simp at hr

theorem ngx_wavm_instance_create_length (env : instance_env)
    (lmodule : ngx_wavm_linked_module_t) (module : ngx_wavm_module_t) (ctx : ngx_wavm_ctx_t)
    (r : instance_result) (slots : List (Option ngx_wavm_instance_t))
    (hslots : ctx.instances = some slots)
    (h : ngx_wavm_instance_create env lmodule module ctx = some r) :
    ∃ slots2, r.ctx.instances = some slots2 ∧ slots2.length = slots.length := by
  cases hr : r.ret with
  | none =>
    obtain ⟨hc, _⟩ := ngx_wavm_instance_create_null env lmodule module ctx r h hr
    exact ⟨slots, by rw [hc, hslots], rfl⟩
  | some inst =>
    unfold ngx_wavm_instance_create at h
    simp only [hslots] at h
    cases hs : slots[lmodule.idx]? with
    | none => simp [hs] at h
    | some slot =>
      cases slot with
      | some old =>
        simp only [hs, Option.some.injEq] at h
        subst h
        exact ⟨slots, hslots, rfl⟩
      | none =>
        simp only [hs] at h
        cases hp : env.palloc_instance with
        | none =>
          simp only [hp, Option.some.injEq] at h
          subst h
          simp at hr
        | some addr =>
          simp only [hp] at h
          split at h
          · simp only [Option.map_eq_some'] at h
            obtain ⟨_, _, h⟩ := h
            subst h; simp at hr
          · split at h
            · simp only [Option.map_eq_some'] at h
              obtain ⟨_, _, h⟩ := h
              subst h; simp at hr
            · cases hn : env.ngx_wrt_instance_new with
              | none =>
                simp only [hn, Option.map_eq_some'] at h
                obtain ⟨_, _, h⟩ := h
                subst h; simp at hr
              | some handle =>
                simp only [hn, Option.some.injEq] at h
                subst h
                exact ⟨_, rfl, by simp⟩

theorem ngx_wavm_instance_create_outside (env : instance_env)
    (lmodule : ngx_wavm_linked_module_t) (module : ngx_wavm_module_t) (ctx : ngx_wavm_ctx_t)
    (slots : List (Option ngx_wavm_instance_t)) (hslots : ctx.instances = some slots)
    (h : slots.length ≤ lmodule.idx) :
    ngx_wavm_instance_create env lmodule module ctx = none := by
  unfold ngx_wavm_instance_create
  simp only [hslots]
  rw [List.getElem?_eq_none h]

theorem ngx_wavm_ctx_destroy_loop_outside (slots : List (Option ngx_wavm_instance_t)) :
    ∀ (k i : Nat), 0 < k → slots.length < i + k → ngx_wavm_ctx_destroy_loop slots i k = none := by
  intro k
  induction k with
  | zero => intro i h0 _; omega
  | succ k ih =>
    intro i _ hlen
    unfold ngx_wavm_ctx_destroy_loop
    cases hs : slots[i]? with
    | none => rfl
    | some slot =>
      have hi : i < slots.length := by
        by_contra hge
        rw [List.getElem?_eq_none (by omega)] at hs
        simp at hs
      rw [ih (i + 1) (by omega) (by omega)]

theorem ngx_wavm_ctx_destroy_loop_empty (n : Nat) :
    ∀ (k i : Nat), i + k ≤ n →
      ngx_wavm_ctx_destroy_loop (List.replicate n (none : Option ngx_wavm_instance_t)) i k =
        some [] := by
  intro k
  induction k with
  | zero => intro i _; rfl
  | succ k ih =>
    intro i hlen
    unfold ngx_wavm_ctx_destroy_loop
    have hs : (List.replicate n (none : Option ngx_wavm_instance_t))[i]? = some none := by
      rw [List.getElem?_replicate]
      simp
      omega
    rw [hs, ih (i + 1) (by omega)]

theorem ngx_wavm_ctx_init_ok (wrt : ngx_wrt_t) (pool : ngx_pool_t) (vm : ngx_wavm_t)
    (ctx ctx1 : ngx_wavm_ctx_t) (h : ngx_wavm_ctx_init wrt pool vm ctx = (NGX_OK, ctx1)) :
    ctx1.instances = some (List.replicate vm.lmodules_max none) := by
  unfold ngx_wavm_ctx_init at h
  split at h
  · simp only [Prod.mk.injEq] at h
    exact absurd h.1 (by decide)
  · split at h
    · simp only [Prod.mk.injEq] at h
      exact absurd h.1 (by decide)
    · split at h
      · simp only [Prod.mk.injEq, true_and] at h
        rw [← h]
      · simp only [Prod.mk.injEq] at h
        exact absurd h.1 (by decide)

/-- C21, scope of an instantiation failure: evaluation at a failing input.
When the allocation of the instance succeeds and the allocation of its log
fails, `ngx_wavm_instance_create` reaches the label `error` and calls
`ngx_wavm_instance_destroy` on the instance, which tests the field
`instance->instance`; nothing was stored in that field of the memory that
`ngx_palloc` returned, and when it does not hold NULL the instance and its
uninitialised `exports` are handed to the engine for deletion: the call
does not return NULL, the process does not survive it. When the field holds
NULL the call returns NULL with the context as it was. In every call that
returns NULL the context is unchanged and the slot `lmodule->idx` is empty, so
that a later call for that slot acts as on the context before. -/
theorem C21_instance_failure_reads_uninitialised :
    ngx_wavm_instance_create (example_instance_env_failing 100 (some 1)) example_lmodule
      example_module example_ctx = none ∧
    ngx_wavm_instance_create (example_instance_env_failing 100 none) example_lmodule
      example_module example_ctx =
      some { ret := none, ctx := example_ctx, instantiated := false } ∧
    (∀ (env env2 : instance_env) (lmodule : ngx_wavm_linked_module_t)
        (module : ngx_wavm_module_t) (ctx : ngx_wavm_ctx_t) (r : instance_result),
      ngx_wavm_instance_create env lmodule module ctx = some r → r.ret = none →
      r.ctx = ctx ∧
      (∃ slots, ctx.instances = some slots ∧ slots[lmodule.idx]? = some none) ∧
      ngx_wavm_instance_create env2 lmodule module r.ctx =
        ngx_wavm_instance_create env2 lmodule module ctx) := by
  refine ⟨by decide, by decide, ?_⟩
  intro env env2 lmodule module ctx r h hr
  obtain ⟨hc, hs⟩ := ngx_wavm_instance_create_null env lmodule module ctx r h hr
  exact ⟨hc, hs, by rw [hc]⟩

/-- C22, trap isolation. For a context that holds the instance `A` in a
slot and the instance `B` in a slot, which may be any two slots, a call of
`ngx_wavm_instance_call` into an exported function of `A` that traps (the
engine returns a code other than `NGX_OK` and stores a trap) returns that
code, writes one error on the log of `A`, and leaves the context as it is:
`A` and `B` are in their slots, unchanged. A call into an exported function
of `B` made afterwards is dispatched to the engine for the engine instance
of `B`, the index of the export and the arguments given, returns `NGX_OK`
whenever the engine does, and has the return code and the effect on the
engine and on the context of the same call made from the state before the
call into `A`, the engine being as the trap left it. -/
theorem C22_trap_isolation {W : Type} (env : call_env W) (s : call_state W)
    (slots : List (Option ngx_wavm_instance_t)) (i j : Nat) (A B : ngx_wavm_instance_t)
    (fa fb : ngx_wavm_func_t) (argsA argsB : List Int) (t : Nat)
    (hslots : s.ctx.instances = some slots)
    (hA : slots[i]? = some (some A)) (hB : slots[j]? = some (some B))
    (hfa : (env.wasm_instance_exports A.wasm_instance)[fa.exports_idx]? =
      some wasm_externkind_t.WASM_EXTERN_FUNC)
    (hfb : (env.wasm_instance_exports B.wasm_instance)[fb.exports_idx]? =
      some wasm_externkind_t.WASM_EXTERN_FUNC)
    (hrc : (env.ngx_wrt_func_call A.wasm_instance fa.exports_idx argsA s.engine).1 ≠ NGX_OK)
    (htrap : (env.ngx_wrt_func_call A.wasm_instance fa.exports_idx argsA s.engine).2.1 =
      some (some t)) :
    ∃ s1,
      ngx_wavm_instance_call env A fa argsA s =
        some ((env.ngx_wrt_func_call A.wasm_instance fa.exports_idx argsA s.engine).1, s1) ∧
      s1.ctx = s.ctx ∧ s1.ctx.instances = some slots ∧
      slots[i]? = some (some A) ∧ slots[j]? = some (some B) ∧
      s1.logged = s.logged ++ [A.addr] ∧
      s1.calls = s.calls ++ [(A.wasm_instance, fa.exports_idx, argsA)] ∧
      s1.engine = (env.ngx_wrt_func_call A.wasm_instance fa.exports_idx argsA s.engine).2.2 ∧
      ((env.ngx_wrt_func_call B.wasm_instance fb.exports_idx argsB s1.engine).1 = NGX_OK →
        ngx_wavm_instance_call env B fb argsB s1 =
          some (NGX_OK,
            { engine :=
                (env.ngx_wrt_func_call B.wasm_instance fb.exports_idx argsB s1.engine).2.2,
              ctx := s.ctx,
              calls := s1.calls ++ [(B.wasm_instance, fb.exports_idx, argsB)],
              logged := s1.logged })) ∧
      (∀ r, ngx_wavm_instance_call env B fb argsB s1 = some r →
        r.1 = (env.ngx_wrt_func_call B.wasm_instance fb.exports_idx argsB s1.engine).1 ∧
        r.2.ctx = s.ctx ∧
        r.2.calls = s1.calls ++ [(B.wasm_instance, fb.exports_idx, argsB)]) ∧
      (ngx_wavm_instance_call env B fb argsB s1).map (fun r => (r.1, r.2.engine, r.2.ctx)) =
        (ngx_wavm_instance_call env B fb argsB { s with engine := s1.engine }).map
          (fun r => (r.1, r.2.engine, r.2.ctx)) := by
  have hcallA : ngx_wavm_instance_call env A fa argsA s =
      some ((env.ngx_wrt_func_call A.wasm_instance fa.exports_idx argsA s.engine).1,
        { engine := (env.ngx_wrt_func_call A.wasm_instance fa.exports_idx argsA s.engine).2.2,
          ctx := s.ctx,
          calls := s.calls ++ [(A.wasm_instance, fa.exports_idx, argsA)],
          logged := s.logged ++ [A.addr] }) := by
    unfold ngx_wavm_instance_call
    simp only [hfa, ne_eq, not_true_eq_false, if_false]
    rw [if_pos hrc, htrap]
  refine ⟨_, hcallA, rfl, hslots, hA, hB, rfl, rfl, rfl, ?_, ?_, ?_⟩
  · intro hok
    unfold ngx_wavm_instance_call
    simp only [hfb, ne_eq, not_true_eq_false, if_false]
    rw [if_neg (not_not.mpr hok), hok]
  · intro r hr
    unfold ngx_wavm_instance_call at hr
    simp only [hfb, ne_eq, not_true_eq_false, if_false] at hr
    split at hr
    · split at hr
      · simp at hr
      · simp only [Option.some.injEq] at hr
        subst hr
        exact ⟨rfl, rfl, rfl⟩
    · simp only [Option.some.injEq] at hr
      subst hr
      exact ⟨rfl, rfl, rfl⟩
  · unfold ngx_wavm_instance_call
    simp only [hfb, ne_eq, not_true_eq_false, if_false]
    split
    · split
      · rfl
      · rfl
    · rfl

/-- Witness of C22: a context with two instances, the engine failing with a
trap every call into the first one. -/
theorem C22_trap_isolation_witness :
    (example_ctx_two.instances =
        some [some { addr := 100, ctx := 1, module := ngx_string [97], tctxs := [],
                     wasm_instance := 7, memory := none },
              some { addr := 200, ctx := 1, module := ngx_string [98], tctxs := [],
                     wasm_instance := 8, memory := none }] ∧
      (example_call_env.ngx_wrt_func_call 7 0 [1] 0).1 ≠ NGX_OK ∧
      (example_call_env.ngx_wrt_func_call 7 0 [1] 0).2.1 = some (some 5)) ∧
    ngx_wavm_instance_call example_call_env
        { addr := 100, ctx := 1, module := ngx_string [97], tctxs := [],
          wasm_instance := 7, memory := none }
        { name := ngx_string [102], exports_idx := 0 } [1]
        { engine := 0, ctx := example_ctx_two, calls := [], logged := [] } =
      some (NGX_ERROR,
        { engine := 1, ctx := example_ctx_two, calls := [(7, 0, [1])], logged := [100] }) ∧
    ngx_wavm_instance_call example_call_env
        { addr := 200, ctx := 1, module := ngx_string [98], tctxs := [],
          wasm_instance := 8, memory := none }
        { name := ngx_string [103], exports_idx := 1 } [2]
        { engine := 1, ctx := example_ctx_two, calls := [(7, 0, [1])], logged := [100] } =
      some (NGX_OK,
        { engine := 2, ctx := example_ctx_two, calls := [(7, 0, [1]), (8, 1, [2])],
          logged := [100] }) ∧
    ∃ s1,
      ngx_wavm_instance_call example_call_env
          { addr := 100, ctx := 1, module := ngx_string [97], tctxs := [],
            wasm_instance := 7, memory := none }
          { name := ngx_string [102], exports_idx := 0 } [1]
          { engine := 0, ctx := example_ctx_two, calls := [], logged := [] } =
        some ((example_call_env.ngx_wrt_func_call 7 0 [1] 0).1, s1) ∧
      s1.ctx = example_ctx_two :=
  ⟨⟨rfl, by decide, rfl⟩, rfl, rfl,
    (C22_trap_isolation example_call_env
      { engine := 0, ctx := example_ctx_two, calls := [], logged := [] }
      [some { addr := 100, ctx := 1, module := ngx_string [97], tctxs := [],
              wasm_instance := 7, memory := none },
       some { addr := 200, ctx := 1, module := ngx_string [98], tctxs := [],
              wasm_instance := 8, memory := none }] 0 1
      { addr := 100, ctx := 1, module := ngx_string [97], tctxs := [],
        wasm_instance := 7, memory := none }
      { addr := 200, ctx := 1, module := ngx_string [98], tctxs := [],
        wasm_instance := 8, memory := none }
      { name := ngx_string [102], exports_idx := 0 }
      { name := ngx_string [103], exports_idx := 1 } [1] [2] 5
      rfl rfl rfl rfl rfl (by decide) rfl).imp (fun _ h => ⟨h.1, h.2.1⟩)⟩

/-- C23 as stated fails for a link performed after `ngx_wavm_ctx_init`. On
a runtime with one linked module, `ngx_wavm_ctx_init` allocates a table of
one slot; a second `ngx_wavm_module_link` then returns a linked module of
`idx = 1` and makes `lmodules_max` 2. `ngx_wavm_instance_create` for that
linked module reads `ctx->instances[1]` and `ngx_wavm_ctx_destroy` reads the
slots 0 and 1, outside the table of one slot. -/
theorem C23_link_after_ctx_init_counterexample :
    (ngx_wavm_module_link ngx_pool_ok example_vm example_module (some example_host)).map
        (fun r => (r.ret, r.vm)) = some (some example_lmodule, example_vm_linked) ∧
    ngx_wavm_ctx_init (example_wrt example_wasm_no_import) ngx_pool_ok example_vm_linked
        { addr := 1, store := none, instances := none } = (NGX_OK, example_ctx_linked) ∧
    example_ctx_linked.instances = some [none] ∧
    (ngx_wavm_module_link ngx_pool_ok example_vm_linked example_module
        (some example_host)).map (fun r => (r.ret, r.vm)) =
      some (some example_lmodule2, example_vm_linked2) ∧
    example_lmodule2.idx = 1 ∧ example_vm_linked2.lmodules_max = 2 ∧
    ngx_wavm_instance_create (example_instance_env 100) example_lmodule2 example_module
      example_ctx_linked = none ∧
    ngx_wavm_ctx_destroy example_vm_linked2 example_ctx_linked = none := by
  decide

/-- C23, amended. `ngx_wavm_ctx_init` allocates a table of exactly
`vm->lmodules_max` slots, all empty. Every linked module returned by a
sequence of `ngx_wavm_module_link` calls that precedes the
`ngx_wavm_ctx_init` has its `idx` inside that table, the creation of
instances keeps the length of the table, and as long as no link follows,
`ngx_wavm_ctx_destroy` reads inside the table. Every linked module returned
by a link performed after the `ngx_wavm_ctx_init` has its `idx` outside the
table, so that `ngx_wavm_instance_create` reads outside it, and so does
`ngx_wavm_ctx_destroy` once such a link succeeded. -/
theorem C23_slots_of_links_before_init (wrt : ngx_wrt_t) (pool : ngx_pool_t)
    (vm0 : ngx_wavm_t)
    (calls calls2 : List (ngx_pool_t × ngx_wavm_module_t × Option ngx_wavm_host_def_t))
    (ctx ctx1 : ngx_wavm_ctx_t)
    (hinit : ngx_wavm_ctx_init wrt pool (ngx_wavm_module_link_seq calls vm0).2 ctx =
      (NGX_OK, ctx1)) :
    ∃ slots, ctx1.instances = some slots ∧
      slots.length = (ngx_wavm_module_link_seq calls vm0).2.lmodules_max ∧
      (∀ lm ∈ (ngx_wavm_module_link_seq calls vm0).1.filterMap id, lm.idx < slots.length) ∧
      (∀ (env : instance_env) (lm : ngx_wavm_linked_module_t) (m : ngx_wavm_module_t)
          (r : instance_result),
        ngx_wavm_instance_create env lm m ctx1 = some r →
          ∃ slots2, r.ctx.instances = some slots2 ∧ slots2.length = slots.length) ∧
      ngx_wavm_ctx_destroy (ngx_wavm_module_link_seq calls vm0).2 ctx1 = some [] ∧
      (∀ lm ∈ (ngx_wavm_module_link_seq calls2
          (ngx_wavm_module_link_seq calls vm0).2).1.filterMap id,
        slots.length ≤ lm.idx ∧
        ∀ (env : instance_env) (m : ngx_wavm_module_t),
          ngx_wavm_instance_create env lm m ctx1 = none) ∧
      ((ngx_wavm_module_link_seq calls2
          (ngx_wavm_module_link_seq calls vm0).2).1.filterMap id ≠ [] →
        ngx_wavm_ctx_destroy
          (ngx_wavm_module_link_seq calls2 (ngx_wavm_module_link_seq calls vm0).2).2 ctx1 =
          none) := by
  have hslots := ngx_wavm_ctx_init_ok wrt pool _ ctx ctx1 hinit
  obtain ⟨h1, h2⟩ := ngx_wavm_module_link_seq_idx calls vm0
  obtain ⟨h3, h4⟩ := ngx_wavm_module_link_seq_idx calls2 (ngx_wavm_module_link_seq calls vm0).2
  refine ⟨_, hslots, by simp, ?_, ?_, ?_, ?_, ?_⟩
  · intro lm hlm
    have hmem : lm.idx ∈ ((ngx_wavm_module_link_seq calls vm0).1.filterMap id).map
        (fun lm => lm.idx) := List.mem_map_of_mem _ hlm
    rw [h1, List.mem_range'_1] at hmem
    simp only [List.length_replicate]
    omega
  · intro env lm m r h
    exact ngx_wavm_instance_create_length env lm m ctx1 r _ hslots h
  · unfold ngx_wavm_ctx_destroy
    rw [hslots]
    exact ngx_wavm_ctx_destroy_loop_empty _ _ 0 (by omega)
  · intro lm hlm
    have hmem : lm.idx ∈ ((ngx_wavm_module_link_seq calls2
        (ngx_wavm_module_link_seq calls vm0).2).1.filterMap id).map
        (fun lm => lm.idx) := List.mem_map_of_mem _ hlm
    rw [h3, List.mem_range'_1] at hmem
    have hle : (List.replicate (ngx_wavm_module_link_seq calls vm0).2.lmodules_max
        (none : Option ngx_wavm_instance_t)).length ≤ lm.idx := by
      simp only [List.length_replicate]
      omega
    exact ⟨hle, fun env m => ngx_wavm_instance_create_outside env lm m ctx1 _ hslots hle⟩
  · intro hne
    have hpos : 0 < ((ngx_wavm_module_link_seq calls2
        (ngx_wavm_module_link_seq calls vm0).2).1.filterMap id).length :=
      List.length_pos.mpr hne
    unfold ngx_wavm_ctx_destroy
    rw [hslots]
    apply ngx_wavm_ctx_destroy_loop_outside
    · omega
    · simp only [List.length_replicate]
      omega

/-- Witness of the amended C23: one link before `ngx_wavm_ctx_init` and one
after it. -/
theorem C23_slots_of_links_before_init_witness :
    ngx_wavm_ctx_init (example_wrt example_wasm_no_import) ngx_pool_ok
        (ngx_wavm_module_link_seq [(ngx_pool_ok, example_module, some example_host)]
          example_vm).2
        { addr := 1, store := none, instances := none } = (NGX_OK, example_ctx_linked) ∧
    ∃ slots, example_ctx_linked.instances = some slots ∧
      slots.length = (ngx_wavm_module_link_seq
        [(ngx_pool_ok, example_module, some example_host)] example_vm).2.lmodules_max ∧
      (∀ lm ∈ (ngx_wavm_module_link_seq
          [(ngx_pool_ok, example_module, some example_host)] example_vm).1.filterMap id,
        lm.idx < slots.length) ∧
      (∀ (env : instance_env) (lm : ngx_wavm_linked_module_t) (m : ngx_wavm_module_t)
          (r : instance_result),
        ngx_wavm_instance_create env lm m example_ctx_linked = some r →
          ∃ slots2, r.ctx.instances = some slots2 ∧ slots2.length = slots.length) ∧
      ngx_wavm_ctx_destroy (ngx_wavm_module_link_seq
        [(ngx_pool_ok, example_module, some example_host)] example_vm).2
        example_ctx_linked = some [] ∧
      (∀ lm ∈ (ngx_wavm_module_link_seq [(ngx_pool_ok, example_module, some example_host)]
          (ngx_wavm_module_link_seq [(ngx_pool_ok, example_module, some example_host)]
            example_vm).2).1.filterMap id,
        slots.length ≤ lm.idx ∧
        ∀ (env : instance_env) (m : ngx_wavm_module_t),
          ngx_wavm_instance_create env lm m example_ctx_linked = none) ∧
      ((ngx_wavm_module_link_seq [(ngx_pool_ok, example_module, some example_host)]
          (ngx_wavm_module_link_seq [(ngx_pool_ok, example_module, some example_host)]
            example_vm).2).1.filterMap id ≠ [] →
        ngx_wavm_ctx_destroy
          (ngx_wavm_module_link_seq [(ngx_pool_ok, example_module, some example_host)]
            (ngx_wavm_module_link_seq [(ngx_pool_ok, example_module, some example_host)]
              example_vm).2).2 example_ctx_linked = none) :=
  ⟨by decide,
    C23_slots_of_links_before_init (example_wrt example_wasm_no_import) ngx_pool_ok example_vm
      [(ngx_pool_ok, example_module, some example_host)]
      [(ngx_pool_ok, example_module, some example_host)]
      { addr := 1, store := none, instances := none } example_ctx_linked (by decide)⟩

end NgxWasm
